import Mathlib

/-!
# Solana JSON-RPC client: the call envelope and its wrappers

A shallow embedding of `generated/go/client.go` and of the parts of
`generated/go/types.go` it uses.  The Go standard library pieces the client
relies on (`encoding/json`, `net/http`, `net/url`) are embedded as far as the
client observes them; what the client cannot influence (the answer of the
network, the remaining checks of the URL parser) is a field of `Runtime`.
-/

namespace Solana

/-! ## JSON values -/

/-- A JSON value as `encoding/json` reads and writes it.  A number literal that
is a plain integer is kept as sign and magnitude (so that `-0` stays apart from
`0`, which matters for unsigned targets); any other number literal (fraction or
exponent) is kept as text. -/
inductive JSON where
  | null : JSON
  | bool (b : Bool) : JSON
  | num (negative : Bool) (magnitude : Nat) : JSON
  | real (literal : String) : JSON
  | str (s : String) : JSON
  | arr (items : List JSON) : JSON
  | obj (members : List (String × JSON)) : JSON

namespace JSON

/-- The integer literal that `encoding/json` writes for a Go integer. -/
def int (n : Int) : JSON :=
  JSON.num (decide (n < 0)) n.natAbs

/-- The value of the first member of an object with the given key. -/
def member (key : String) : JSON → Option JSON
  | JSON.obj ms => (ms.find? (fun kv => kv.1 == key)).map Prod.snd
  | _ => none

/-- The keys of an object, in order. -/
def keys : JSON → List String
  | JSON.obj ms => ms.map Prod.fst
  | _ => []

end JSON

/-- Go `json.RawMessage` as left by the decoder: `none` is the nil (empty) byte
slice, `some v` the bytes of the JSON value `v`. -/
abbrev RawMessage := Option JSON

/-- A Go slice: `none` is the nil slice, `some xs` a non-nil slice. -/
abbrev GoSlice (α : Type) := Option (List α)

/-- Go `append` on a slice. -/
def GoSlice.append {α : Type} (s : GoSlice α) (x : α) : GoSlice α :=
  some (s.getD [] ++ [x])

/-- Go `make([]T, 0)`: an empty slice that is not nil. -/
def GoSlice.make {α : Type} : GoSlice α := some []

/-! ## Decoding primitives of `encoding/json`

Error texts are abridged: the decoder of Go also names the offending literal
and the struct field in them. -/

/-- Case folding of `encoding/json` field lookup on one character: ASCII
letters, and the two non-ASCII characters that fold to ASCII letters. -/
def foldChar (c : Char) : Char :=
  if c.toNat = 0x212A then 'k'
  else if c.toNat = 0x017F then 's'
  else c.toLower

/-- Folded form of an object key or field name. -/
def foldName (s : String) : String := String.mk (s.toList.map foldChar)

/-- Whether an object key selects the struct field with the given JSON name. -/
def keyMatches (key field : String) : Bool :=
  key == field || foldName key == foldName field

/-- Store a JSON value into a Go `string`: the new contents and the error
recorded by the decoder, if any. -/
def storeString (cur : String) : JSON → String × Option String
  | JSON.str s => (s, none)
  | JSON.null => (cur, none)
  | _ => (cur, some "json: cannot unmarshal value into Go value of type string")

/-- Store a JSON value into a Go `int64` (also `int` on 64-bit targets). -/
def storeInt64 (cur : Int) : JSON → Int × Option String
  | JSON.num neg m =>
      let v : Int := if neg then -(m : Int) else (m : Int)
      if -(2 ^ 63 : Int) ≤ v ∧ v < (2 ^ 63 : Int) then (v, none)
      else (cur, some "json: cannot unmarshal number into Go value of type int64")
  | JSON.null => (cur, none)
  | _ => (cur, some "json: cannot unmarshal value into Go value of type int64")

/-- Store a JSON value into a Go `uint64`. -/
def storeUint64 (cur : Nat) : JSON → Nat × Option String
  | JSON.num neg m =>
      if neg = false ∧ m < 2 ^ 64 then (m, none)
      else (cur, some "json: cannot unmarshal number into Go value of type uint64")
  | JSON.null => (cur, none)
  | _ => (cur, some "json: cannot unmarshal value into Go value of type uint64")

/-- The decoder keeps the first error it recorded. -/
def saveError (saved new : Option String) : Option String :=
  match saved with
  | some e => some e
  | none => new

/-! ## Wire types of `client.go` -/

/-- Go `RPCError`. -/
structure RPCError where
  Code : Int
  Message : String
  Data : RawMessage

/-- Go `rpcResponse`. -/
structure rpcResponse where
  JsonRPC : String
  ID : Nat
  Result : RawMessage
  Error : Option RPCError

/-- The zero value of `RPCError`. -/
def RPCError.zero : RPCError := ⟨0, "", none⟩

/-- The zero value of `rpcResponse`. -/
def rpcResponse.zero : rpcResponse := ⟨"", 0, none, none⟩

/-- One object member decoded into an `RPCError`. -/
def RPCError.storeMember (st : RPCError × Option String) (kv : String × JSON) :
    RPCError × Option String :=
  let e := st.1
  if keyMatches kv.1 "code" then
    let r := storeInt64 e.Code kv.2
    (⟨r.1, e.Message, e.Data⟩, saveError st.2 r.2)
  else if keyMatches kv.1 "message" then
    let r := storeString e.Message kv.2
    (⟨e.Code, r.1, e.Data⟩, saveError st.2 r.2)
  else if keyMatches kv.1 "data" then
    (⟨e.Code, e.Message, some kv.2⟩, st.2)
  else st

/-- Store a JSON value into a Go `*RPCError`. -/
def storeRPCError (cur : Option RPCError) : JSON → Option RPCError × Option String
  | JSON.null => (none, none)
  | JSON.obj ms =>
      let r := ms.foldl RPCError.storeMember (cur.getD RPCError.zero, none)
      (some r.1, r.2)
  | _ => (some (cur.getD RPCError.zero),
          some "json: cannot unmarshal value into Go struct field rpcResponse.error")

/-- One object member decoded into an `rpcResponse`. -/
def rpcResponse.storeMember (st : rpcResponse × Option String) (kv : String × JSON) :
    rpcResponse × Option String :=
  let r := st.1
  if keyMatches kv.1 "jsonrpc" then
    let x := storeString r.JsonRPC kv.2
    (⟨x.1, r.ID, r.Result, r.Error⟩, saveError st.2 x.2)
  else if keyMatches kv.1 "id" then
    let x := storeUint64 r.ID kv.2
    (⟨r.JsonRPC, x.1, r.Result, r.Error⟩, saveError st.2 x.2)
  else if keyMatches kv.1 "result" then
    (⟨r.JsonRPC, r.ID, some kv.2, r.Error⟩, st.2)
  else if keyMatches kv.1 "error" then
    let x := storeRPCError r.Error kv.2
    (⟨r.JsonRPC, r.ID, r.Result, x.1⟩, saveError st.2 x.2)
  else st

/-- The body of an HTTP response as the JSON decoder meets it: either no JSON
value can be read from it (empty, truncated, not JSON, read failure), or its
first JSON value. -/
inductive Body where
  | malformed (cause : String) : Body
  | json (v : JSON) : Body

/-- Decoding of a response body into a fresh `rpcResponse`:
`json.NewDecoder(resp.Body).Decode(&rpcResp)`. -/
def decodeEnvelope : Body → Except String rpcResponse
  | Body.malformed cause => Except.error cause
  | Body.json JSON.null => Except.ok rpcResponse.zero
  | Body.json (JSON.obj ms) =>
      match ms.foldl rpcResponse.storeMember (rpcResponse.zero, none) with
      | (_, some e) => Except.error e
      | (r, none) => Except.ok r
  | Body.json _ =>
      Except.error "json: cannot unmarshal value into Go value of type solana.rpcResponse"

/-- The shape a caller wants the result in: the type behind the pointer handed
to `json.Unmarshal`, with its zero value and the way a JSON value is stored
into it (the contents afterwards, and the error if the store failed). -/
structure Shape (α : Type) where
  zero : α
  store : α → JSON → α × Option String

/-- Go `json.Unmarshal(data, &v)` on a raw message. -/
def jsonUnmarshal {α : Type} (S : Shape α) (data : RawMessage) (v : α) : α × Option String :=
  match data with
  | none => (v, some "unexpected end of JSON input")
  | some j => S.store v j

/-! ## Parameter values (`types.go`) -/

/-- The contents of a Go `interface{}` held in a map, as the encoder sees it:
a value it renders, or a value of a kind it rejects (channel, function,
complex number, NaN or infinite float). -/
inductive Dyn where
  | value (j : JSON) : Dyn
  | unsupported (goType : String) : Dyn

/-- A Go `map[string]interface{}`: `none` is the nil map, `some es` the entries
listed in the key order in which the encoder writes them. -/
abbrev GoMap := Option (List (String × Dyn))

/-- Go `Pubkey = string`. -/
abbrev Pubkey := String

/-- Go `Signature = string`. -/
abbrev Signature := String

/-- Go `Hash = string`. -/
abbrev Hash := String

/-- Go `Slot = int64`. -/
abbrev Slot := Int

/-- Go `Commitment` (a string type). -/
abbrev Commitment := String

/-- Go `Encoding` (a string type). -/
abbrev Encoding := String

/-- Go `TransactionEncoding` (a string type). -/
abbrev TransactionEncoding := String

structure CommitmentConfig where
  Commitment : Commitment
  MinContextSlot : Int

structure DataSlice where
  Offset : Int
  Length : Int

structure GetAccountInfoConfig where
  Commitment : Commitment
  Encoding : Encoding
  DataSlice : DataSlice
  MinContextSlot : Int

structure GetBlockConfig where
  Encoding : TransactionEncoding
  TransactionDetails : String
  Rewards : Bool
  Commitment : Commitment
  MaxSupportedTransactionVersion : Int

structure GetBlockProductionConfig where
  Commitment : Commitment
  Range : GoMap
  Identity : Pubkey

structure GetInflationRewardConfig where
  Commitment : Commitment
  Epoch : Int
  MinContextSlot : Int

structure GetLargestAccountsConfig where
  Commitment : Commitment
  Filter : String

structure GetLeaderScheduleConfig where
  Commitment : Commitment
  Identity : Pubkey

structure AccountFilter where
  Memcmp : GoMap
  DataSize : Int

structure GetProgramAccountsConfig where
  Commitment : Commitment
  Encoding : Encoding
  DataSlice : DataSlice
  Filters : GoSlice AccountFilter
  WithContext : Bool
  MinContextSlot : Int

structure GetSignatureStatusesConfig where
  SearchTransactionHistory : Bool

structure GetSignaturesForAddressConfig where
  Limit : Int
  Before : Signature
  Until : Signature
  Commitment : Commitment
  MinContextSlot : Int

structure GetSupplyConfig where
  Commitment : Commitment
  ExcludeNonCirculatingAccountsList : Bool

structure TokenAccountsFilter where
  Mint : Pubkey
  ProgramId : Pubkey

structure GetTokenAccountsConfig where
  Commitment : Commitment
  Encoding : Encoding
  DataSlice : DataSlice
  MinContextSlot : Int

structure GetTransactionConfig where
  Encoding : TransactionEncoding
  Commitment : Commitment
  MaxSupportedTransactionVersion : Int

structure GetVoteAccountsConfig where
  Commitment : Commitment
  VotePubkey : Pubkey
  KeepUnstakedDelinquents : Bool
  DelinquentSlotDistance : Int

structure SendTransactionConfig where
  Encoding : String
  SkipPreflight : Bool
  PreflightCommitment : Commitment
  MaxRetries : Int
  MinContextSlot : Int

structure SimulateTransactionConfig where
  SigVerify : Bool
  Commitment : Commitment
  Encoding : String
  ReplaceRecentBlockhash : Bool
  Accounts : GoMap
  MinContextSlot : Int
  InnerInstructions : Bool

/-- A Go value held in the `[]interface{}` parameter list: one constructor for
each dynamic type the wrappers of `client.go` put there. -/
inductive Arg where
  | string (s : String) : Arg
  | int64 (n : Int) : Arg
  | stringSlice (xs : GoSlice String) : Arg
  | tokenAccountsFilter (f : TokenAccountsFilter) : Arg
  | commitmentConfig (c : CommitmentConfig) : Arg
  | getAccountInfoConfig (c : GetAccountInfoConfig) : Arg
  | getBlockConfig (c : GetBlockConfig) : Arg
  | getBlockProductionConfig (c : GetBlockProductionConfig) : Arg
  | getInflationRewardConfig (c : GetInflationRewardConfig) : Arg
  | getLargestAccountsConfig (c : GetLargestAccountsConfig) : Arg
  | getLeaderScheduleConfig (c : GetLeaderScheduleConfig) : Arg
  | getProgramAccountsConfig (c : GetProgramAccountsConfig) : Arg
  | getSignatureStatusesConfig (c : GetSignatureStatusesConfig) : Arg
  | getSignaturesForAddressConfig (c : GetSignaturesForAddressConfig) : Arg
  | getSupplyConfig (c : GetSupplyConfig) : Arg
  | getTokenAccountsConfig (c : GetTokenAccountsConfig) : Arg
  | getTransactionConfig (c : GetTransactionConfig) : Arg
  | getVoteAccountsConfig (c : GetVoteAccountsConfig) : Arg
  | sendTransactionConfig (c : SendTransactionConfig) : Arg
  | simulateTransactionConfig (c : SimulateTransactionConfig) : Arg

/-! ## Encoding (`json.Marshal`) -/

/-- A string field tagged `omitempty`. -/
def omitString (key s : String) : List (String × JSON) :=
  if s = "" then [] else [(key, JSON.str s)]

/-- An integer field tagged `omitempty`. -/
def omitInt (key : String) (n : Int) : List (String × JSON) :=
  if n = 0 then [] else [(key, JSON.int n)]

/-- A boolean field tagged `omitempty`. -/
def omitBool (key : String) (b : Bool) : List (String × JSON) :=
  if b then [(key, JSON.bool true)] else []

/-- Encoding of an `interface{}` value. -/
def marshalDyn : Dyn → Except String JSON
  | Dyn.value j => Except.ok j
  | Dyn.unsupported t => Except.error ("json: unsupported type: " ++ t)

/-- Encoding of the entries of a map. -/
def marshalEntries : List (String × Dyn) → Except String (List (String × JSON))
  | [] => Except.ok []
  | (k, d) :: rest =>
      match marshalDyn d with
      | Except.error e => Except.error e
      | Except.ok j =>
          match marshalEntries rest with
          | Except.error e => Except.error e
          | Except.ok js => Except.ok ((k, j) :: js)

/-- A map field tagged `omitempty`: left out when the map is nil or empty. -/
def omitMap (key : String) (m : GoMap) : Except String (List (String × JSON)) :=
  match m with
  | none => Except.ok []
  | some [] => Except.ok []
  | some es =>
      match marshalEntries es with
      | Except.error e => Except.error e
      | Except.ok js => Except.ok [(key, JSON.obj js)]

/-- Encoding of a `DataSlice`; as a struct it is never left out by `omitempty`. -/
def marshalDataSlice (key : String) (d : DataSlice) : List (String × JSON) :=
  [(key, JSON.obj (omitInt "offset" d.Offset ++ omitInt "length" d.Length))]

/-- Encoding of one `AccountFilter`. -/
def marshalAccountFilter (f : AccountFilter) : Except String JSON :=
  match omitMap "memcmp" f.Memcmp with
  | Except.error e => Except.error e
  | Except.ok ms => Except.ok (JSON.obj (ms ++ omitInt "dataSize" f.DataSize))

/-- Encoding of a list of `AccountFilter`. -/
def marshalAccountFilters : List AccountFilter → Except String (List JSON)
  | [] => Except.ok []
  | f :: rest =>
      match marshalAccountFilter f with
      | Except.error e => Except.error e
      | Except.ok j =>
          match marshalAccountFilters rest with
          | Except.error e => Except.error e
          | Except.ok js => Except.ok (j :: js)

/-- The `filters` field tagged `omitempty`: left out when nil or empty. -/
def omitFilters (key : String) (fs : GoSlice AccountFilter) :
    Except String (List (String × JSON)) :=
  match fs with
  | none => Except.ok []
  | some [] => Except.ok []
  | some xs =>
      match marshalAccountFilters xs with
      | Except.error e => Except.error e
      | Except.ok js => Except.ok [(key, JSON.arr js)]

/-- Encoding of one element of the parameter list. -/
def marshalArg : Arg → Except String JSON
  | Arg.string s => Except.ok (JSON.str s)
  | Arg.int64 n => Except.ok (JSON.int n)
  | Arg.stringSlice none => Except.ok JSON.null
  | Arg.stringSlice (some xs) => Except.ok (JSON.arr (xs.map JSON.str))
  | Arg.tokenAccountsFilter f =>
      Except.ok (JSON.obj (omitString "mint" f.Mint ++ omitString "programId" f.ProgramId))
  | Arg.commitmentConfig c =>
      Except.ok (JSON.obj (omitString "commitment" c.Commitment
        ++ omitInt "minContextSlot" c.MinContextSlot))
  | Arg.getAccountInfoConfig c =>
      Except.ok (JSON.obj (omitString "commitment" c.Commitment
        ++ omitString "encoding" c.Encoding ++ marshalDataSlice "dataSlice" c.DataSlice
        ++ omitInt "minContextSlot" c.MinContextSlot))
  | Arg.getBlockConfig c =>
      Except.ok (JSON.obj (omitString "encoding" c.Encoding
        ++ omitString "transactionDetails" c.TransactionDetails
        ++ omitBool "rewards" c.Rewards ++ omitString "commitment" c.Commitment
        ++ omitInt "maxSupportedTransactionVersion" c.MaxSupportedTransactionVersion))
  | Arg.getBlockProductionConfig c =>
      match omitMap "range" c.Range with
      | Except.error e => Except.error e
      | Except.ok r =>
          Except.ok (JSON.obj (omitString "commitment" c.Commitment ++ r
            ++ omitString "identity" c.Identity))
  | Arg.getInflationRewardConfig c =>
      Except.ok (JSON.obj (omitString "commitment" c.Commitment
        ++ omitInt "epoch" c.Epoch ++ omitInt "minContextSlot" c.MinContextSlot))
  | Arg.getLargestAccountsConfig c =>
      Except.ok (JSON.obj (omitString "commitment" c.Commitment
        ++ omitString "filter" c.Filter))
  | Arg.getLeaderScheduleConfig c =>
      Except.ok (JSON.obj (omitString "commitment" c.Commitment
        ++ omitString "identity" c.Identity))
  | Arg.getProgramAccountsConfig c =>
      match omitFilters "filters" c.Filters with
      | Except.error e => Except.error e
      | Except.ok fs =>
          Except.ok (JSON.obj (omitString "commitment" c.Commitment
            ++ omitString "encoding" c.Encoding ++ marshalDataSlice "dataSlice" c.DataSlice
            ++ fs ++ omitBool "withContext" c.WithContext
            ++ omitInt "minContextSlot" c.MinContextSlot))
  | Arg.getSignatureStatusesConfig c =>
      Except.ok (JSON.obj (omitBool "searchTransactionHistory" c.SearchTransactionHistory))
  | Arg.getSignaturesForAddressConfig c =>
      Except.ok (JSON.obj (omitInt "limit" c.Limit ++ omitString "before" c.Before
        ++ omitString "until" c.Until ++ omitString "commitment" c.Commitment
        ++ omitInt "minContextSlot" c.MinContextSlot))
  | Arg.getSupplyConfig c =>
      Except.ok (JSON.obj (omitString "commitment" c.Commitment
        ++ omitBool "excludeNonCirculatingAccountsList" c.ExcludeNonCirculatingAccountsList))
  | Arg.getTokenAccountsConfig c =>
      Except.ok (JSON.obj (omitString "commitment" c.Commitment
        ++ omitString "encoding" c.Encoding ++ marshalDataSlice "dataSlice" c.DataSlice
        ++ omitInt "minContextSlot" c.MinContextSlot))
  | Arg.getTransactionConfig c =>
      Except.ok (JSON.obj (omitString "encoding" c.Encoding
        ++ omitString "commitment" c.Commitment
        ++ omitInt "maxSupportedTransactionVersion" c.MaxSupportedTransactionVersion))
  | Arg.getVoteAccountsConfig c =>
      Except.ok (JSON.obj (omitString "commitment" c.Commitment
        ++ omitString "votePubkey" c.VotePubkey
        ++ omitBool "keepUnstakedDelinquents" c.KeepUnstakedDelinquents
        ++ omitInt "delinquentSlotDistance" c.DelinquentSlotDistance))
  | Arg.sendTransactionConfig c =>
      Except.ok (JSON.obj (omitString "encoding" c.Encoding
        ++ omitBool "skipPreflight" c.SkipPreflight
        ++ omitString "preflightCommitment" c.PreflightCommitment
        ++ omitInt "maxRetries" c.MaxRetries ++ omitInt "minContextSlot" c.MinContextSlot))
  | Arg.simulateTransactionConfig c =>
      match omitMap "accounts" c.Accounts with
      | Except.error e => Except.error e
      | Except.ok acc =>
          Except.ok (JSON.obj (omitBool "sigVerify" c.SigVerify
            ++ omitString "commitment" c.Commitment ++ omitString "encoding" c.Encoding
            ++ omitBool "replaceRecentBlockhash" c.ReplaceRecentBlockhash ++ acc
            ++ omitInt "minContextSlot" c.MinContextSlot
            ++ omitBool "innerInstructions" c.InnerInstructions))

/-- Encoding of the elements of the parameter list, in order; the first element
that cannot be encoded fails the whole encoding. -/
def marshalArgs : List Arg → Except String (List JSON)
  | [] => Except.ok []
  | a :: rest =>
      match marshalArg a with
      | Except.error e => Except.error e
      | Except.ok j =>
          match marshalArgs rest with
          | Except.error e => Except.error e
          | Except.ok js => Except.ok (j :: js)

/-- Encoding of a `[]interface{}`: a nil slice is written `null`. -/
def marshalParams : GoSlice Arg → Except String JSON
  | none => Except.ok JSON.null
  | some xs =>
      match marshalArgs xs with
      | Except.error e => Except.error e
      | Except.ok js => Except.ok (JSON.arr js)

/-- Go `rpcRequest`. -/
structure rpcRequest where
  JsonRPC : String
  ID : Nat
  Method : String
  Params : GoSlice Arg

/-- Go `json.Marshal(reqBody)` for an `rpcRequest`: the four fields in
declaration order, none of them tagged `omitempty`. -/
def jsonMarshal (r : rpcRequest) : Except String JSON :=
  match marshalParams r.Params with
  | Except.error e => Except.error e
  | Except.ok ps =>
      Except.ok (JSON.obj [("jsonrpc", JSON.str r.JsonRPC), ("id", JSON.num false r.ID),
        ("method", JSON.str r.Method), ("params", ps)])

/-! ## HTTP (`net/http`, `net/url`) -/

/-- A Go `context.Context` as handed to a wrapper: the nil interface value, or
a context (identified by a tag, so that the transport may tell contexts apart,
for instance cancelled ones). -/
inductive Context where
  | nil : Context
  | live (tag : Nat) : Context

/-- A parsed URL (`*url.URL`): its scheme, its host (`host` or `host:port`), and
the rest of it (opaque part, user, path, query, fragment), kept as one string. -/
structure URL where
  Scheme : String
  Host : String
  Rest : String

/-- The request handed to the HTTP client. `URL` is the URL that
`http.NewRequestWithContext` parsed from the string it was given, with an empty
port removed from its host; the body is kept as the JSON value its bytes
spell. -/
structure HTTPRequest where
  ctx : Context
  Method : String
  URL : URL
  Header : List (String × String)
  Body : JSON

/-- A request as the HTTP client puts it on the wire, the first one of a `Do`
or one that follows a redirect: its method, URL and body (`none`: no body). Its
context is that of the request given to `Do`, and so are its headers, to which
the client adds `Referer` on a redirect. -/
structure WireRequest where
  Method : String
  URL : URL
  Body : Option JSON

/-- The first request `Do` puts on the wire for a request: the request itself. -/
def HTTPRequest.wire (r : HTTPRequest) : WireRequest :=
  ⟨r.Method, r.URL, some r.Body⟩

/-- What the transport (`http.DefaultTransport`) gives back for one request on
the wire: an error, or a response with its status code, its `Location` header
(empty when it has none) and its body. -/
inductive Exchange where
  | failed (cause : String) : Exchange
  | response (status : Nat) (location : String) (body : Body) : Exchange

/-- What `httpClient.Do` gives back: an error, or a response with its status
code and body. -/
inductive RoundTrip where
  | failed (cause : String) : RoundTrip
  | response (status : Nat) (body : Body) : RoundTrip

/-- The surroundings of a client. `urlRest` is the part of `url.Parse` that comes
after the scheme: from the scheme in lower case and the remainder of the string
it gives the host and the rest of the parsed URL, or the error of its checks. `resolve` is
`(*URL).Parse`, which resolves the `Location` of a redirect against the URL of
the request. `transport` is the answer of `http.DefaultTransport` to one request
on the wire; it may depend on the requests handed to the HTTP client before, on
the request handed to it now, and on the requests already put on the wire for
it. -/
structure Runtime where
  urlRest : String → String → Except String (String × String)
  resolve : URL → String → Except String URL
  transport : List HTTPRequest → HTTPRequest → List WireRequest → WireRequest → Exchange

/-- Go `stringContainsCTLByte`. -/
def stringContainsCTLByte (s : String) : Bool :=
  s.toList.any (fun c => decide (c.toNat < 0x20) || decide (c.toNat = 0x7f))

/-- The loop of Go `getScheme` over the characters not yet read, with the
characters read so far. -/
def getSchemeFrom (rawURL : String) : List Char → List Char → Except String (String × String)
  | _, [] => Except.ok ("", rawURL)
  | pre, c :: cs =>
      if c.isAlpha then getSchemeFrom rawURL (pre ++ [c]) cs
      else if c.isDigit || c == '+' || c == '-' || c == '.' then
        if pre.isEmpty then Except.ok ("", rawURL) else getSchemeFrom rawURL (pre ++ [c]) cs
      else if c == ':' then
        if pre.isEmpty then Except.error "missing protocol scheme"
        else Except.ok (String.mk pre, String.mk cs)
      else Except.ok ("", rawURL)

/-- Go `getScheme`: the scheme of a URL string and what follows its colon; no
scheme when the string does not start with one. -/
def getScheme (rawURL : String) : Except String (String × String) :=
  getSchemeFrom rawURL [] rawURL.toList

/-- Go `strings.ToLower` on a scheme (ASCII letters, digits, `+`, `-`, `.`). -/
def toLowerASCII (s : String) : String := String.mk (s.toList.map Char.toLower)

/-- Go `url.Parse`: the part before the first `#` must not contain an ASCII
control character; its scheme is split off and put in lower case; the rest of
the parsing is that of the runtime. -/
def urlParse (rt : Runtime) (rawURL : String) : Except String URL :=
  let u := String.mk (rawURL.toList.takeWhile (fun c => c != '#'))
  let frag := String.mk (rawURL.toList.dropWhile (fun c => c != '#'))
  if stringContainsCTLByte u then
    Except.error "net/url: invalid control character in URL"
  else
    match getScheme u with
    | Except.error e => Except.error e
    | Except.ok (scheme, rest) =>
        match rt.urlRest (toLowerASCII scheme) (rest ++ frag) with
        | Except.error e => Except.error e
        | Except.ok (host, r) => Except.ok ⟨toLowerASCII scheme, host, r⟩

/-- Go `strings.LastIndex(s, c)` for a single character `c`, read from position
`i` on, with the last position found so far (-1: none). -/
def lastIndexFrom (c : Char) : Nat → List Char → Int → Int
  | _, [], found => found
  | i, x :: xs, found => lastIndexFrom c (i + 1) xs (if x = c then (i : Int) else found)

/-- Go `strings.LastIndex(s, c)` for a single character `c`: the position of its
last occurrence, -1 when there is none. -/
def lastIndex (s : String) (c : Char) : Int := lastIndexFrom c 0 s.toList (-1)

/-- Go `hasPort`: whether a host of the form `host`, `host:port` or
`[ipv6::address]:port` includes a port. -/
def hasPort (s : String) : Bool := decide (lastIndex s ':' > lastIndex s ']')

/-- Go `removeEmptyPort`: strips the empty port of `host:`. -/
def removeEmptyPort (host : String) : String :=
  if hasPort host then
    if host.toList.getLast? = some ':' then String.mk host.toList.dropLast else host
  else host

/-- Go `http.NewRequestWithContext(ctx, "POST", url, bytes.NewReader(body))`. -/
def NewRequestWithContext (rt : Runtime) (ctx : Context) (url : String) (body : JSON) :
    Except String HTTPRequest :=
  match ctx with
  | Context.nil => Except.error "net/http: nil Context"
  | Context.live _ =>
      match urlParse rt url with
      | Except.error e => Except.error e
      | Except.ok u =>
          Except.ok ⟨ctx, "POST", ⟨u.Scheme, removeEmptyPort u.Host, u.Rest⟩, [], body⟩

/-- Go `req.Header.Set(key, value)`. -/
def HTTPRequest.setHeader (r : HTTPRequest) (key value : String) : HTTPRequest :=
  ⟨r.ctx, r.Method, r.URL, r.Header.filter (fun kv => kv.1 != key) ++ [(key, value)], r.Body⟩

/-- The value of the `httpClient` field. -/
inductive HTTPClient where
  | DefaultClient : HTTPClient

/-- Go `redirectBehavior` for a request whose body can be sent again (the body
of `call` is a `bytes.Reader`): the method of the next request, whether the
response is a redirect to follow, and whether the body goes along. -/
def redirectBehavior (reqMethod : String) (status : Nat) : String × Bool × Bool :=
  if status = 301 ∨ status = 302 ∨ status = 303 then
    (if reqMethod != "GET" && reqMethod != "HEAD" then "GET" else reqMethod, true, false)
  else if status = 307 ∨ status = 308 then
    (reqMethod, true, true)
  else
    ("", false, false)

/-- The loop of Go `(*Client).do` for the default client: `left` is the number
of requests the redirect policy still allows (ten in all), `hops` the requests
already put on the wire, `req` the one to put on the wire now. It gives the
requests put on the wire and what `Do` returns. -/
def HTTPClient.follow (rt : Runtime) (sent : List HTTPRequest) (ireq : HTTPRequest) :
    Nat → List WireRequest → WireRequest → List WireRequest × RoundTrip
  | 0, hops, _ => (hops, RoundTrip.failed "stopped after 10 redirects")
  | left + 1, hops, req =>
      match rt.transport sent ireq hops req with
      | Exchange.failed cause => (hops ++ [req], RoundTrip.failed cause)
      | Exchange.response status location body =>
          if (redirectBehavior req.Method status).2.1 = false then
            (hops ++ [req], RoundTrip.response status body)
          else if location = "" then
            (hops ++ [req], RoundTrip.response status body)
          else
            match rt.resolve req.URL location with
            | Except.error e => (hops ++ [req], RoundTrip.failed e)
            | Except.ok u =>
                HTTPClient.follow rt sent ireq left (hops ++ [req])
                  ⟨(redirectBehavior req.Method status).1, u,
                    if (redirectBehavior req.Method status).2.2 then some ireq.Body else none⟩

/-- Go `(*http.Client).Do` on the default client: the requests it puts on the
wire (the request itself, then one for each redirect it follows) and what it
returns. -/
def HTTPClient.Do (cl : HTTPClient) (rt : Runtime) (sent : List HTTPRequest)
    (req : HTTPRequest) : List WireRequest × RoundTrip :=
  match cl with
  | HTTPClient.DefaultClient =>
      HTTPClient.follow rt sent req 10 [] req.wire

/-- Whether the default client follows a response to a request of the given
method: its status is one of 301, 302, 303, 307, 308 and it has a `Location`. -/
def followed (reqMethod : String) (status : Nat) (location : String) : Bool :=
  (redirectBehavior reqMethod status).2.1 && location != ""

/-- What `http.DefaultClient.Do` returns for a request. -/
def Runtime.roundTrip (rt : Runtime) (sent : List HTTPRequest) (req : HTTPRequest) :
    RoundTrip :=
  (HTTPClient.DefaultClient.Do rt sent req).2

/-! ## The client (`client.go`) -/

def MainnetBeta : String := "https://api.mainnet-beta.solana.com"
def Devnet : String := "https://api.devnet.solana.com"
def Testnet : String := "https://api.testnet.solana.com"

/-- Go `Client`. -/
structure Client where
  endpoint : String
  httpClient : HTTPClient
  requestID : Nat

/-- Go `NewClient`; `requestID` is left at its zero value. -/
def NewClient (endpoint : String) : Client :=
  ⟨endpoint, HTTPClient.DefaultClient, 0⟩

/-- The errors `Client.call` returns, one constructor for each `return` of a
non-nil error, in source order. -/
inductive CallError where
  | marshalRequest (cause : String) : CallError
  | createRequest (cause : String) : CallError
  | doRequest (cause : String) : CallError
  | decodeResponse (cause : String) : CallError
  | rpc (e : RPCError) : CallError
  | unmarshalResult (cause : String) : CallError

/-- The outcome of one `Client.call`: the client afterwards, the requests
handed to the HTTP client so far, the contents of the caller-supplied result
value afterwards, and the returned error (`none`: nil). -/
structure CallResult (α : Type) where
  client : Client
  sent : List HTTPRequest
  result : α
  err : Option CallError

/-- Go `(*Client).call`. `sent` lists the requests handed to the HTTP client
before this call; `result` is the value behind the caller-supplied pointer. -/
def Client.call {α : Type} (rt : Runtime) (S : Shape α) (c : Client) (sent : List HTTPRequest)
    (ctx : Context) (method : String) (params : GoSlice Arg) (result : α) : CallResult α :=
  let id := (c.requestID + 1) % 2 ^ 64
  let c : Client := ⟨c.endpoint, c.httpClient, id⟩
  let reqBody : rpcRequest := ⟨"2.0", id, method, params⟩
  match jsonMarshal reqBody with
  | Except.error err => ⟨c, sent, result, some (CallError.marshalRequest err)⟩
  | Except.ok body =>
    match NewRequestWithContext rt ctx c.endpoint body with
    | Except.error err => ⟨c, sent, result, some (CallError.createRequest err)⟩
    | Except.ok req =>
      let req := req.setHeader "Content-Type" "application/json"
      match (c.httpClient.Do rt sent req).2 with
      | RoundTrip.failed err => ⟨c, sent ++ [req], result, some (CallError.doRequest err)⟩
      | RoundTrip.response _ respBody =>
        match decodeEnvelope respBody with
        | Except.error err => ⟨c, sent ++ [req], result, some (CallError.decodeResponse err)⟩
        | Except.ok rpcResp =>
          match rpcResp.Error with
          | some e => ⟨c, sent ++ [req], result, some (CallError.rpc e)⟩
          | none =>
            match jsonUnmarshal S rpcResp.Result result with
            | (r, some err) => ⟨c, sent ++ [req], r, some (CallError.unmarshalResult err)⟩
            | (r, none) => ⟨c, sent ++ [req], r, none⟩

/-! ## Result shapes (`types.go`) -/

/-- Go `RpcContext`. -/
structure RpcContext where
  ApiVersion : String
  Slot : Int

/-- Go `RpcResponseU64`. -/
structure RpcResponseU64 where
  Context : RpcContext
  Value : Int

/-- One object member decoded into an `RpcContext`. -/
def RpcContext.storeMember (st : RpcContext × Option String) (kv : String × JSON) :
    RpcContext × Option String :=
  let r := st.1
  if keyMatches kv.1 "apiVersion" then
    let x := storeString r.ApiVersion kv.2
    (⟨x.1, r.Slot⟩, saveError st.2 x.2)
  else if keyMatches kv.1 "slot" then
    let x := storeInt64 r.Slot kv.2
    (⟨r.ApiVersion, x.1⟩, saveError st.2 x.2)
  else st

/-- Store a JSON value into an `RpcContext`. -/
def storeRpcContext (cur : RpcContext) : JSON → RpcContext × Option String
  | JSON.null => (cur, none)
  | JSON.obj ms => ms.foldl RpcContext.storeMember (cur, none)
  | _ => (cur, some "json: cannot unmarshal value into Go value of type solana.RpcContext")

/-- One object member decoded into an `RpcResponseU64`. -/
def RpcResponseU64.storeMember (st : RpcResponseU64 × Option String) (kv : String × JSON) :
    RpcResponseU64 × Option String :=
  let r := st.1
  if keyMatches kv.1 "context" then
    let x := storeRpcContext r.Context kv.2
    (⟨x.1, r.Value⟩, saveError st.2 x.2)
  else if keyMatches kv.1 "value" then
    let x := storeInt64 r.Value kv.2
    (⟨r.Context, x.1⟩, saveError st.2 x.2)
  else st

/-- Store a JSON value into an `RpcResponseU64`. -/
def storeRpcResponseU64 (cur : RpcResponseU64) : JSON → RpcResponseU64 × Option String
  | JSON.null => (cur, none)
  | JSON.obj ms => ms.foldl RpcResponseU64.storeMember (cur, none)
  | _ => (cur, some "json: cannot unmarshal value into Go value of type solana.RpcResponseU64")

/-- The shape of a `var result RpcResponseU64`. -/
def RpcResponseU64.shape : Shape RpcResponseU64 :=
  ⟨⟨⟨"", 0⟩, 0⟩, storeRpcResponseU64⟩

/-! ## The wrappers (`client.go`): parameter lists -/

/-- The parameter list `GetAccountInfo` hands to `call`. -/
def Client.GetAccountInfo.params (pubkey : Pubkey) (config : Option GetAccountInfoConfig) : GoSlice Arg :=
  let params : GoSlice Arg := GoSlice.make
  let params := params.append (Arg.string pubkey)
  let params := match config with
    | some v => params.append (Arg.getAccountInfoConfig v)
    | none => params
  params

/-- The parameter list `GetBalance` hands to `call`. -/
def Client.GetBalance.params (pubkey : Pubkey) (config : Option CommitmentConfig) : GoSlice Arg :=
  let params : GoSlice Arg := GoSlice.make
  let params := params.append (Arg.string pubkey)
  let params := match config with
    | some v => params.append (Arg.commitmentConfig v)
    | none => params
  params

/-- The parameter list `GetBlock` hands to `call`. -/
def Client.GetBlock.params (slot : Slot) (config : Option GetBlockConfig) : GoSlice Arg :=
  let params : GoSlice Arg := GoSlice.make
  let params := params.append (Arg.int64 slot)
  let params := match config with
    | some v => params.append (Arg.getBlockConfig v)
    | none => params
  params

/-- The parameter list `GetBlockCommitment` hands to `call`. -/
def Client.GetBlockCommitment.params (slot : Slot) : GoSlice Arg :=
  let params : GoSlice Arg := GoSlice.make
  let params := params.append (Arg.int64 slot)
  params

/-- The parameter list `GetBlockHeight` hands to `call`. -/
def Client.GetBlockHeight.params (config : Option CommitmentConfig) : GoSlice Arg :=
  let params : GoSlice Arg := GoSlice.make
  let params := match config with
    | some v => params.append (Arg.commitmentConfig v)
    | none => params
  params

/-- The parameter list `GetBlockProduction` hands to `call`. -/
def Client.GetBlockProduction.params (config : Option GetBlockProductionConfig) : GoSlice Arg :=
  let params : GoSlice Arg := GoSlice.make
  let params := match config with
    | some v => params.append (Arg.getBlockProductionConfig v)
    | none => params
  params

/-- The parameter list `GetBlockTime` hands to `call`. -/
def Client.GetBlockTime.params (slot : Slot) : GoSlice Arg :=
  let params : GoSlice Arg := GoSlice.make
  let params := params.append (Arg.int64 slot)
  params

/-- The parameter list `GetBlocks` hands to `call`. -/
def Client.GetBlocks.params (startSlot : Slot) (endSlot : Option Slot) (config : Option CommitmentConfig) : GoSlice Arg :=
  let params : GoSlice Arg := GoSlice.make
  let params := params.append (Arg.int64 startSlot)
  let params := match endSlot with
    | some v => params.append (Arg.int64 v)
    | none => params
  let params := match config with
    | some v => params.append (Arg.commitmentConfig v)
    | none => params
  params

/-- The parameter list `GetBlocksWithLimit` hands to `call`. -/
def Client.GetBlocksWithLimit.params (startSlot : Slot) (limit : Int) (config : Option CommitmentConfig) : GoSlice Arg :=
  let params : GoSlice Arg := GoSlice.make
  let params := params.append (Arg.int64 startSlot)
  let params := params.append (Arg.int64 limit)
  let params := match config with
    | some v => params.append (Arg.commitmentConfig v)
    | none => params
  params

/-- The parameter list `GetClusterNodes` hands to `call`. -/
def Client.GetClusterNodes.params : GoSlice Arg :=
  let params : GoSlice Arg := GoSlice.make
  params

/-- The parameter list `GetEpochInfo` hands to `call`. -/
def Client.GetEpochInfo.params (config : Option CommitmentConfig) : GoSlice Arg :=
  let params : GoSlice Arg := GoSlice.make
  let params := match config with
    | some v => params.append (Arg.commitmentConfig v)
    | none => params
  params

/-- The parameter list `GetEpochSchedule` hands to `call`. -/
def Client.GetEpochSchedule.params : GoSlice Arg :=
  let params : GoSlice Arg := GoSlice.make
  params

/-- The parameter list `GetFeeForMessage` hands to `call`. -/
def Client.GetFeeForMessage.params (message : String) (config : Option CommitmentConfig) : GoSlice Arg :=
  let params : GoSlice Arg := GoSlice.make
  let params := params.append (Arg.string message)
  let params := match config with
    | some v => params.append (Arg.commitmentConfig v)
    | none => params
  params

/-- The parameter list `GetFirstAvailableBlock` hands to `call`. -/
def Client.GetFirstAvailableBlock.params : GoSlice Arg :=
  let params : GoSlice Arg := GoSlice.make
  params

/-- The parameter list `GetGenesisHash` hands to `call`. -/
def Client.GetGenesisHash.params : GoSlice Arg :=
  let params : GoSlice Arg := GoSlice.make
  params

/-- The parameter list `GetHealth` hands to `call`. -/
def Client.GetHealth.params : GoSlice Arg :=
  let params : GoSlice Arg := GoSlice.make
  params

/-- The parameter list `GetHighestSnapshotSlot` hands to `call`. -/
def Client.GetHighestSnapshotSlot.params : GoSlice Arg :=
  let params : GoSlice Arg := GoSlice.make
  params

/-- The parameter list `GetIdentity` hands to `call`. -/
def Client.GetIdentity.params : GoSlice Arg :=
  let params : GoSlice Arg := GoSlice.make
  params

/-- The parameter list `GetInflationGovernor` hands to `call`. -/
def Client.GetInflationGovernor.params (config : Option CommitmentConfig) : GoSlice Arg :=
  let params : GoSlice Arg := GoSlice.make
  let params := match config with
    | some v => params.append (Arg.commitmentConfig v)
    | none => params
  params

/-- The parameter list `GetInflationRate` hands to `call`. -/
def Client.GetInflationRate.params : GoSlice Arg :=
  let params : GoSlice Arg := GoSlice.make
  params

/-- The parameter list `GetInflationReward` hands to `call`. -/
def Client.GetInflationReward.params (addresses : GoSlice Pubkey) (config : Option GetInflationRewardConfig) : GoSlice Arg :=
  let params : GoSlice Arg := GoSlice.make
  let params := params.append (Arg.stringSlice addresses)
  let params := match config with
    | some v => params.append (Arg.getInflationRewardConfig v)
    | none => params
  params

/-- The parameter list `GetLargestAccounts` hands to `call`. -/
def Client.GetLargestAccounts.params (config : Option GetLargestAccountsConfig) : GoSlice Arg :=
  let params : GoSlice Arg := GoSlice.make
  let params := match config with
    | some v => params.append (Arg.getLargestAccountsConfig v)
    | none => params
  params

/-- The parameter list `GetLatestBlockhash` hands to `call`. -/
def Client.GetLatestBlockhash.params (config : Option CommitmentConfig) : GoSlice Arg :=
  let params : GoSlice Arg := GoSlice.make
  let params := match config with
    | some v => params.append (Arg.commitmentConfig v)
    | none => params
  params

/-- The parameter list `GetLeaderSchedule` hands to `call`. -/
def Client.GetLeaderSchedule.params (slot : Option Slot) (config : Option GetLeaderScheduleConfig) : GoSlice Arg :=
  let params : GoSlice Arg := GoSlice.make
  let params := match slot with
    | some v => params.append (Arg.int64 v)
    | none => params
  let params := match config with
    | some v => params.append (Arg.getLeaderScheduleConfig v)
    | none => params
  params

/-- The parameter list `GetMaxRetransmitSlot` hands to `call`. -/
def Client.GetMaxRetransmitSlot.params : GoSlice Arg :=
  let params : GoSlice Arg := GoSlice.make
  params

/-- The parameter list `GetMaxShredInsertSlot` hands to `call`. -/
def Client.GetMaxShredInsertSlot.params : GoSlice Arg :=
  let params : GoSlice Arg := GoSlice.make
  params

/-- The parameter list `GetMinimumBalanceForRentExemption` hands to `call`. -/
def Client.GetMinimumBalanceForRentExemption.params (dataLength : Int) (config : Option CommitmentConfig) : GoSlice Arg :=
  let params : GoSlice Arg := GoSlice.make
  let params := params.append (Arg.int64 dataLength)
  let params := match config with
    | some v => params.append (Arg.commitmentConfig v)
    | none => params
  params

/-- The parameter list `GetMultipleAccounts` hands to `call`. -/
def Client.GetMultipleAccounts.params (pubkeys : GoSlice Pubkey) (config : Option GetAccountInfoConfig) : GoSlice Arg :=
  let params : GoSlice Arg := GoSlice.make
  let params := params.append (Arg.stringSlice pubkeys)
  let params := match config with
    | some v => params.append (Arg.getAccountInfoConfig v)
    | none => params
  params

/-- The parameter list `GetProgramAccounts` hands to `call`. -/
def Client.GetProgramAccounts.params (programId : Pubkey) (config : Option GetProgramAccountsConfig) : GoSlice Arg :=
  let params : GoSlice Arg := GoSlice.make
  let params := params.append (Arg.string programId)
  let params := match config with
    | some v => params.append (Arg.getProgramAccountsConfig v)
    | none => params
  params

/-- The parameter list `GetRecentPerformanceSamples` hands to `call`. -/
def Client.GetRecentPerformanceSamples.params (limit : Option Int) : GoSlice Arg :=
  let params : GoSlice Arg := GoSlice.make
  let params := match limit with
    | some v => params.append (Arg.int64 v)
    | none => params
  params

/-- The parameter list `GetRecentPrioritizationFees` hands to `call`. -/
def Client.GetRecentPrioritizationFees.params (addresses : Option (GoSlice Pubkey)) : GoSlice Arg :=
  let params : GoSlice Arg := GoSlice.make
  let params := match addresses with
    | some v => params.append (Arg.stringSlice v)
    | none => params
  params

/-- The parameter list `GetSignatureStatuses` hands to `call`. -/
def Client.GetSignatureStatuses.params (signatures : GoSlice Signature) (config : Option GetSignatureStatusesConfig) : GoSlice Arg :=
  let params : GoSlice Arg := GoSlice.make
  let params := params.append (Arg.stringSlice signatures)
  let params := match config with
    | some v => params.append (Arg.getSignatureStatusesConfig v)
    | none => params
  params

/-- The parameter list `GetSignaturesForAddress` hands to `call`. -/
def Client.GetSignaturesForAddress.params (address : Pubkey) (config : Option GetSignaturesForAddressConfig) : GoSlice Arg :=
  let params : GoSlice Arg := GoSlice.make
  let params := params.append (Arg.string address)
  let params := match config with
    | some v => params.append (Arg.getSignaturesForAddressConfig v)
    | none => params
  params

/-- The parameter list `GetSlot` hands to `call`. -/
def Client.GetSlot.params (config : Option CommitmentConfig) : GoSlice Arg :=
  let params : GoSlice Arg := GoSlice.make
  let params := match config with
    | some v => params.append (Arg.commitmentConfig v)
    | none => params
  params

/-- The parameter list `GetSlotLeader` hands to `call`. -/
def Client.GetSlotLeader.params (config : Option CommitmentConfig) : GoSlice Arg :=
  let params : GoSlice Arg := GoSlice.make
  let params := match config with
    | some v => params.append (Arg.commitmentConfig v)
    | none => params
  params

/-- The parameter list `GetSlotLeaders` hands to `call`. -/
def Client.GetSlotLeaders.params (startSlot : Slot) (limit : Int) : GoSlice Arg :=
  let params : GoSlice Arg := GoSlice.make
  let params := params.append (Arg.int64 startSlot)
  let params := params.append (Arg.int64 limit)
  params

/-- The parameter list `GetStakeMinimumDelegation` hands to `call`. -/
def Client.GetStakeMinimumDelegation.params (config : Option CommitmentConfig) : GoSlice Arg :=
  let params : GoSlice Arg := GoSlice.make
  let params := match config with
    | some v => params.append (Arg.commitmentConfig v)
    | none => params
  params

/-- The parameter list `GetSupply` hands to `call`. -/
def Client.GetSupply.params (config : Option GetSupplyConfig) : GoSlice Arg :=
  let params : GoSlice Arg := GoSlice.make
  let params := match config with
    | some v => params.append (Arg.getSupplyConfig v)
    | none => params
  params

/-- The parameter list `GetTokenAccountBalance` hands to `call`. -/
def Client.GetTokenAccountBalance.params (pubkey : Pubkey) (config : Option CommitmentConfig) : GoSlice Arg :=
  let params : GoSlice Arg := GoSlice.make
  let params := params.append (Arg.string pubkey)
  let params := match config with
    | some v => params.append (Arg.commitmentConfig v)
    | none => params
  params

/-- The parameter list `GetTokenAccountsByDelegate` hands to `call`. -/
def Client.GetTokenAccountsByDelegate.params (delegate : Pubkey) (filter : TokenAccountsFilter) (config : Option GetTokenAccountsConfig) : GoSlice Arg :=
  let params : GoSlice Arg := GoSlice.make
  let params := params.append (Arg.string delegate)
  let params := params.append (Arg.tokenAccountsFilter filter)
  let params := match config with
    | some v => params.append (Arg.getTokenAccountsConfig v)
    | none => params
  params

/-- The parameter list `GetTokenAccountsByOwner` hands to `call`. -/
def Client.GetTokenAccountsByOwner.params (owner : Pubkey) (filter : TokenAccountsFilter) (config : Option GetTokenAccountsConfig) : GoSlice Arg :=
  let params : GoSlice Arg := GoSlice.make
  let params := params.append (Arg.string owner)
  let params := params.append (Arg.tokenAccountsFilter filter)
  let params := match config with
    | some v => params.append (Arg.getTokenAccountsConfig v)
    | none => params
  params

/-- The parameter list `GetTokenLargestAccounts` hands to `call`. -/
def Client.GetTokenLargestAccounts.params (mint : Pubkey) (config : Option CommitmentConfig) : GoSlice Arg :=
  let params : GoSlice Arg := GoSlice.make
  let params := params.append (Arg.string mint)
  let params := match config with
    | some v => params.append (Arg.commitmentConfig v)
    | none => params
  params

/-- The parameter list `GetTokenSupply` hands to `call`. -/
def Client.GetTokenSupply.params (mint : Pubkey) (config : Option CommitmentConfig) : GoSlice Arg :=
  let params : GoSlice Arg := GoSlice.make
  let params := params.append (Arg.string mint)
  let params := match config with
    | some v => params.append (Arg.commitmentConfig v)
    | none => params
  params

/-- The parameter list `GetTransaction` hands to `call`. -/
def Client.GetTransaction.params (signature : Signature) (config : Option GetTransactionConfig) : GoSlice Arg :=
  let params : GoSlice Arg := GoSlice.make
  let params := params.append (Arg.string signature)
  let params := match config with
    | some v => params.append (Arg.getTransactionConfig v)
    | none => params
  params

/-- The parameter list `GetTransactionCount` hands to `call`. -/
def Client.GetTransactionCount.params (config : Option CommitmentConfig) : GoSlice Arg :=
  let params : GoSlice Arg := GoSlice.make
  let params := match config with
    | some v => params.append (Arg.commitmentConfig v)
    | none => params
  params

/-- The parameter list `GetVersion` hands to `call`. -/
def Client.GetVersion.params : GoSlice Arg :=
  let params : GoSlice Arg := GoSlice.make
  params

/-- The parameter list `GetVoteAccounts` hands to `call`. -/
def Client.GetVoteAccounts.params (config : Option GetVoteAccountsConfig) : GoSlice Arg :=
  let params : GoSlice Arg := GoSlice.make
  let params := match config with
    | some v => params.append (Arg.getVoteAccountsConfig v)
    | none => params
  params

/-- The parameter list `IsBlockhashValid` hands to `call`. -/
def Client.IsBlockhashValid.params (blockhash : Hash) (config : Option CommitmentConfig) : GoSlice Arg :=
  let params : GoSlice Arg := GoSlice.make
  let params := params.append (Arg.string blockhash)
  let params := match config with
    | some v => params.append (Arg.commitmentConfig v)
    | none => params
  params

/-- The parameter list `MinimumLedgerSlot` hands to `call`. -/
def Client.MinimumLedgerSlot.params : GoSlice Arg :=
  let params : GoSlice Arg := GoSlice.make
  params

/-- The parameter list `RequestAirdrop` hands to `call`. -/
def Client.RequestAirdrop.params (pubkey : Pubkey) (lamports : Int) (config : Option CommitmentConfig) : GoSlice Arg :=
  let params : GoSlice Arg := GoSlice.make
  let params := params.append (Arg.string pubkey)
  let params := params.append (Arg.int64 lamports)
  let params := match config with
    | some v => params.append (Arg.commitmentConfig v)
    | none => params
  params

/-- The parameter list `SendTransaction` hands to `call`. -/
def Client.SendTransaction.params (transaction : String) (config : Option SendTransactionConfig) : GoSlice Arg :=
  let params : GoSlice Arg := GoSlice.make
  let params := params.append (Arg.string transaction)
  let params := match config with
    | some v => params.append (Arg.sendTransactionConfig v)
    | none => params
  params

/-- The parameter list `SimulateTransaction` hands to `call`. -/
def Client.SimulateTransaction.params (transaction : String) (config : Option SimulateTransactionConfig) : GoSlice Arg :=
  let params : GoSlice Arg := GoSlice.make
  let params := params.append (Arg.string transaction)
  let params := match config with
    | some v => params.append (Arg.simulateTransactionConfig v)
    | none => params
  params

/-- A call of one of the wrappers of `client.go` with its arguments (a nil pointer
is `none`). -/
inductive Invocation where
  | GetAccountInfo (pubkey : Pubkey) (config : Option GetAccountInfoConfig) : Invocation
  | GetBalance (pubkey : Pubkey) (config : Option CommitmentConfig) : Invocation
  | GetBlock (slot : Slot) (config : Option GetBlockConfig) : Invocation
  | GetBlockCommitment (slot : Slot) : Invocation
  | GetBlockHeight (config : Option CommitmentConfig) : Invocation
  | GetBlockProduction (config : Option GetBlockProductionConfig) : Invocation
  | GetBlockTime (slot : Slot) : Invocation
  | GetBlocks (startSlot : Slot) (endSlot : Option Slot) (config : Option CommitmentConfig) : Invocation
  | GetBlocksWithLimit (startSlot : Slot) (limit : Int) (config : Option CommitmentConfig) : Invocation
  | GetClusterNodes : Invocation
  | GetEpochInfo (config : Option CommitmentConfig) : Invocation
  | GetEpochSchedule : Invocation
  | GetFeeForMessage (message : String) (config : Option CommitmentConfig) : Invocation
  | GetFirstAvailableBlock : Invocation
  | GetGenesisHash : Invocation
  | GetHealth : Invocation
  | GetHighestSnapshotSlot : Invocation
  | GetIdentity : Invocation
  | GetInflationGovernor (config : Option CommitmentConfig) : Invocation
  | GetInflationRate : Invocation
  | GetInflationReward (addresses : GoSlice Pubkey) (config : Option GetInflationRewardConfig) : Invocation
  | GetLargestAccounts (config : Option GetLargestAccountsConfig) : Invocation
  | GetLatestBlockhash (config : Option CommitmentConfig) : Invocation
  | GetLeaderSchedule (slot : Option Slot) (config : Option GetLeaderScheduleConfig) : Invocation
  | GetMaxRetransmitSlot : Invocation
  | GetMaxShredInsertSlot : Invocation
  | GetMinimumBalanceForRentExemption (dataLength : Int) (config : Option CommitmentConfig) : Invocation
  | GetMultipleAccounts (pubkeys : GoSlice Pubkey) (config : Option GetAccountInfoConfig) : Invocation
  | GetProgramAccounts (programId : Pubkey) (config : Option GetProgramAccountsConfig) : Invocation
  | GetRecentPerformanceSamples (limit : Option Int) : Invocation
  | GetRecentPrioritizationFees (addresses : Option (GoSlice Pubkey)) : Invocation
  | GetSignatureStatuses (signatures : GoSlice Signature) (config : Option GetSignatureStatusesConfig) : Invocation
  | GetSignaturesForAddress (address : Pubkey) (config : Option GetSignaturesForAddressConfig) : Invocation
  | GetSlot (config : Option CommitmentConfig) : Invocation
  | GetSlotLeader (config : Option CommitmentConfig) : Invocation
  | GetSlotLeaders (startSlot : Slot) (limit : Int) : Invocation
  | GetStakeMinimumDelegation (config : Option CommitmentConfig) : Invocation
  | GetSupply (config : Option GetSupplyConfig) : Invocation
  | GetTokenAccountBalance (pubkey : Pubkey) (config : Option CommitmentConfig) : Invocation
  | GetTokenAccountsByDelegate (delegate : Pubkey) (filter : TokenAccountsFilter) (config : Option GetTokenAccountsConfig) : Invocation
  | GetTokenAccountsByOwner (owner : Pubkey) (filter : TokenAccountsFilter) (config : Option GetTokenAccountsConfig) : Invocation
  | GetTokenLargestAccounts (mint : Pubkey) (config : Option CommitmentConfig) : Invocation
  | GetTokenSupply (mint : Pubkey) (config : Option CommitmentConfig) : Invocation
  | GetTransaction (signature : Signature) (config : Option GetTransactionConfig) : Invocation
  | GetTransactionCount (config : Option CommitmentConfig) : Invocation
  | GetVersion : Invocation
  | GetVoteAccounts (config : Option GetVoteAccountsConfig) : Invocation
  | IsBlockhashValid (blockhash : Hash) (config : Option CommitmentConfig) : Invocation
  | MinimumLedgerSlot : Invocation
  | RequestAirdrop (pubkey : Pubkey) (lamports : Int) (config : Option CommitmentConfig) : Invocation
  | SendTransaction (transaction : String) (config : Option SendTransactionConfig) : Invocation
  | SimulateTransaction (transaction : String) (config : Option SimulateTransactionConfig) : Invocation

/-- The method name the wrapper hands to `call`. -/
def Invocation.method : Invocation → String
  | Invocation.GetAccountInfo _ _ => "getAccountInfo"
  | Invocation.GetBalance _ _ => "getBalance"
  | Invocation.GetBlock _ _ => "getBlock"
  | Invocation.GetBlockCommitment _ => "getBlockCommitment"
  | Invocation.GetBlockHeight _ => "getBlockHeight"
  | Invocation.GetBlockProduction _ => "getBlockProduction"
  | Invocation.GetBlockTime _ => "getBlockTime"
  | Invocation.GetBlocks _ _ _ => "getBlocks"
  | Invocation.GetBlocksWithLimit _ _ _ => "getBlocksWithLimit"
  | Invocation.GetClusterNodes => "getClusterNodes"
  | Invocation.GetEpochInfo _ => "getEpochInfo"
  | Invocation.GetEpochSchedule => "getEpochSchedule"
  | Invocation.GetFeeForMessage _ _ => "getFeeForMessage"
  | Invocation.GetFirstAvailableBlock => "getFirstAvailableBlock"
  | Invocation.GetGenesisHash => "getGenesisHash"
  | Invocation.GetHealth => "getHealth"
  | Invocation.GetHighestSnapshotSlot => "getHighestSnapshotSlot"
  | Invocation.GetIdentity => "getIdentity"
  | Invocation.GetInflationGovernor _ => "getInflationGovernor"
  | Invocation.GetInflationRate => "getInflationRate"
  | Invocation.GetInflationReward _ _ => "getInflationReward"
  | Invocation.GetLargestAccounts _ => "getLargestAccounts"
  | Invocation.GetLatestBlockhash _ => "getLatestBlockhash"
  | Invocation.GetLeaderSchedule _ _ => "getLeaderSchedule"
  | Invocation.GetMaxRetransmitSlot => "getMaxRetransmitSlot"
  | Invocation.GetMaxShredInsertSlot => "getMaxShredInsertSlot"
  | Invocation.GetMinimumBalanceForRentExemption _ _ => "getMinimumBalanceForRentExemption"
  | Invocation.GetMultipleAccounts _ _ => "getMultipleAccounts"
  | Invocation.GetProgramAccounts _ _ => "getProgramAccounts"
  | Invocation.GetRecentPerformanceSamples _ => "getRecentPerformanceSamples"
  | Invocation.GetRecentPrioritizationFees _ => "getRecentPrioritizationFees"
  | Invocation.GetSignatureStatuses _ _ => "getSignatureStatuses"
  | Invocation.GetSignaturesForAddress _ _ => "getSignaturesForAddress"
  | Invocation.GetSlot _ => "getSlot"
  | Invocation.GetSlotLeader _ => "getSlotLeader"
  | Invocation.GetSlotLeaders _ _ => "getSlotLeaders"
  | Invocation.GetStakeMinimumDelegation _ => "getStakeMinimumDelegation"
  | Invocation.GetSupply _ => "getSupply"
  | Invocation.GetTokenAccountBalance _ _ => "getTokenAccountBalance"
  | Invocation.GetTokenAccountsByDelegate _ _ _ => "getTokenAccountsByDelegate"
  | Invocation.GetTokenAccountsByOwner _ _ _ => "getTokenAccountsByOwner"
  | Invocation.GetTokenLargestAccounts _ _ => "getTokenLargestAccounts"
  | Invocation.GetTokenSupply _ _ => "getTokenSupply"
  | Invocation.GetTransaction _ _ => "getTransaction"
  | Invocation.GetTransactionCount _ => "getTransactionCount"
  | Invocation.GetVersion => "getVersion"
  | Invocation.GetVoteAccounts _ => "getVoteAccounts"
  | Invocation.IsBlockhashValid _ _ => "isBlockhashValid"
  | Invocation.MinimumLedgerSlot => "minimumLedgerSlot"
  | Invocation.RequestAirdrop _ _ _ => "requestAirdrop"
  | Invocation.SendTransaction _ _ => "sendTransaction"
  | Invocation.SimulateTransaction _ _ => "simulateTransaction"

/-- The parameter list the wrapper hands to `call`. -/
def Invocation.params : Invocation → GoSlice Arg
  | Invocation.GetAccountInfo pubkey config => Client.GetAccountInfo.params pubkey config
  | Invocation.GetBalance pubkey config => Client.GetBalance.params pubkey config
  | Invocation.GetBlock slot config => Client.GetBlock.params slot config
  | Invocation.GetBlockCommitment slot => Client.GetBlockCommitment.params slot
  | Invocation.GetBlockHeight config => Client.GetBlockHeight.params config
  | Invocation.GetBlockProduction config => Client.GetBlockProduction.params config
  | Invocation.GetBlockTime slot => Client.GetBlockTime.params slot
  | Invocation.GetBlocks startSlot endSlot config => Client.GetBlocks.params startSlot endSlot config
  | Invocation.GetBlocksWithLimit startSlot limit config => Client.GetBlocksWithLimit.params startSlot limit config
  | Invocation.GetClusterNodes => Client.GetClusterNodes.params
  | Invocation.GetEpochInfo config => Client.GetEpochInfo.params config
  | Invocation.GetEpochSchedule => Client.GetEpochSchedule.params
  | Invocation.GetFeeForMessage message config => Client.GetFeeForMessage.params message config
  | Invocation.GetFirstAvailableBlock => Client.GetFirstAvailableBlock.params
  | Invocation.GetGenesisHash => Client.GetGenesisHash.params
  | Invocation.GetHealth => Client.GetHealth.params
  | Invocation.GetHighestSnapshotSlot => Client.GetHighestSnapshotSlot.params
  | Invocation.GetIdentity => Client.GetIdentity.params
  | Invocation.GetInflationGovernor config => Client.GetInflationGovernor.params config
  | Invocation.GetInflationRate => Client.GetInflationRate.params
  | Invocation.GetInflationReward addresses config => Client.GetInflationReward.params addresses config
  | Invocation.GetLargestAccounts config => Client.GetLargestAccounts.params config
  | Invocation.GetLatestBlockhash config => Client.GetLatestBlockhash.params config
  | Invocation.GetLeaderSchedule slot config => Client.GetLeaderSchedule.params slot config
  | Invocation.GetMaxRetransmitSlot => Client.GetMaxRetransmitSlot.params
  | Invocation.GetMaxShredInsertSlot => Client.GetMaxShredInsertSlot.params
  | Invocation.GetMinimumBalanceForRentExemption dataLength config => Client.GetMinimumBalanceForRentExemption.params dataLength config
  | Invocation.GetMultipleAccounts pubkeys config => Client.GetMultipleAccounts.params pubkeys config
  | Invocation.GetProgramAccounts programId config => Client.GetProgramAccounts.params programId config
  | Invocation.GetRecentPerformanceSamples limit => Client.GetRecentPerformanceSamples.params limit
  | Invocation.GetRecentPrioritizationFees addresses => Client.GetRecentPrioritizationFees.params addresses
  | Invocation.GetSignatureStatuses signatures config => Client.GetSignatureStatuses.params signatures config
  | Invocation.GetSignaturesForAddress address config => Client.GetSignaturesForAddress.params address config
  | Invocation.GetSlot config => Client.GetSlot.params config
  | Invocation.GetSlotLeader config => Client.GetSlotLeader.params config
  | Invocation.GetSlotLeaders startSlot limit => Client.GetSlotLeaders.params startSlot limit
  | Invocation.GetStakeMinimumDelegation config => Client.GetStakeMinimumDelegation.params config
  | Invocation.GetSupply config => Client.GetSupply.params config
  | Invocation.GetTokenAccountBalance pubkey config => Client.GetTokenAccountBalance.params pubkey config
  | Invocation.GetTokenAccountsByDelegate delegate filter config => Client.GetTokenAccountsByDelegate.params delegate filter config
  | Invocation.GetTokenAccountsByOwner owner filter config => Client.GetTokenAccountsByOwner.params owner filter config
  | Invocation.GetTokenLargestAccounts mint config => Client.GetTokenLargestAccounts.params mint config
  | Invocation.GetTokenSupply mint config => Client.GetTokenSupply.params mint config
  | Invocation.GetTransaction signature config => Client.GetTransaction.params signature config
  | Invocation.GetTransactionCount config => Client.GetTransactionCount.params config
  | Invocation.GetVersion => Client.GetVersion.params
  | Invocation.GetVoteAccounts config => Client.GetVoteAccounts.params config
  | Invocation.IsBlockhashValid blockhash config => Client.IsBlockhashValid.params blockhash config
  | Invocation.MinimumLedgerSlot => Client.MinimumLedgerSlot.params
  | Invocation.RequestAirdrop pubkey lamports config => Client.RequestAirdrop.params pubkey lamports config
  | Invocation.SendTransaction transaction config => Client.SendTransaction.params transaction config
  | Invocation.SimulateTransaction transaction config => Client.SimulateTransaction.params transaction config

/-- The arguments of the wrapper in the order of its declared parameters, each
as the value it would contribute (a nil pointer is `none`). -/
def Invocation.args : Invocation → List (Option Arg)
  | Invocation.GetAccountInfo pubkey config => [some (Arg.string pubkey), config.map Arg.getAccountInfoConfig]
  | Invocation.GetBalance pubkey config => [some (Arg.string pubkey), config.map Arg.commitmentConfig]
  | Invocation.GetBlock slot config => [some (Arg.int64 slot), config.map Arg.getBlockConfig]
  | Invocation.GetBlockCommitment slot => [some (Arg.int64 slot)]
  | Invocation.GetBlockHeight config => [config.map Arg.commitmentConfig]
  | Invocation.GetBlockProduction config => [config.map Arg.getBlockProductionConfig]
  | Invocation.GetBlockTime slot => [some (Arg.int64 slot)]
  | Invocation.GetBlocks startSlot endSlot config => [some (Arg.int64 startSlot), endSlot.map Arg.int64, config.map Arg.commitmentConfig]
  | Invocation.GetBlocksWithLimit startSlot limit config => [some (Arg.int64 startSlot), some (Arg.int64 limit), config.map Arg.commitmentConfig]
  | Invocation.GetClusterNodes => []
  | Invocation.GetEpochInfo config => [config.map Arg.commitmentConfig]
  | Invocation.GetEpochSchedule => []
  | Invocation.GetFeeForMessage message config => [some (Arg.string message), config.map Arg.commitmentConfig]
  | Invocation.GetFirstAvailableBlock => []
  | Invocation.GetGenesisHash => []
  | Invocation.GetHealth => []
  | Invocation.GetHighestSnapshotSlot => []
  | Invocation.GetIdentity => []
  | Invocation.GetInflationGovernor config => [config.map Arg.commitmentConfig]
  | Invocation.GetInflationRate => []
  | Invocation.GetInflationReward addresses config => [some (Arg.stringSlice addresses), config.map Arg.getInflationRewardConfig]
  | Invocation.GetLargestAccounts config => [config.map Arg.getLargestAccountsConfig]
  | Invocation.GetLatestBlockhash config => [config.map Arg.commitmentConfig]
  | Invocation.GetLeaderSchedule slot config => [slot.map Arg.int64, config.map Arg.getLeaderScheduleConfig]
  | Invocation.GetMaxRetransmitSlot => []
  | Invocation.GetMaxShredInsertSlot => []
  | Invocation.GetMinimumBalanceForRentExemption dataLength config => [some (Arg.int64 dataLength), config.map Arg.commitmentConfig]
  | Invocation.GetMultipleAccounts pubkeys config => [some (Arg.stringSlice pubkeys), config.map Arg.getAccountInfoConfig]
  | Invocation.GetProgramAccounts programId config => [some (Arg.string programId), config.map Arg.getProgramAccountsConfig]
  | Invocation.GetRecentPerformanceSamples limit => [limit.map Arg.int64]
  | Invocation.GetRecentPrioritizationFees addresses => [addresses.map Arg.stringSlice]
  | Invocation.GetSignatureStatuses signatures config => [some (Arg.stringSlice signatures), config.map Arg.getSignatureStatusesConfig]
  | Invocation.GetSignaturesForAddress address config => [some (Arg.string address), config.map Arg.getSignaturesForAddressConfig]
  | Invocation.GetSlot config => [config.map Arg.commitmentConfig]
  | Invocation.GetSlotLeader config => [config.map Arg.commitmentConfig]
  | Invocation.GetSlotLeaders startSlot limit => [some (Arg.int64 startSlot), some (Arg.int64 limit)]
  | Invocation.GetStakeMinimumDelegation config => [config.map Arg.commitmentConfig]
  | Invocation.GetSupply config => [config.map Arg.getSupplyConfig]
  | Invocation.GetTokenAccountBalance pubkey config => [some (Arg.string pubkey), config.map Arg.commitmentConfig]
  | Invocation.GetTokenAccountsByDelegate delegate filter config => [some (Arg.string delegate), some (Arg.tokenAccountsFilter filter), config.map Arg.getTokenAccountsConfig]
  | Invocation.GetTokenAccountsByOwner owner filter config => [some (Arg.string owner), some (Arg.tokenAccountsFilter filter), config.map Arg.getTokenAccountsConfig]
  | Invocation.GetTokenLargestAccounts mint config => [some (Arg.string mint), config.map Arg.commitmentConfig]
  | Invocation.GetTokenSupply mint config => [some (Arg.string mint), config.map Arg.commitmentConfig]
  | Invocation.GetTransaction signature config => [some (Arg.string signature), config.map Arg.getTransactionConfig]
  | Invocation.GetTransactionCount config => [config.map Arg.commitmentConfig]
  | Invocation.GetVersion => []
  | Invocation.GetVoteAccounts config => [config.map Arg.getVoteAccountsConfig]
  | Invocation.IsBlockhashValid blockhash config => [some (Arg.string blockhash), config.map Arg.commitmentConfig]
  | Invocation.MinimumLedgerSlot => []
  | Invocation.RequestAirdrop pubkey lamports config => [some (Arg.string pubkey), some (Arg.int64 lamports), config.map Arg.commitmentConfig]
  | Invocation.SendTransaction transaction config => [some (Arg.string transaction), config.map Arg.sendTransactionConfig]
  | Invocation.SimulateTransaction transaction config => [some (Arg.string transaction), config.map Arg.simulateTransactionConfig]

/-- The body shared by every wrapper after its parameter list is built:
`var result T; err := c.call(ctx, name, params, &result); return result, err`,
for a result type `T` of shape `S`. -/
def Invocation.run {α : Type} (inv : Invocation) (rt : Runtime) (S : Shape α) (c : Client)
    (sent : List HTTPRequest) (ctx : Context) : CallResult α :=
  let params := inv.params
  let result := S.zero
  Client.call rt S c sent ctx inv.method params result

/-- Go `(*Client).GetBalance`. -/
def Client.GetBalance (rt : Runtime) (c : Client) (sent : List HTTPRequest) (ctx : Context)
    (pubkey : Pubkey) (config : Option CommitmentConfig) : CallResult RpcResponseU64 :=
  let params := Client.GetBalance.params pubkey config
  let result := RpcResponseU64.shape.zero
  Client.call rt RpcResponseU64.shape c sent ctx "getBalance" params result

/-! ## Sequences of calls -/

/-- The arguments of one `Client.call`. -/
structure CallInput where
  ctx : Context
  method : String
  params : GoSlice Arg
  α : Type
  shape : Shape α
  result : α

/-- The client and the requests handed to the HTTP client after a sequence of
calls issued one after another. -/
def runCalls (rt : Runtime) (c : Client) (sent : List HTTPRequest) :
    List CallInput → Client × List HTTPRequest
  | [] => (c, sent)
  | i :: rest =>
      let r := Client.call rt i.shape c sent i.ctx i.method i.params i.result
      runCalls rt r.client r.sent rest

/-- The identifier each call of a sequence allocated, in call order. -/
def allocatedIDs (rt : Runtime) (c : Client) (sent : List HTTPRequest) :
    List CallInput → List Nat
  | [] => []
  | i :: rest =>
      let r := Client.call rt i.shape c sent i.ctx i.method i.params i.result
      r.client.requestID :: allocatedIDs rt r.client r.sent rest

/-- The `id` member of the JSON-RPC request a HTTP request carries. -/
def HTTPRequest.rpcID (r : HTTPRequest) : Option Nat :=
  match r.Body.member "id" with
  | some (JSON.num false n) => some n
  | _ => none

/-- The identifiers sent over the wire by a sequence of calls on a new client. -/
def sentIDs (rt : Runtime) (endpoint : String) (calls : List CallInput) : List Nat :=
  (runCalls rt (NewClient endpoint) [] calls).2.filterMap HTTPRequest.rpcID

/-! ## Notions used to state the properties -/

/-- The identifier `call` allocates on a client: `atomic.AddUint64(&c.requestID, 1)`. -/
def Client.nextID (c : Client) : Nat := (c.requestID + 1) % 2 ^ 64

/-- The client after one `call`. -/
def Client.advance (c : Client) : Client := ⟨c.endpoint, c.httpClient, c.nextID⟩

/-- The part of `call` before the round trip (serialization, request
construction, content type): the request it hands to the HTTP client, or the
error it returns without reaching the network. -/
def Client.request (rt : Runtime) (c : Client) (ctx : Context) (method : String)
    (params : GoSlice Arg) : Except CallError HTTPRequest :=
  match jsonMarshal ⟨"2.0", c.nextID, method, params⟩ with
  | Except.error err => Except.error (CallError.marshalRequest err)
  | Except.ok body =>
      match NewRequestWithContext rt ctx c.endpoint body with
      | Except.error err => Except.error (CallError.createRequest err)
      | Except.ok req => Except.ok (req.setHeader "Content-Type" "application/json")

/-- The three failure kinds of the specification. -/
inductive ErrorKind where
  | transport : ErrorKind
  | decode : ErrorKind
  | rpcError : ErrorKind
  deriving DecidableEq

/-- The failure kind of the specification an error of `call` falls under, if
any: failures of request serialization and of request construction are neither
transport, nor decode, nor RPC failures. -/
def CallError.kind : CallError → Option ErrorKind
  | CallError.marshalRequest _ => none
  | CallError.createRequest _ => none
  | CallError.doRequest _ => some ErrorKind.transport
  | CallError.decodeResponse _ => some ErrorKind.decode
  | CallError.rpc _ => some ErrorKind.rpcError
  | CallError.unmarshalResult _ => some ErrorKind.decode

/-- A URL parser that accepts whatever follows the scheme: after `//` the host
is what stands before the next `/`, and the rest is kept as it is. -/
def acceptRest : String → String → Except String (String × String) :=
  fun _ rest =>
    match rest.toList with
    | '/' :: '/' :: cs =>
        Except.ok (String.mk (cs.takeWhile (fun c => c != '/')),
          String.mk (cs.dropWhile (fun c => c != '/')))
    | _ => Except.ok ("", rest)

/-- Resolution of a `Location` that is an absolute URL: the URL it spells. -/
def resolveAbsolute : URL → String → Except String URL :=
  fun _ loc =>
    match getScheme loc with
    | Except.error e => Except.error e
    | Except.ok (scheme, rest) =>
        match acceptRest (toLowerASCII scheme) rest with
        | Except.error e => Except.error e
        | Except.ok (host, r) => Except.ok ⟨toLowerASCII scheme, host, r⟩

/-- The URL parsed from `Devnet`. -/
def devnetURL : URL := ⟨"https", "api.devnet.solana.com", ""⟩

/-- A runtime whose URL parser accepts every endpoint free of control
characters and whose node answers every request with status 200 and the given
body. -/
def nodeAnswering (body : Body) : Runtime :=
  ⟨acceptRest, resolveAbsolute, fun _ _ _ _ => Exchange.response 200 "" body⟩

/-- An error response as a node sends it for a malformed address. -/
def invalidParamBody : Body :=
  Body.json (JSON.obj [("jsonrpc", JSON.str "2.0"),
    ("error", JSON.obj [("code", JSON.int (-32602)),
      ("message", JSON.str "Invalid param: Invalid"), ("data", JSON.str "hint")]),
    ("id", JSON.num false 1)])

/-- A response that carries both a result and an error object. -/
def resultAndErrorBody : Body :=
  Body.json (JSON.obj [("jsonrpc", JSON.str "2.0"), ("id", JSON.num false 1),
    ("result", JSON.obj [("context", JSON.obj [("slot", JSON.int 7)]), ("value", JSON.int 5)]),
    ("error", JSON.obj [("code", JSON.int (-32000)), ("message", JSON.str "boom")])])

/-- A response that carries neither a result nor an error object. -/
def emptyEnvelopeBody : Body :=
  Body.json (JSON.obj [("jsonrpc", JSON.str "2.0"), ("id", JSON.num false 1)])

/-- A successful `getBalance` response. -/
def balanceBody : Body :=
  Body.json (JSON.obj [("jsonrpc", JSON.str "2.0"),
    ("result", JSON.obj [("context", JSON.obj [("apiVersion", JSON.str "2.2.3"),
      ("slot", JSON.int 341197053)]), ("value", JSON.int 42)]),
    ("id", JSON.num false 1)])

/-- A response whose result is a string where a context and value record is
expected. -/
def wrongShapeBody : Body :=
  Body.json (JSON.obj [("jsonrpc", JSON.str "2.0"), ("result", JSON.str "ok"),
    ("id", JSON.num false 1)])

/-- The request `GetBalance` builds for the address `a` on a new client for
`Devnet`, without a config. -/
def balanceRequest (a : String) : HTTPRequest :=
  ⟨Context.live 0, "POST", devnetURL, [("Content-Type", "application/json")],
    JSON.obj [("jsonrpc", JSON.str "2.0"), ("id", JSON.num false 1),
      ("method", JSON.str "getBalance"), ("params", JSON.arr [JSON.str a])]⟩

/-- The shape of a `var result string`. -/
def stringShape : Shape String := ⟨"", storeString⟩

/-- A successful `getHealth` response. -/
def healthBody : Body :=
  Body.json (JSON.obj [("jsonrpc", JSON.str "2.0"), ("result", JSON.str "ok"),
    ("id", JSON.num false 1)])

/-- The arguments `GetHealth` hands to `call`. -/
def ping : CallInput := ⟨Context.live 0, "getHealth", some [], String, stringShape, ""⟩

/-- Three calls in a row, the second one with a nil context. -/
def threeCalls : List CallInput :=
  [ping, ⟨Context.nil, "getHealth", some [], String, stringShape, ""⟩, ping]

/-- The elements of a JSON array stored into the elements of a Go `[]int64`:
element `i` is stored over the element the slice already had at `i`, or over
zero. -/
def storeInt64Elems : List Int → List JSON → List Int × Option String
  | _, [] => ([], none)
  | cur, j :: js =>
      let x := storeInt64 (cur.headD 0) j
      let rest := storeInt64Elems cur.tail js
      (x.1 :: rest.1, saveError x.2 rest.2)

/-- Store a JSON value into a Go `[]Slot`. -/
def storeSlots (cur : GoSlice Slot) : JSON → GoSlice Slot × Option String
  | JSON.null => (none, none)
  | JSON.arr items =>
      let r := storeInt64Elems (cur.getD []) items
      (some r.1, r.2)
  | _ => (cur, some "json: cannot unmarshal value into Go value of type []int64")

/-- The shape of a `var result []Slot`. -/
def slotsShape : Shape (GoSlice Slot) := ⟨none, storeSlots⟩

/-- Go `(*Client).GetBlocks`. -/
def Client.GetBlocks (rt : Runtime) (c : Client) (sent : List HTTPRequest) (ctx : Context)
    (startSlot : Slot) (endSlot : Option Slot) (config : Option CommitmentConfig) :
    CallResult (GoSlice Slot) :=
  let params := Client.GetBlocks.params startSlot endSlot config
  let result := slotsShape.zero
  Client.call rt slotsShape c sent ctx "getBlocks" params result

/-- Every value of a parameter list sits at the index of the declared parameter
it was given for. -/
def positional (args : List (Option Arg)) (params : List Arg) : Prop :=
  ∀ (i : Nat) (a : Arg), params[i]? = some a → args[i]? = some (some a)

/-- The number of arguments that are present. -/
def presentCount (args : List (Option Arg)) : Nat :=
  (args.filter Option.isSome).length

/-- A runtime whose URL parser accepts every endpoint free of control
characters and whose transport fails on every request. -/
def nodeUnreachable : Runtime :=
  ⟨acceptRest, resolveAbsolute,
    fun _ _ _ _ => Exchange.failed "dial tcp: connect: connection refused"⟩

/-- The `Devnet` endpoint followed by a line feed, as read from a file and not
trimmed. -/
def untrimmedEndpoint : String := "https://api.devnet.solana.com\n"

/-- The request `GetBalance` builds for the address `abc` with commitment
`finalized` on a new client for `Devnet`. -/
def finalizedBalanceRequest : HTTPRequest :=
  ⟨Context.live 0, "POST", devnetURL, [("Content-Type", "application/json")],
    JSON.obj [("jsonrpc", JSON.str "2.0"), ("id", JSON.num false 1),
      ("method", JSON.str "getBalance"),
      ("params", JSON.arr [JSON.str "abc", JSON.obj [("commitment", JSON.str "finalized")]])]⟩

/-- The request `GetBlocks` builds for start slot 5, no end slot and commitment
`finalized` on a new client for `Devnet`. -/
def sparseBlocksRequest : HTTPRequest :=
  ⟨Context.live 0, "POST", devnetURL, [("Content-Type", "application/json")],
    JSON.obj [("jsonrpc", JSON.str "2.0"), ("id", JSON.num false 1),
      ("method", JSON.str "getBlocks"),
      ("params", JSON.arr [JSON.num false 5, JSON.obj [("commitment", JSON.str "finalized")]])]⟩

/-- The request `GetHealth` builds on a new client for `Devnet`. -/
def healthRequest : HTTPRequest :=
  ⟨Context.live 0, "POST", devnetURL, [("Content-Type", "application/json")],
    JSON.obj [("jsonrpc", JSON.str "2.0"), ("id", JSON.num false 1),
      ("method", JSON.str "getHealth"), ("params", JSON.arr [])]⟩

/-- The request `GetHealth` builds on a client for `Devnet` that has made one
call before. -/
def secondHealthRequest : HTTPRequest :=
  ⟨Context.live 0, "POST", devnetURL, [("Content-Type", "application/json")],
    JSON.obj [("jsonrpc", JSON.str "2.0"), ("id", JSON.num false 2),
      ("method", JSON.str "getHealth"), ("params", JSON.arr [])]⟩

/-- Go `Version`. -/
structure Version where
  SolanaCore : String
  FeatureSet : Int

/-- One object member decoded into a `Version`. -/
def Version.storeMember (st : Version × Option String) (kv : String × JSON) :
    Version × Option String :=
  let r := st.1
  if keyMatches kv.1 "solana-core" then
    let x := storeString r.SolanaCore kv.2
    (⟨x.1, r.FeatureSet⟩, saveError st.2 x.2)
  else if keyMatches kv.1 "feature-set" then
    let x := storeInt64 r.FeatureSet kv.2
    (⟨r.SolanaCore, x.1⟩, saveError st.2 x.2)
  else st

/-- Store a JSON value into a `Version`. -/
def storeVersion (cur : Version) : JSON → Version × Option String
  | JSON.null => (cur, none)
  | JSON.obj ms => ms.foldl Version.storeMember (cur, none)
  | _ => (cur, some "json: cannot unmarshal value into Go value of type solana.Version")

/-- The shape of a `var result Version`. -/
def Version.shape : Shape Version := ⟨⟨"", 0⟩, storeVersion⟩

/-- The shape of a `var result int64`. -/
def int64Shape : Shape Int := ⟨0, storeInt64⟩

/-- Go `(*Client).GetVersion`. -/
def Client.GetVersion (rt : Runtime) (c : Client) (sent : List HTTPRequest) (ctx : Context) :
    CallResult Version :=
  let params := Client.GetVersion.params
  let result := Version.shape.zero
  Client.call rt Version.shape c sent ctx "getVersion" params result

/-- Go `(*Client).GetBlockTime`. -/
def Client.GetBlockTime (rt : Runtime) (c : Client) (sent : List HTTPRequest) (ctx : Context)
    (slot : Slot) : CallResult Int :=
  let params := Client.GetBlockTime.params slot
  let result := int64Shape.zero
  Client.call rt int64Shape c sent ctx "getBlockTime" params result

/-- The clients of a program: a Go `*Client` is an address, and the memory maps
each address to the client stored there. -/
abbrev Heap := Nat → Client

/-- A `call` through the pointer `p`: the client stored at `p` is the one that
is read and written. -/
def Heap.call {α : Type} (rt : Runtime) (S : Shape α) (h : Heap) (sent : List HTTPRequest)
    (p : Nat) (ctx : Context) (method : String) (params : GoSlice Arg) (result : α) :
    Heap × CallResult α :=
  let r := Client.call rt S (h p) sent ctx method params result
  (Function.update h p r.client, r)

/-- A runtime whose URL parser accepts every endpoint free of control
characters and whose node answers every request with the given status code and
body. -/
def nodeAnsweringWith (status : Nat) (body : Body) : Runtime :=
  ⟨acceptRest, resolveAbsolute, fun _ _ _ _ => Exchange.response status "" body⟩

/-- A `getBalance` response whose value is 2^63, one more than the largest
`int64`. -/
def hugeBalanceBody : Body :=
  Body.json (JSON.obj [("jsonrpc", JSON.str "2.0"),
    ("result", JSON.obj [("context", JSON.obj [("slot", JSON.int 1)]),
      ("value", JSON.num false 9223372036854775808)]),
    ("id", JSON.num false 1)])

/-- A `getBalance` response whose value is negative. -/
def negativeBalanceBody : Body :=
  Body.json (JSON.obj [("jsonrpc", JSON.str "2.0"),
    ("result", JSON.obj [("context", JSON.obj [("slot", JSON.int 1)]),
      ("value", JSON.int (-5))]),
    ("id", JSON.num false 1)])

/-- A successful `getVersion` response. -/
def versionBody : Body :=
  Body.json (JSON.obj [("jsonrpc", JSON.str "2.0"),
    ("result", JSON.obj [("feature-set", JSON.int 3640012085),
      ("solana-core", JSON.str "2.2.3")]),
    ("id", JSON.num false 1)])

/-- The request `GetVersion` builds on a new client for `Devnet`. -/
def versionRequest : HTTPRequest :=
  ⟨Context.live 0, "POST", devnetURL, [("Content-Type", "application/json")],
    JSON.obj [("jsonrpc", JSON.str "2.0"), ("id", JSON.num false 1),
      ("method", JSON.str "getVersion"), ("params", JSON.arr [])]⟩

/-- A response whose result member is the literal `null`. -/
def nullResultBody : Body :=
  Body.json (JSON.obj [("jsonrpc", JSON.str "2.0"), ("result", JSON.null),
    ("id", JSON.num false 1)])

/-- The request `GetBlockTime` builds for slot 5 on a new client for `Devnet`. -/
def blockTimeRequest : HTTPRequest :=
  ⟨Context.live 0, "POST", devnetURL, [("Content-Type", "application/json")],
    JSON.obj [("jsonrpc", JSON.str "2.0"), ("id", JSON.num false 1),
      ("method", JSON.str "getBlockTime"), ("params", JSON.arr [JSON.num false 5])]⟩

/-- The request `GetBlocks` builds for start slot 5 on a new client for
`Devnet`. -/
def blocksRequest : HTTPRequest :=
  ⟨Context.live 0, "POST", devnetURL, [("Content-Type", "application/json")],
    JSON.obj [("jsonrpc", JSON.str "2.0"), ("id", JSON.num false 1),
      ("method", JSON.str "getBlocks"), ("params", JSON.arr [JSON.num false 5])]⟩

/-- A successful `getBalance` response that echoes another identifier and
another protocol version than `balanceBody`. -/
def balanceBodyOtherEcho : Body :=
  Body.json (JSON.obj [("jsonrpc", JSON.str "1.0"),
    ("result", JSON.obj [("context", JSON.obj [("apiVersion", JSON.str "2.2.3"),
      ("slot", JSON.int 341197053)]), ("value", JSON.int 42)]),
    ("id", JSON.num false 99)])

/-- The page of a gateway, which is not JSON. -/
def gatewayPage : Body := Body.malformed "invalid character looking for beginning of value"

/-- Two clients at the addresses 0 and 1, for `Devnet` and for `Testnet`. -/
def twoClients : Heap := fun p => if p = 0 then NewClient Devnet else NewClient Testnet

/-- Go `(*Client).GetMinimumBalanceForRentExemption`. -/
def Client.GetMinimumBalanceForRentExemption (rt : Runtime) (c : Client)
    (sent : List HTTPRequest) (ctx : Context) (dataLength : Int)
    (config : Option CommitmentConfig) : CallResult Int :=
  let params := Client.GetMinimumBalanceForRentExemption.params dataLength config
  let result := int64Shape.zero
  Client.call rt int64Shape c sent ctx "getMinimumBalanceForRentExemption" params result

/-- Go `(*Client).GetSlot`. -/
def Client.GetSlot (rt : Runtime) (c : Client) (sent : List HTTPRequest) (ctx : Context)
    (config : Option CommitmentConfig) : CallResult Slot :=
  let params := Client.GetSlot.params config
  let result := int64Shape.zero
  Client.call rt int64Shape c sent ctx "getSlot" params result

/-- The request `GetMinimumBalanceForRentExemption` builds for a data length of
100 on a new client for `Devnet`, without a config. -/
def rentRequest : HTTPRequest :=
  ⟨Context.live 0, "POST", devnetURL, [("Content-Type", "application/json")],
    JSON.obj [("jsonrpc", JSON.str "2.0"), ("id", JSON.num false 1),
      ("method", JSON.str "getMinimumBalanceForRentExemption"),
      ("params", JSON.arr [JSON.num false 100])]⟩

/-- The request `GetSlot` builds on a new client for `Devnet`, without a
config. -/
def slotRequest : HTTPRequest :=
  ⟨Context.live 0, "POST", devnetURL, [("Content-Type", "application/json")],
    JSON.obj [("jsonrpc", JSON.str "2.0"), ("id", JSON.num false 1),
      ("method", JSON.str "getSlot"), ("params", JSON.arr [])]⟩

/-- The URL parsed from `Testnet`. -/
def testnetURL : URL := ⟨"https", "api.testnet.solana.com", ""⟩

/-- A successful `getBalance` response with a balance of 7 lamports. -/
def movedBalanceBody : Body :=
  Body.json (JSON.obj [("jsonrpc", JSON.str "2.0"),
    ("result", JSON.obj [("context", JSON.obj [("slot", JSON.int 9)]), ("value", JSON.int 7)]),
    ("id", JSON.num false 1)])

/-- A node behind a gateway: the first request of a `Do` is answered with the
given status code, a `Location` header naming `Testnet`, and a balance of 42
lamports; a request that follows is answered with status 200 and a balance of 7
lamports. -/
def gatewayAnswering (status : Nat) : Runtime :=
  ⟨acceptRest, resolveAbsolute,
    fun _ _ hops _ =>
      if hops.isEmpty then Exchange.response status Testnet balanceBody
      else Exchange.response 200 "" movedBalanceBody⟩

/-- The `Devnet` endpoint written with capital letters. -/
def upperCaseEndpoint : String := "HTTPS://API.Devnet.Solana.com"

/-- The `Devnet` endpoint with an empty port. -/
def emptyPortEndpoint : String := "https://api.devnet.solana.com:"

/-- The request `GetHealth` builds on a new client for `upperCaseEndpoint`. -/
def upperCaseHealthRequest : HTTPRequest :=
  ⟨Context.live 0, "POST", ⟨"https", "API.Devnet.Solana.com", ""⟩,
    [("Content-Type", "application/json")],
    JSON.obj [("jsonrpc", JSON.str "2.0"), ("id", JSON.num false 1),
      ("method", JSON.str "getHealth"), ("params", JSON.arr [])]⟩

/-- Whether a member of a response object is an echo: its key selects the field
`jsonrpc` or the field `id` of `rpcResponse`. -/
def isEcho (kv : String × JSON) : Bool :=
  keyMatches kv.1 "jsonrpc" || keyMatches kv.1 "id"

/-- Whether an echo member has a value its field accepts: a string or `null` for
`jsonrpc`, an unsigned 64-bit integer or `null` for `id`. -/
def echoOK (kv : String × JSON) : Bool :=
  if keyMatches kv.1 "jsonrpc" then (storeString "" kv.2).2.isNone
  else (storeUint64 0 kv.2).2.isNone

/-- Two states of the envelope decoder agree on all that `call` reads: the
result, the error object and the error recorded so far. -/
def sameOutcome (a b : rpcResponse × Option String) : Prop :=
  a.1.Result = b.1.Result ∧ a.1.Error = b.1.Error ∧ a.2 = b.2

/-- The members of `balanceBody`. -/
def balanceMembers : List (String × JSON) :=
  [("jsonrpc", JSON.str "2.0"),
    ("result", JSON.obj [("context", JSON.obj [("apiVersion", JSON.str "2.2.3"),
      ("slot", JSON.int 341197053)]), ("value", JSON.int 42)]),
    ("id", JSON.num false 1)]

/-- The members of `balanceBody` with another echo: no `jsonrpc` member, and the
identifier 99 in front. -/
def balanceMembersOtherEcho : List (String × JSON) :=
  [("id", JSON.num false 99),
    ("result", JSON.obj [("context", JSON.obj [("apiVersion", JSON.str "2.2.3"),
      ("slot", JSON.int 341197053)]), ("value", JSON.int 42)])]

/-- A `getBalance` response like `balanceBody` but for its identifier, which is
the string `abc`. -/
def balanceBodyStringID : Body :=
  Body.json (JSON.obj [("jsonrpc", JSON.str "2.0"),
    ("result", JSON.obj [("context", JSON.obj [("apiVersion", JSON.str "2.2.3"),
      ("slot", JSON.int 341197053)]), ("value", JSON.int 42)]),
    ("id", JSON.str "abc")])

/-! ## Theorems -/

/-- What `call` does when the request cannot be built: the identifier is
consumed, nothing reaches the HTTP client, the result is not written. -/
theorem call_of_request_error {α : Type} (rt : Runtime) (S : Shape α) (c : Client)
    (sent : List HTTPRequest) (ctx : Context) (method : String) (params : GoSlice Arg)
    (result : α) (e : CallError) (hq : Client.request rt c ctx method params = Except.error e) :
    Client.call rt S c sent ctx method params result = ⟨c.advance, sent, result, some e⟩ := by
  unfold Client.request at hq
  unfold Client.call
  simp only [Client.nextID] at hq
  simp only [Client.advance, Client.nextID]
  cases hm : jsonMarshal ⟨"2.0", (c.requestID + 1) % 2 ^ 64, method, params⟩ with
  | error err => simp only [hm] at hq ⊢; cases hq; rfl
  | ok body =>
    simp only [hm] at hq ⊢
    cases hr : NewRequestWithContext rt ctx c.endpoint body with
    | error err => simp only [hr] at hq ⊢; cases hq; rfl
    | ok req => simp only [hr] at hq; cases hq

/-- What `call` does once the request is built: one `Do` of the HTTP client,
then the envelope, the error object, the result, in that order. -/
theorem call_of_request_ok {α : Type} (rt : Runtime) (S : Shape α) (c : Client)
    (sent : List HTTPRequest) (ctx : Context) (method : String) (params : GoSlice Arg)
    (result : α) (req : HTTPRequest)
    (hq : Client.request rt c ctx method params = Except.ok req) :
    Client.call rt S c sent ctx method params result =
      match rt.roundTrip sent req with
      | RoundTrip.failed err => ⟨c.advance, sent ++ [req], result, some (CallError.doRequest err)⟩
      | RoundTrip.response _ respBody =>
        match decodeEnvelope respBody with
        | Except.error err =>
            ⟨c.advance, sent ++ [req], result, some (CallError.decodeResponse err)⟩
        | Except.ok rpcResp =>
          match rpcResp.Error with
          | some e => ⟨c.advance, sent ++ [req], result, some (CallError.rpc e)⟩
          | none =>
            match jsonUnmarshal S rpcResp.Result result with
            | (r, some err) => ⟨c.advance, sent ++ [req], r, some (CallError.unmarshalResult err)⟩
            | (r, none) => ⟨c.advance, sent ++ [req], r, none⟩ := by
  unfold Client.request at hq
  unfold Client.call
  simp only [Client.nextID] at hq
  simp only [Client.advance, Client.nextID]
  cases hm : jsonMarshal ⟨"2.0", (c.requestID + 1) % 2 ^ 64, method, params⟩ with
  | error err => simp only [hm] at hq; cases hq
  | ok body =>
    simp only [hm] at hq ⊢
    cases hr : NewRequestWithContext rt ctx c.endpoint body with
    | error err => simp only [hr] at hq; cases hq
    | ok rq => simp only [hr] at hq ⊢; cases hq; rfl

/-- C1: when the response body decodes as an envelope whose error object is
present, `call` returns that very error object as an `RPCError` (code, message
and data as decoded), whatever the result member holds and whatever shape the
caller asked for; the result value of the caller is left as it was. -/
theorem call_returns_error_object {α : Type} (rt : Runtime) (S : Shape α) (c : Client)
    (sent : List HTTPRequest) (ctx : Context) (method : String) (params : GoSlice Arg)
    (result : α) (req : HTTPRequest) (status : Nat) (body : Body) (env : rpcResponse)
    (e : RPCError)
    (hq : Client.request rt c ctx method params = Except.ok req)
    (ht : rt.roundTrip sent req = RoundTrip.response status body)
    (hd : decodeEnvelope body = Except.ok env)
    (he : env.Error = some e) :
    Client.call rt S c sent ctx method params result =
      ⟨c.advance, sent ++ [req], result, some (CallError.rpc e)⟩ := by
  rw [call_of_request_ok rt S c sent ctx method params result req hq]
  simp only [ht, hd, he]

/-- C1, at a concrete input: a node answering `getBalance` of the address
`invalid` with an error object. -/
theorem call_returns_error_object_witness :
    Client.call (nodeAnswering invalidParamBody) RpcResponseU64.shape (NewClient Devnet) []
        (Context.live 0) "getBalance" (some [Arg.string "invalid"]) RpcResponseU64.shape.zero =
      ⟨(NewClient Devnet).advance, [] ++ [balanceRequest "invalid"], RpcResponseU64.shape.zero,
        some (CallError.rpc ⟨-32602, "Invalid param: Invalid", some (JSON.str "hint")⟩)⟩ :=
  call_returns_error_object (nodeAnswering invalidParamBody) RpcResponseU64.shape
    (NewClient Devnet) [] (Context.live 0) "getBalance" (some [Arg.string "invalid"])
    RpcResponseU64.shape.zero (balanceRequest "invalid") 200 invalidParamBody
    ⟨"2.0", 1, none, some ⟨-32602, "Invalid param: Invalid", some (JSON.str "hint")⟩⟩
    ⟨-32602, "Invalid param: Invalid", some (JSON.str "hint")⟩ rfl rfl rfl rfl

/-- C2, as stated, fails: a response carrying both a result and an error object
makes `call` fail with the `RPCError`, which is not a decode failure. -/
theorem both_result_and_error_is_rpc_error :
    (decodeEnvelope resultAndErrorBody).toOption.map (fun env => env.Result.isSome) = some true
    ∧ (Client.call (nodeAnswering resultAndErrorBody) RpcResponseU64.shape (NewClient Devnet) []
        (Context.live 0) "getBalance" (some [Arg.string "abc"]) RpcResponseU64.shape.zero).err
      = some (CallError.rpc ⟨-32000, "boom", none⟩)
    ∧ (CallError.rpc ⟨-32000, "boom", none⟩).kind ≠ some ErrorKind.decode := by
  refine ⟨rfl, rfl, ?_⟩
  decide

/-- C2, amended: an envelope with neither result nor error object makes `call`
fail with the decode failure `unmarshal result` (nothing to decode), the result
value untouched; an envelope with both makes it fail with the `RPCError`. -/
theorem neither_is_decode_failure_both_is_rpc_error {α : Type} (rt : Runtime) (S : Shape α)
    (c : Client) (sent : List HTTPRequest) (ctx : Context) (method : String)
    (params : GoSlice Arg) (result : α) (req : HTTPRequest) (status : Nat) (body : Body)
    (env : rpcResponse)
    (hq : Client.request rt c ctx method params = Except.ok req)
    (ht : rt.roundTrip sent req = RoundTrip.response status body)
    (hd : decodeEnvelope body = Except.ok env) :
    (env.Result = none → env.Error = none →
      Client.call rt S c sent ctx method params result =
        ⟨c.advance, sent ++ [req], result,
          some (CallError.unmarshalResult "unexpected end of JSON input")⟩)
    ∧ (∀ (j : JSON) (e : RPCError), env.Result = some j → env.Error = some e →
      Client.call rt S c sent ctx method params result =
        ⟨c.advance, sent ++ [req], result, some (CallError.rpc e)⟩) := by
  rw [call_of_request_ok rt S c sent ctx method params result req hq]
  simp only [ht, hd]
  constructor
  · intro hr he
    simp only [he, hr, jsonUnmarshal]
  · intro j e _ he
    simp only [he]

/-- C2, amended, at a concrete input: a node answering with an envelope that has
neither member. -/
theorem neither_is_decode_failure_both_is_rpc_error_witness :
    Client.call (nodeAnswering emptyEnvelopeBody) RpcResponseU64.shape (NewClient Devnet) []
        (Context.live 0) "getBalance" (some [Arg.string "abc"]) RpcResponseU64.shape.zero =
      ⟨(NewClient Devnet).advance, [] ++ [balanceRequest "abc"], RpcResponseU64.shape.zero,
        some (CallError.unmarshalResult "unexpected end of JSON input")⟩ :=
  (neither_is_decode_failure_both_is_rpc_error (nodeAnswering emptyEnvelopeBody)
    RpcResponseU64.shape (NewClient Devnet) [] (Context.live 0) "getBalance"
    (some [Arg.string "abc"]) RpcResponseU64.shape.zero (balanceRequest "abc") 200
    emptyEnvelopeBody ⟨"2.0", 1, none, none⟩ rfl rfl rfl).1 rfl rfl

/-- C3: when the envelope has no error object and its result payload is present
and decodes into the shape of the caller, `call` returns no error and the result
value of the caller holds the decoding of that payload. -/
theorem call_returns_decoded_result {α : Type} (rt : Runtime) (S : Shape α) (c : Client)
    (sent : List HTTPRequest) (ctx : Context) (method : String) (params : GoSlice Arg)
    (result : α) (req : HTTPRequest) (status : Nat) (body : Body) (env : rpcResponse)
    (j : JSON)
    (hq : Client.request rt c ctx method params = Except.ok req)
    (ht : rt.roundTrip sent req = RoundTrip.response status body)
    (hd : decodeEnvelope body = Except.ok env)
    (he : env.Error = none)
    (hr : env.Result = some j)
    (hs : (S.store result j).2 = none) :
    Client.call rt S c sent ctx method params result =
      ⟨c.advance, sent ++ [req], (S.store result j).1, none⟩ := by
  rw [call_of_request_ok rt S c sent ctx method params result req hq]
  simp only [ht, hd, he, hr, jsonUnmarshal]
  cases hx : S.store result j with
  | mk r err =>
    rw [hx] at hs
    simp only at hs
    subst hs
    rfl

/-- C3, at a concrete input: a node answering `getBalance` with a balance of 42
lamports at slot 341197053. -/
theorem call_returns_decoded_result_witness :
    Client.call (nodeAnswering balanceBody) RpcResponseU64.shape (NewClient Devnet) []
        (Context.live 0) "getBalance" (some [Arg.string "abc"]) RpcResponseU64.shape.zero =
      ⟨(NewClient Devnet).advance, [] ++ [balanceRequest "abc"],
        (⟨⟨"2.2.3", 341197053⟩, 42⟩ : RpcResponseU64), none⟩ :=
  call_returns_decoded_result (nodeAnswering balanceBody) RpcResponseU64.shape
    (NewClient Devnet) [] (Context.live 0) "getBalance" (some [Arg.string "abc"])
    RpcResponseU64.shape.zero (balanceRequest "abc") 200 balanceBody
    ⟨"2.0", 1, some (JSON.obj [("context", JSON.obj [("apiVersion", JSON.str "2.2.3"),
      ("slot", JSON.int 341197053)]), ("value", JSON.int 42)]), none⟩
    (JSON.obj [("context", JSON.obj [("apiVersion", JSON.str "2.2.3"),
      ("slot", JSON.int 341197053)]), ("value", JSON.int 42)]) rfl rfl rfl rfl rfl rfl

/-- C4: when the envelope has no error object and its result does not decode
into the shape of the caller, `call` returns the non-nil decode error
`unmarshal result`; so does every wrapper, which returns the error of `call`
unchanged and never reports success in that case. -/
theorem call_fails_on_undecodable_result {α : Type} (rt : Runtime) (S : Shape α) (c : Client)
    (sent : List HTTPRequest) (ctx : Context) (method : String) (params : GoSlice Arg)
    (result : α) (req : HTTPRequest) (status : Nat) (body : Body) (env : rpcResponse)
    (j : JSON) (cause : String)
    (hq : Client.request rt c ctx method params = Except.ok req)
    (ht : rt.roundTrip sent req = RoundTrip.response status body)
    (hd : decodeEnvelope body = Except.ok env)
    (he : env.Error = none)
    (hr : env.Result = some j)
    (hs : (S.store result j).2 = some cause) :
    (Client.call rt S c sent ctx method params result).err
        = some (CallError.unmarshalResult cause)
    ∧ (∀ inv : Invocation, inv.method = method → inv.params = params → result = S.zero →
        (inv.run rt S c sent ctx).err = some (CallError.unmarshalResult cause)
        ∧ (inv.run rt S c sent ctx).err ≠ none) := by
  have key : (Client.call rt S c sent ctx method params result).err
      = some (CallError.unmarshalResult cause) := by
    rw [call_of_request_ok rt S c sent ctx method params result req hq]
    simp only [ht, hd, he, hr, jsonUnmarshal]
    cases hx : S.store result j with
    | mk r err =>
      rw [hx] at hs
      simp only at hs
      subst hs
      rfl
  refine ⟨key, ?_⟩
  intro inv hm hp hz
  subst hm hp hz
  have h : (inv.run rt S c sent ctx).err = some (CallError.unmarshalResult cause) := key
  exact ⟨h, by rw [h]; exact Option.some_ne_none _⟩

/-- C4, at a concrete input: `GetBalance` against a node whose result is a string
where a context and value record is expected. -/
theorem call_fails_on_undecodable_result_witness :
    (Client.GetBalance (nodeAnswering wrongShapeBody) (NewClient Devnet) [] (Context.live 0)
        "abc" none).err
      = some (CallError.unmarshalResult
          "json: cannot unmarshal value into Go value of type solana.RpcResponseU64") :=
  (call_fails_on_undecodable_result (nodeAnswering wrongShapeBody) RpcResponseU64.shape
    (NewClient Devnet) [] (Context.live 0) "getBalance" (some [Arg.string "abc"])
    RpcResponseU64.shape.zero (balanceRequest "abc") 200 wrongShapeBody
    ⟨"2.0", 1, some (JSON.str "ok"), none⟩ (JSON.str "ok")
    "json: cannot unmarshal value into Go value of type solana.RpcResponseU64"
    rfl rfl rfl rfl rfl rfl).1

/-- Every `call` advances the counter by one, whatever its outcome, and changes
no other field of the client. -/
theorem call_client {α : Type} (rt : Runtime) (S : Shape α) (c : Client)
    (sent : List HTTPRequest) (ctx : Context) (method : String) (params : GoSlice Arg)
    (result : α) :
    (Client.call rt S c sent ctx method params result).client = c.advance := by
  cases hq : Client.request rt c ctx method params with
  | error e => rw [call_of_request_error rt S c sent ctx method params result e hq]
  | ok req =>
    rw [call_of_request_ok rt S c sent ctx method params result req hq]
    cases rt.roundTrip sent req with
    | failed err => rfl
    | response st b =>
      simp only
      cases decodeEnvelope b with
      | error err => rfl
      | ok env =>
        simp only
        cases env.Error with
        | some e => rfl
        | none =>
          simp only
          cases jsonUnmarshal S env.Result result with
          | mk x y => cases y <;> rfl

/-- A `call` hands exactly the request it built to the HTTP client, or nothing
when it could not build one. -/
theorem call_sent {α : Type} (rt : Runtime) (S : Shape α) (c : Client)
    (sent : List HTTPRequest) (ctx : Context) (method : String) (params : GoSlice Arg)
    (result : α) :
    (Client.call rt S c sent ctx method params result).sent =
      match Client.request rt c ctx method params with
      | Except.error _ => sent
      | Except.ok req => sent ++ [req] := by
  cases hq : Client.request rt c ctx method params with
  | error e => rw [call_of_request_error rt S c sent ctx method params result e hq]
  | ok req =>
    rw [call_of_request_ok rt S c sent ctx method params result req hq]
    cases rt.roundTrip sent req with
    | failed err => rfl
    | response st b =>
      simp only
      cases decodeEnvelope b with
      | error err => rfl
      | ok env =>
        simp only
        cases env.Error with
        | some e => rfl
        | none =>
          simp only
          cases jsonUnmarshal S env.Result result with
          | mk x y => cases y <;> rfl

/-- The request `call` builds, spelled out. -/
theorem request_explicit (rt : Runtime) (c : Client) (ctx : Context) (method : String)
    (params : GoSlice Arg) :
    Client.request rt c ctx method params =
      match marshalParams params with
      | Except.error err => Except.error (CallError.marshalRequest err)
      | Except.ok ps =>
        match ctx with
        | Context.nil => Except.error (CallError.createRequest "net/http: nil Context")
        | Context.live _ =>
          match urlParse rt c.endpoint with
          | Except.error err => Except.error (CallError.createRequest err)
          | Except.ok u =>
            Except.ok ⟨ctx, "POST", ⟨u.Scheme, removeEmptyPort u.Host, u.Rest⟩,
              [("Content-Type", "application/json")],
              JSON.obj [("jsonrpc", JSON.str "2.0"), ("id", JSON.num false c.nextID),
                ("method", JSON.str method), ("params", ps)]⟩ := by
  unfold Client.request jsonMarshal
  cases marshalParams params with
  | error err => rfl
  | ok ps =>
    simp only [NewRequestWithContext]
    cases ctx with
    | nil => rfl
    | live t =>
      simp only
      cases urlParse rt c.endpoint with
      | error err => rfl
      | ok u => rfl

/-- A request that was built carries the identifier allocated for it. -/
theorem request_rpcID (rt : Runtime) (c : Client) (ctx : Context) (method : String)
    (params : GoSlice Arg) (req : HTTPRequest)
    (hq : Client.request rt c ctx method params = Except.ok req) :
    req.rpcID = some c.nextID := by
  rw [request_explicit] at hq
  cases hm : marshalParams params with
  | error err => simp only [hm] at hq; cases hq
  | ok ps =>
    simp only [hm] at hq
    cases ctx with
    | nil => simp only at hq; cases hq
    | live t =>
      simp only at hq
      cases hu : urlParse rt c.endpoint with
      | error err => simp only [hu] at hq; cases hq
      | ok u =>
        simp only [hu] at hq
        cases hq
        rfl

/-- The identifiers allocated by a sequence of calls count up from the counter
of the client, modulo 2^64. -/
theorem allocatedIDs_eq (rt : Runtime) (calls : List CallInput) :
    ∀ (c : Client) (sent : List HTTPRequest),
      allocatedIDs rt c sent calls
        = (List.range calls.length).map (fun k => (c.requestID + k + 1) % 2 ^ 64) := by
  induction calls with
  | nil => intro c sent; rfl
  | cons i rest ih =>
    intro c sent
    simp only [allocatedIDs, call_client, ih, List.length_cons, List.range_succ_eq_map,
      List.map_cons, List.map_map]
    refine congrArg₂ _ ?_ ?_
    · simp [Client.advance, Client.nextID]
    · apply List.map_congr_left
      intro k _
      simp only [Function.comp, Client.advance, Client.nextID]
      omega

/-- After a sequence of calls the client has its endpoint and HTTP client
unchanged and its counter advanced by the number of calls, modulo 2^64. -/
theorem runCalls_client (rt : Runtime) (calls : List CallInput) :
    ∀ (c : Client) (sent : List HTTPRequest), c.requestID < 2 ^ 64 →
      (runCalls rt c sent calls).1 =
        ⟨c.endpoint, c.httpClient, (c.requestID + calls.length) % 2 ^ 64⟩ := by
  induction calls with
  | nil =>
    intro c sent hc
    simp only [runCalls, List.length_nil, Nat.add_zero, Nat.mod_eq_of_lt hc]
  | cons i rest ih =>
    intro c sent hc
    have hadv : c.advance.requestID < 2 ^ 64 := Nat.mod_lt _ (by norm_num)
    simp only [runCalls, call_client, ih c.advance _ hadv, List.length_cons]
    simp only [Client.advance, Client.nextID]
    congr 1
    omega

/-- The identifiers that reach the wire are a sublist of the identifiers
allocated. -/
theorem runCalls_ids (rt : Runtime) (calls : List CallInput) :
    ∀ (c : Client) (sent : List HTTPRequest),
      ∃ L : List Nat,
        (runCalls rt c sent calls).2.filterMap HTTPRequest.rpcID
          = sent.filterMap HTTPRequest.rpcID ++ L
        ∧ L.Sublist (allocatedIDs rt c sent calls) := by
  induction calls with
  | nil => intro c sent; exact ⟨[], by simp [runCalls], List.Sublist.refl _⟩
  | cons i rest ih =>
    intro c sent
    simp only [runCalls, allocatedIDs, call_client, call_sent]
    cases hq : Client.request rt c i.ctx i.method i.params with
    | error e =>
      obtain ⟨L, h1, h2⟩ := ih c.advance sent
      exact ⟨L, h1, List.Sublist.cons _ h2⟩
    | ok req =>
      obtain ⟨L, h1, h2⟩ := ih c.advance (sent ++ [req])
      refine ⟨c.nextID :: L, ?_, ?_⟩
      · simp only [h1, List.filterMap_append, List.filterMap_cons, List.filterMap_nil,
          request_rpcID rt c i.ctx i.method i.params req hq, List.append_assoc,
          List.singleton_append]
      · exact List.Sublist.cons₂ _ h2

/-- The identifiers sent by `n` health checks in a row against a node that
answers. -/
theorem ping_ids (b : Body) (n : Nat) :
    ∀ (c : Client) (sent : List HTTPRequest), c.endpoint = Devnet →
      (runCalls (nodeAnswering b) c sent (List.replicate n ping)).2.filterMap HTTPRequest.rpcID
        = sent.filterMap HTTPRequest.rpcID
          ++ (List.range n).map (fun k => (c.requestID + k + 1) % 2 ^ 64) := by
  induction n with
  | zero => intro c sent _; simp [runCalls]
  | succ n ih =>
    intro c sent hc
    have hq : Client.request (nodeAnswering b) c ping.ctx ping.method ping.params
        = Except.ok ⟨Context.live 0, "POST", devnetURL, [("Content-Type", "application/json")],
            JSON.obj [("jsonrpc", JSON.str "2.0"), ("id", JSON.num false c.nextID),
              ("method", JSON.str "getHealth"), ("params", JSON.arr [])]⟩ := by
      rw [request_explicit, hc]
      rfl
    simp only [List.replicate_succ, runCalls, call_client, call_sent, hq]
    rw [ih c.advance _ hc]
    simp only [List.filterMap_append, List.filterMap_cons, List.filterMap_nil,
      request_rpcID _ c ping.ctx ping.method ping.params _ hq, List.append_assoc,
      List.singleton_append, List.range_succ_eq_map, List.map_cons, List.map_map]
    congr 2
    apply List.map_congr_left
    intro k _
    simp only [Function.comp, Client.advance, Client.nextID]
    omega

/-- The identifier sent by the call at position `k` of `n` health checks in a
row on a new client. -/
theorem ping_sentIDs (b : Body) (n k : Nat) (hk : k < n) :
    (sentIDs (nodeAnswering b) Devnet (List.replicate n ping))[k]? = some ((k + 1) % 2 ^ 64) := by
  have h := ping_ids b n (NewClient Devnet) [] rfl
  simp only [List.filterMap_nil, List.nil_append] at h
  unfold sentIDs
  rw [h, List.getElem?_map, List.getElem?_range hk]
  simp [NewClient]

/-- C5, as stated, fails for a sequence of 2^64 + 1 calls: the counter is a Go
`uint64`, so the last call sends identifier 1 again, as the first call did. -/
theorem identifiers_repeat_after_wraparound :
    (sentIDs (nodeAnswering healthBody) Devnet (List.replicate (2 ^ 64 + 1) ping))[0]? = some 1
    ∧ (sentIDs (nodeAnswering healthBody) Devnet (List.replicate (2 ^ 64 + 1) ping))[2 ^ 64]?
        = some 1 :=
  ⟨(ping_sentIDs healthBody (2 ^ 64 + 1) 0 (Nat.succ_pos _)).trans
      (congrArg some (by norm_num)),
    (ping_sentIDs healthBody (2 ^ 64 + 1) (2 ^ 64) (Nat.lt_succ_self _)).trans
      (congrArg some (by norm_num))⟩

/-- C5, amended: for every sequence of fewer than 2^64 calls on a client made
by `NewClient`, the k-th call allocates identifier k (the counter starts at 0 and
is incremented before use), a call that reaches the wire sends the identifier it
allocated, and the identifiers sent are strictly increasing and pairwise
distinct. -/
theorem identifiers_count_up (rt : Runtime) (endpoint : String) (calls : List CallInput)
    (h : calls.length < 2 ^ 64) :
    allocatedIDs rt (NewClient endpoint) [] calls = List.range' 1 calls.length
    ∧ (sentIDs rt endpoint calls).Sublist (List.range' 1 calls.length)
    ∧ (sentIDs rt endpoint calls).Pairwise (fun a b => a < b)
    ∧ (sentIDs rt endpoint calls).Nodup
    ∧ (∀ (pre post : List CallInput) (i : CallInput) (req : HTTPRequest),
        calls = pre ++ i :: post →
        Client.request rt (runCalls rt (NewClient endpoint) [] pre).1 i.ctx i.method i.params
          = Except.ok req →
        (runCalls rt (NewClient endpoint) [] pre).1.requestID = pre.length
        ∧ req.rpcID = some (pre.length + 1)) := by
  have halloc : allocatedIDs rt (NewClient endpoint) [] calls = List.range' 1 calls.length := by
    rw [allocatedIDs_eq, List.range'_eq_map_range]
    apply List.map_congr_left
    intro k hk
    have hk2 : k < calls.length := List.mem_range.mp hk
    simp only [NewClient]
    omega
  have hsub : (sentIDs rt endpoint calls).Sublist (List.range' 1 calls.length) := by
    obtain ⟨L, h1, h2⟩ := runCalls_ids rt calls (NewClient endpoint) []
    unfold sentIDs
    rw [h1, ← halloc]
    simpa using h2
  have hpw : (sentIDs rt endpoint calls).Pairwise (fun a b => a < b) :=
    List.Pairwise.sublist hsub (List.pairwise_lt_range' 1 calls.length)
  refine ⟨halloc, hsub, hpw, hpw.imp (fun hab => Nat.ne_of_lt hab), ?_⟩
  intro pre post i req hcalls hq
  have hlen : pre.length + 1 ≤ calls.length := by
    rw [hcalls, List.length_append, List.length_cons]
    omega
  have hc := runCalls_client rt pre (NewClient endpoint) [] (by simp [NewClient])
  have hid : (runCalls rt (NewClient endpoint) [] pre).1.requestID = pre.length := by
    rw [hc]
    simp only [NewClient]
    omega
  refine ⟨hid, ?_⟩
  rw [request_rpcID rt _ i.ctx i.method i.params req hq, Client.nextID, hid]
  congr 1
  omega

/-- C5, amended, at a concrete input: three calls, of which the second is given
a nil context and never reaches the wire. -/
theorem identifiers_count_up_witness :
    allocatedIDs (nodeAnswering healthBody) (NewClient Devnet) [] threeCalls = [1, 2, 3]
    ∧ sentIDs (nodeAnswering healthBody) Devnet threeCalls = [1, 3]
    ∧ (sentIDs (nodeAnswering healthBody) Devnet threeCalls).Nodup :=
  ⟨(identifiers_count_up (nodeAnswering healthBody) Devnet threeCalls (by decide)).1,
    rfl,
    (identifiers_count_up (nodeAnswering healthBody) Devnet threeCalls (by decide)).2.2.2.1⟩

/-- The elements of an encoded parameter list are the encodings of the
parameters, one for one and in order. -/
theorem marshalArgs_forall₂ (xs : List Arg) :
    ∀ js : List JSON, marshalArgs xs = Except.ok js →
      List.Forall₂ (fun a j => marshalArg a = Except.ok j) xs js := by
  induction xs with
  | nil =>
    intro js h
    simp only [marshalArgs] at h
    cases h
    exact List.Forall₂.nil
  | cons a rest ih =>
    intro js h
    simp only [marshalArgs] at h
    cases ha : marshalArg a with
    | error e => simp only [ha] at h; cases h
    | ok j =>
      simp only [ha] at h
      cases hr : marshalArgs rest with
      | error e => simp only [hr] at h; cases h
      | ok js2 =>
        simp only [hr] at h
        cases h
        exact List.Forall₂.cons ha (ih js2 hr)

/-- C6: the request `call` serializes and hands to the HTTP client for a method
name and a parameter list has exactly the four members `jsonrpc` = "2.0", `id` =
the identifier just allocated, `method` = the name unchanged, and `params` = the
encodings of the parameters, one for one in the same order. -/
theorem request_has_four_members {α : Type} (rt : Runtime) (S : Shape α) (c : Client)
    (sent : List HTTPRequest) (ctx : Context) (method : String) (xs : List Arg)
    (result : α) (req : HTTPRequest)
    (hq : Client.request rt c ctx method (some xs) = Except.ok req) :
    (Client.call rt S c sent ctx method (some xs) result).sent = sent ++ [req]
    ∧ (Client.call rt S c sent ctx method (some xs) result).client.requestID = c.nextID
    ∧ ∃ js : List JSON,
        req.Body = JSON.obj [("jsonrpc", JSON.str "2.0"), ("id", JSON.num false c.nextID),
          ("method", JSON.str method), ("params", JSON.arr js)]
        ∧ List.Forall₂ (fun a j => marshalArg a = Except.ok j) xs js := by
  refine ⟨?_, ?_, ?_⟩
  · rw [call_sent, hq]
  · rw [call_client]
    rfl
  · rw [request_explicit] at hq
    simp only [marshalParams] at hq
    cases hm : marshalArgs xs with
    | error e => simp only [hm] at hq; cases hq
    | ok js =>
      simp only [hm] at hq
      refine ⟨js, ?_, marshalArgs_forall₂ xs js hm⟩
      cases ctx with
      | nil => simp only at hq; cases hq
      | live t =>
        simp only at hq
        cases hu : urlParse rt c.endpoint with
        | error err => simp only [hu] at hq; cases hq
        | ok u =>
          simp only [hu] at hq
          cases hq
          rfl

/-- C6, at a concrete input: `getBalance` of the address `abc` with commitment
`finalized`. -/
theorem request_has_four_members_witness :
    (Client.call (nodeAnswering balanceBody) RpcResponseU64.shape (NewClient Devnet) []
        (Context.live 0) "getBalance"
        (some [Arg.string "abc", Arg.commitmentConfig ⟨"finalized", 0⟩])
        RpcResponseU64.shape.zero).sent = [] ++ [finalizedBalanceRequest]
    ∧ finalizedBalanceRequest.Body.keys = ["jsonrpc", "id", "method", "params"] :=
  ⟨(request_has_four_members (nodeAnswering balanceBody) RpcResponseU64.shape
      (NewClient Devnet) [] (Context.live 0) "getBalance"
      [Arg.string "abc", Arg.commitmentConfig ⟨"finalized", 0⟩]
      RpcResponseU64.shape.zero finalizedBalanceRequest rfl).1, rfl⟩

/-- Every wrapper hands to `call` a non-nil list holding the arguments that are
present, in the order of its declared parameters. -/
theorem params_eq_present (inv : Invocation) :
    inv.params = some (inv.args.filterMap id) := by
  cases inv with
  | GetAccountInfo pubkey config => cases config <;> rfl
  | GetBalance pubkey config => cases config <;> rfl
  | GetBlock slot config => cases config <;> rfl
  | GetBlockCommitment slot => rfl
  | GetBlockHeight config => cases config <;> rfl
  | GetBlockProduction config => cases config <;> rfl
  | GetBlockTime slot => rfl
  | GetBlocks startSlot endSlot config => cases endSlot <;> cases config <;> rfl
  | GetBlocksWithLimit startSlot limit config => cases config <;> rfl
  | GetClusterNodes => rfl
  | GetEpochInfo config => cases config <;> rfl
  | GetEpochSchedule => rfl
  | GetFeeForMessage message config => cases config <;> rfl
  | GetFirstAvailableBlock => rfl
  | GetGenesisHash => rfl
  | GetHealth => rfl
  | GetHighestSnapshotSlot => rfl
  | GetIdentity => rfl
  | GetInflationGovernor config => cases config <;> rfl
  | GetInflationRate => rfl
  | GetInflationReward addresses config => cases config <;> rfl
  | GetLargestAccounts config => cases config <;> rfl
  | GetLatestBlockhash config => cases config <;> rfl
  | GetLeaderSchedule slot config => cases slot <;> cases config <;> rfl
  | GetMaxRetransmitSlot => rfl
  | GetMaxShredInsertSlot => rfl
  | GetMinimumBalanceForRentExemption dataLength config => cases config <;> rfl
  | GetMultipleAccounts pubkeys config => cases config <;> rfl
  | GetProgramAccounts programId config => cases config <;> rfl
  | GetRecentPerformanceSamples limit => cases limit <;> rfl
  | GetRecentPrioritizationFees addresses => cases addresses <;> rfl
  | GetSignatureStatuses signatures config => cases config <;> rfl
  | GetSignaturesForAddress address config => cases config <;> rfl
  | GetSlot config => cases config <;> rfl
  | GetSlotLeader config => cases config <;> rfl
  | GetSlotLeaders startSlot limit => rfl
  | GetStakeMinimumDelegation config => cases config <;> rfl
  | GetSupply config => cases config <;> rfl
  | GetTokenAccountBalance pubkey config => cases config <;> rfl
  | GetTokenAccountsByDelegate delegate filter config => cases config <;> rfl
  | GetTokenAccountsByOwner owner filter config => cases config <;> rfl
  | GetTokenLargestAccounts mint config => cases config <;> rfl
  | GetTokenSupply mint config => cases config <;> rfl
  | GetTransaction signature config => cases config <;> rfl
  | GetTransactionCount config => cases config <;> rfl
  | GetVersion => rfl
  | GetVoteAccounts config => cases config <;> rfl
  | IsBlockhashValid blockhash config => cases config <;> rfl
  | MinimumLedgerSlot => rfl
  | RequestAirdrop pubkey lamports config => cases config <;> rfl
  | SendTransaction transaction config => cases config <;> rfl
  | SimulateTransaction transaction config => cases config <;> rfl

/-- Absent arguments contribute nothing to a parameter list. -/
theorem filterMap_replicate_none (n : Nat) :
    (List.replicate n (none : Option Arg)).filterMap id = [] := by
  induction n with
  | zero => rfl
  | succ n ih => simp only [List.replicate_succ, List.filterMap_cons, id, ih]

/-- C8, as stated, fails: `GetBlocks` with the end slot absent and the config
present is not rejected; a request is sent in which the config sits at index 1,
the position of the end slot. -/
theorem sparse_optional_takes_earlier_position :
    (Client.GetBlocks (nodeAnswering healthBody) (NewClient Devnet) [] (Context.live 0)
        5 none (some ⟨"finalized", 0⟩)).sent = [sparseBlocksRequest]
    ∧ Client.GetBlocks.params 5 none (some ⟨"finalized", 0⟩)
        = some [Arg.int64 5, Arg.commitmentConfig ⟨"finalized", 0⟩]
    ∧ ¬ positional (Invocation.GetBlocks 5 none (some ⟨"finalized", 0⟩)).args
        [Arg.int64 5, Arg.commitmentConfig ⟨"finalized", 0⟩] := by
  refine ⟨rfl, rfl, ?_⟩
  intro h
  have h1 := h 1 (Arg.commitmentConfig ⟨"finalized", 0⟩) rfl
  simp [Invocation.args] at h1

/-- A parameter list made of the leading arguments, all present, is positional. -/
theorem positional_of_map_some (ps : List Arg) (rest : List (Option Arg)) :
    positional (ps.map some ++ rest) ps := by
  intro i a h
  have hi : i < ps.length := by
    rcases List.getElem?_eq_some.mp h with ⟨hlt, _⟩
    exact hlt
  rw [List.getElem?_append_left (by simpa using hi), List.getElem?_map, h]
  rfl

/-- An error returned before the round trip is a serialization failure or a
request-construction failure. -/
theorem request_error_cases (rt : Runtime) (c : Client) (ctx : Context) (method : String)
    (params : GoSlice Arg) (e : CallError)
    (hq : Client.request rt c ctx method params = Except.error e) :
    (∃ cause, e = CallError.marshalRequest cause) ∨ (∃ cause, e = CallError.createRequest cause) := by
  unfold Client.request at hq
  cases hm : jsonMarshal ⟨"2.0", c.nextID, method, params⟩ with
  | error err =>
    simp only [hm] at hq
    cases hq
    exact Or.inl ⟨err, rfl⟩
  | ok body =>
    simp only [hm] at hq
    cases hr : NewRequestWithContext rt ctx c.endpoint body with
    | error err =>
      simp only [hr] at hq
      cases hq
      exact Or.inr ⟨err, rfl⟩
    | ok req => simp only [hr] at hq; cases hq

/-- C9, as stated, fails: on a client whose endpoint ends in a line feed `call`
fails with a request-construction error, which is neither a transport failure,
nor a decode failure, nor an RPC error. -/
theorem untrimmed_endpoint_fails_outside_three_kinds :
    (Client.call (nodeAnswering healthBody) stringShape (NewClient untrimmedEndpoint) []
        (Context.live 0) "getHealth" (some []) "").err
      = some (CallError.createRequest "net/url: invalid control character in URL")
    ∧ (CallError.createRequest "net/url: invalid control character in URL").kind = none :=
  ⟨rfl, rfl⟩

/-- C9, amended: every failure of `call` is of exactly one of five kinds. When
the request cannot be built it is a serialization failure or a
request-construction failure, outside the three kinds of the specification. Once
the request is built it is of exactly one of the three kinds: a transport
failure when the round trip failed, a decode failure when the envelope or the
result did not decode, an RPC error when the envelope has an error object. -/
theorem failures_fall_in_five_kinds {α : Type} (rt : Runtime) (S : Shape α) (c : Client)
    (sent : List HTTPRequest) (ctx : Context) (method : String) (params : GoSlice Arg)
    (result : α) (e : CallError)
    (h : (Client.call rt S c sent ctx method params result).err = some e) :
    (∀ e0, Client.request rt c ctx method params = Except.error e0 →
      e = e0 ∧ e.kind = none
      ∧ ((∃ cause, e = CallError.marshalRequest cause)
        ∨ (∃ cause, e = CallError.createRequest cause)))
    ∧ (∀ req, Client.request rt c ctx method params = Except.ok req →
      (e.kind = some ErrorKind.transport
        ∧ ∃ cause, rt.roundTrip sent req = RoundTrip.failed cause
            ∧ e = CallError.doRequest cause)
      ∨ (e.kind = some ErrorKind.decode
        ∧ ∃ status body, rt.roundTrip sent req = RoundTrip.response status body
            ∧ ((∃ cause, decodeEnvelope body = Except.error cause
                  ∧ e = CallError.decodeResponse cause)
              ∨ (∃ env cause, decodeEnvelope body = Except.ok env ∧ env.Error = none
                  ∧ e = CallError.unmarshalResult cause)))
      ∨ (e.kind = some ErrorKind.rpcError
        ∧ ∃ status body env x, rt.roundTrip sent req = RoundTrip.response status body
            ∧ decodeEnvelope body = Except.ok env ∧ env.Error = some x
            ∧ e = CallError.rpc x)) := by
  constructor
  · intro e0 hq
    rw [call_of_request_error rt S c sent ctx method params result e0 hq] at h
    simp only [Option.some.injEq] at h
    subst h
    rcases request_error_cases rt c ctx method params e0 hq with ⟨cause, hc⟩ | ⟨cause, hc⟩
    · exact ⟨rfl, by rw [hc]; rfl, Or.inl ⟨cause, hc⟩⟩
    · exact ⟨rfl, by rw [hc]; rfl, Or.inr ⟨cause, hc⟩⟩
  · intro req hq
    rw [call_of_request_ok rt S c sent ctx method params result req hq] at h
    cases ht : rt.roundTrip sent req with
    | failed cause =>
      simp only [ht, Option.some.injEq] at h
      subst h
      exact Or.inl ⟨rfl, cause, rfl, rfl⟩
    | response status body =>
      simp only [ht] at h
      cases hd : decodeEnvelope body with
      | error cause =>
        simp only [hd, Option.some.injEq] at h
        subst h
        exact Or.inr (Or.inl ⟨rfl, status, body, rfl, Or.inl ⟨cause, hd, rfl⟩⟩)
      | ok env =>
        simp only [hd] at h
        cases he : env.Error with
        | some x =>
          simp only [he, Option.some.injEq] at h
          subst h
          exact Or.inr (Or.inr ⟨rfl, status, body, env, x, rfl, hd, he, rfl⟩)
        | none =>
          simp only [he] at h
          cases hu : jsonUnmarshal S env.Result result with
          | mk r err =>
            cases err with
            | none => simp only [hu] at h; cases h
            | some cause =>
              simp only [hu, Option.some.injEq] at h
              subst h
              exact Or.inr (Or.inl ⟨rfl, status, body, rfl, Or.inr ⟨env, cause, hd, he, rfl⟩⟩)

/-- C9, amended, at a concrete input: a health check against a node that cannot
be reached fails with a transport failure. -/
theorem failures_fall_in_five_kinds_witness :
    (Client.call nodeUnreachable stringShape (NewClient Devnet) [] (Context.live 0)
        "getHealth" (some []) "").err
      = some (CallError.doRequest "dial tcp: connect: connection refused")
    ∧ ((CallError.doRequest "dial tcp: connect: connection refused").kind
          = some ErrorKind.transport
        ∧ ∃ cause, nodeUnreachable.roundTrip [] healthRequest = RoundTrip.failed cause
            ∧ CallError.doRequest "dial tcp: connect: connection refused"
                = CallError.doRequest cause) :=
  ⟨rfl,
    ((failures_fall_in_five_kinds nodeUnreachable stringShape (NewClient Devnet) []
        (Context.live 0) "getHealth" (some []) ""
        (CallError.doRequest "dial tcp: connect: connection refused") rfl).2
      healthRequest rfl).elim id
      (fun h => h.elim (fun hd => absurd hd.1 (by decide)) (fun hr => absurd hr.1 (by decide)))⟩

/-- C11: once the request is built, the failure stages of `call` are told apart
and keep their cause: a failed round trip gives the `do request` error carrying
the cause of the transport; a body that does not decode as an envelope gives the
`decode response` error with the cause of the decoder; an envelope without error
object whose result does not decode gives the `unmarshal result` error with its
cause; the three errors are pairwise different, and the stages are checked in
this order, so one transport outcome gives one of them at most. -/
theorem failure_stages_distinguished {α : Type} (rt : Runtime) (S : Shape α) (c : Client)
    (sent : List HTTPRequest) (ctx : Context) (method : String) (params : GoSlice Arg)
    (result : α) (req : HTTPRequest)
    (hq : Client.request rt c ctx method params = Except.ok req) :
    (∀ cause, rt.roundTrip sent req = RoundTrip.failed cause →
      (Client.call rt S c sent ctx method params result).err
        = some (CallError.doRequest cause))
    ∧ (∀ status body cause, rt.roundTrip sent req = RoundTrip.response status body →
      decodeEnvelope body = Except.error cause →
      (Client.call rt S c sent ctx method params result).err
        = some (CallError.decodeResponse cause))
    ∧ (∀ status body env cause, rt.roundTrip sent req = RoundTrip.response status body →
      decodeEnvelope body = Except.ok env → env.Error = none →
      (jsonUnmarshal S env.Result result).2 = some cause →
      (Client.call rt S c sent ctx method params result).err
        = some (CallError.unmarshalResult cause))
    ∧ (∀ a b d : String, CallError.doRequest a ≠ CallError.decodeResponse b
        ∧ CallError.decodeResponse b ≠ CallError.unmarshalResult d
        ∧ CallError.doRequest a ≠ CallError.unmarshalResult d) := by
  rw [call_of_request_ok rt S c sent ctx method params result req hq]
  refine ⟨?_, ?_, ?_, ?_⟩
  · intro cause ht
    simp only [ht]
  · intro status body cause ht hd
    simp only [ht, hd]
  · intro status body env cause ht hd he hu
    simp only [ht, hd, he]
    cases hx : jsonUnmarshal S env.Result result with
    | mk r err =>
      rw [hx] at hu
      simp only at hu
      subst hu
      rfl
  · intro a b d
    refine ⟨?_, ?_, ?_⟩ <;> intro h <;> cases h

/-- C11, at concrete inputs: a node that cannot be reached, a gateway answering
with a page that is not JSON, and a node answering `getBalance` with a string
result. -/
theorem failure_stages_distinguished_witness :
    (Client.call nodeUnreachable RpcResponseU64.shape (NewClient Devnet) [] (Context.live 0)
        "getBalance" (some [Arg.string "abc"]) RpcResponseU64.shape.zero).err
      = some (CallError.doRequest "dial tcp: connect: connection refused")
    ∧ (Client.call (nodeAnsweringWith 502 gatewayPage) RpcResponseU64.shape (NewClient Devnet) []
        (Context.live 0) "getBalance" (some [Arg.string "abc"]) RpcResponseU64.shape.zero).err
      = some (CallError.decodeResponse "invalid character looking for beginning of value")
    ∧ (Client.call (nodeAnswering wrongShapeBody) RpcResponseU64.shape (NewClient Devnet) []
        (Context.live 0) "getBalance" (some [Arg.string "abc"]) RpcResponseU64.shape.zero).err
      = some (CallError.unmarshalResult
          "json: cannot unmarshal value into Go value of type solana.RpcResponseU64") :=
  ⟨(failure_stages_distinguished nodeUnreachable RpcResponseU64.shape (NewClient Devnet) []
      (Context.live 0) "getBalance" (some [Arg.string "abc"]) RpcResponseU64.shape.zero
      (balanceRequest "abc") rfl).1 _ rfl,
    (failure_stages_distinguished (nodeAnsweringWith 502 gatewayPage) RpcResponseU64.shape
      (NewClient Devnet) [] (Context.live 0) "getBalance" (some [Arg.string "abc"])
      RpcResponseU64.shape.zero (balanceRequest "abc") rfl).2.1 502 gatewayPage _ rfl rfl,
    (failure_stages_distinguished (nodeAnswering wrongShapeBody) RpcResponseU64.shape
      (NewClient Devnet) [] (Context.live 0) "getBalance" (some [Arg.string "abc"])
      RpcResponseU64.shape.zero (balanceRequest "abc") rfl).2.2.1 200 wrongShapeBody
      ⟨"2.0", 1, some (JSON.str "ok"), none⟩ _ rfl rfl rfl rfl⟩

/-- The form of every request that `call` builds. -/
theorem request_ok_form (rt : Runtime) (c : Client) (ctx : Context) (method : String)
    (params : GoSlice Arg) (req : HTTPRequest)
    (hq : Client.request rt c ctx method params = Except.ok req) :
    ∃ (ps : JSON) (u : URL), marshalParams params = Except.ok ps
      ∧ urlParse rt c.endpoint = Except.ok u
      ∧ ctx ≠ Context.nil
      ∧ req = ⟨ctx, "POST", ⟨u.Scheme, removeEmptyPort u.Host, u.Rest⟩,
          [("Content-Type", "application/json")],
          JSON.obj [("jsonrpc", JSON.str "2.0"), ("id", JSON.num false c.nextID),
            ("method", JSON.str method), ("params", ps)]⟩ := by
  rw [request_explicit] at hq
  cases hm : marshalParams params with
  | error err => simp only [hm] at hq; cases hq
  | ok ps =>
    simp only [hm] at hq
    cases ctx with
    | nil => simp only at hq; cases hq
    | live t =>
      simp only at hq
      cases hu : urlParse rt c.endpoint with
      | error err => simp only [hu] at hq; cases hq
      | ok u =>
        simp only [hu] at hq
        cases hq
        refine ⟨ps, u, rfl, rfl, ?_, rfl⟩
        intro h
        cases h

/-- An integer literal within the `int64` range is stored as its value. -/
theorem storeInt64_int (cur v : Int) (h1 : -(2 ^ 63 : Int) ≤ v) (h2 : v < (2 ^ 63 : Int)) :
    storeInt64 cur (JSON.int v) = (v, none) := by
  have hv : (if decide (v < 0) = true then -((v.natAbs : Nat) : Int) else ((v.natAbs : Nat) : Int))
      = v := by
    by_cases h : v < 0
    · simp only [h, decide_True, if_true]
      omega
    · simp only [h, decide_False, Bool.false_eq_true, if_false]
      omega
  simp only [JSON.int, storeInt64, hv]
  rw [if_pos ⟨h1, h2⟩]

/-- A non-negative integer literal from 2^63 on is rejected by an `int64` and
the stored value stays as it was. -/
theorem storeInt64_rejects_large (cur : Int) (m : Nat) (h : 2 ^ 63 ≤ m) :
    storeInt64 cur (JSON.num false m)
      = (cur, some "json: cannot unmarshal number into Go value of type int64") := by
  simp only [storeInt64, Bool.false_eq_true, if_false]
  rw [if_neg]
  intro hc
  have := hc.2
  omega

/-- C13, the code at the failing inputs: a `getBalance` result whose value is
2^63, within the unsigned 64-bit range, makes `GetBalance` fail with the
`unmarshal result` error and a `Value` of 0; a result whose value is -5 makes it
succeed with the negative `Value` -5. -/
theorem balance_value_is_signed :
    (Client.GetBalance (nodeAnswering hugeBalanceBody) (NewClient Devnet) [] (Context.live 0)
        "abc" none).err
      = some (CallError.unmarshalResult
          "json: cannot unmarshal number into Go value of type int64")
    ∧ (Client.GetBalance (nodeAnswering hugeBalanceBody) (NewClient Devnet) [] (Context.live 0)
        "abc" none).result.Value = 0
    ∧ (Client.GetBalance (nodeAnswering negativeBalanceBody) (NewClient Devnet) []
        (Context.live 0) "abc" none).err = none
    ∧ (Client.GetBalance (nodeAnswering negativeBalanceBody) (NewClient Devnet) []
        (Context.live 0) "abc" none).result.Value = -5 :=
  ⟨rfl, rfl, rfl, rfl⟩

/-- C14: `GetBalance` validates nothing: for every string given as the address
the parameter list starts with that very string, the request carries it as the
first element of `params` under the method `getBalance`, whether a request is
built does not depend on the string, and when the node answers with an error
object the call fails with that `RPCError`, not with a transport or decode
failure. -/
theorem GetBalance_forwards_any_address (rt : Runtime) (c : Client) (sent : List HTTPRequest)
    (ctx : Context) (s : String) (config : Option CommitmentConfig) (req : HTTPRequest)
    (status : Nat) (body : Body) (env : rpcResponse) (e : RPCError)
    (hq : Client.request rt c ctx "getBalance" (Client.GetBalance.params s config)
      = Except.ok req)
    (ht : rt.roundTrip sent req = RoundTrip.response status body)
    (hd : decodeEnvelope body = Except.ok env)
    (he : env.Error = some e) :
    (∃ rest : List Arg, Client.GetBalance.params s config = some (Arg.string s :: rest))
    ∧ (∃ rest : List JSON,
        req.Body = JSON.obj [("jsonrpc", JSON.str "2.0"), ("id", JSON.num false c.nextID),
          ("method", JSON.str "getBalance"), ("params", JSON.arr (JSON.str s :: rest))])
    ∧ (∀ s2 : String, ∃ req2,
        Client.request rt c ctx "getBalance" (Client.GetBalance.params s2 config)
          = Except.ok req2)
    ∧ Client.GetBalance rt c sent ctx s config
        = ⟨c.advance, sent ++ [req], RpcResponseU64.shape.zero, some (CallError.rpc e)⟩
    ∧ (CallError.rpc e).kind = some ErrorKind.rpcError := by
  refine ⟨?_, ?_, ?_, ?_, rfl⟩
  · cases config with
    | none => exact ⟨[], rfl⟩
    | some cfg => exact ⟨[Arg.commitmentConfig cfg], rfl⟩
  · obtain ⟨ps, u, hm, _, _, hreq⟩ := request_ok_form rt c ctx "getBalance" _ req hq
    rw [hreq]
    cases config with
    | none =>
      have hps : ps = JSON.arr [JSON.str s] := by
        have h2 : marshalParams (Client.GetBalance.params s none)
            = Except.ok (JSON.arr [JSON.str s]) := rfl
        rw [h2] at hm
        cases hm
        rfl
      exact ⟨[], by rw [hps]⟩
    | some cfg =>
      have h2 : marshalParams (Client.GetBalance.params s (some cfg))
          = Except.ok (JSON.arr [JSON.str s, JSON.obj (omitString "commitment" cfg.Commitment
              ++ omitInt "minContextSlot" cfg.MinContextSlot)]) := rfl
      rw [h2] at hm
      cases hm
      exact ⟨_, rfl⟩
  · intro s2
    rw [request_explicit] at hq ⊢
    have hm2 : ∃ ps2, marshalParams (Client.GetBalance.params s2 config) = Except.ok ps2 := by
      cases config with
      | none => exact ⟨_, rfl⟩
      | some cfg => exact ⟨_, rfl⟩
    obtain ⟨ps2, hps2⟩ := hm2
    cases hm : marshalParams (Client.GetBalance.params s config) with
    | error err => simp only [hm] at hq; cases hq
    | ok ps =>
      simp only [hm] at hq
      simp only [hps2]
      cases ctx with
      | nil => simp only at hq; cases hq
      | live t =>
        simp only at hq ⊢
        cases hu : urlParse rt c.endpoint with
        | error err => simp only [hu] at hq; cases hq
        | ok u => exact ⟨_, rfl⟩
  · unfold Client.GetBalance
    rw [call_of_request_ok rt RpcResponseU64.shape c sent ctx "getBalance" _ _ req hq]
    simp only [ht, hd, he]

/-- C14, at a concrete input: `GetBalance` of the address `invalid` against a
node that answers with the error object for a malformed address. -/
theorem GetBalance_forwards_any_address_witness :
    Client.GetBalance (nodeAnswering invalidParamBody) (NewClient Devnet) [] (Context.live 0)
        "invalid" none
      = ⟨(NewClient Devnet).advance, [] ++ [balanceRequest "invalid"],
          RpcResponseU64.shape.zero,
          some (CallError.rpc ⟨-32602, "Invalid param: Invalid", some (JSON.str "hint")⟩)⟩ :=
  (GetBalance_forwards_any_address (nodeAnswering invalidParamBody) (NewClient Devnet) []
    (Context.live 0) "invalid" none (balanceRequest "invalid") 200 invalidParamBody
    ⟨"2.0", 1, none, some ⟨-32602, "Invalid param: Invalid", some (JSON.str "hint")⟩⟩
    ⟨-32602, "Invalid param: Invalid", some (JSON.str "hint")⟩ rfl rfl rfl rfl).2.2.2.1

/-- Members whose key selects neither field leave a `Version` as it is. -/
theorem Version.foldl_ignored (ms : List (String × JSON)) :
    ∀ st : Version × Option String,
      (∀ kv ∈ ms, keyMatches kv.1 "solana-core" = false
        ∧ keyMatches kv.1 "feature-set" = false) →
      ms.foldl Version.storeMember st = st := by
  induction ms with
  | nil => intro st _; rfl
  | cons kv rest ih =>
    intro st h
    have hkv := h kv (List.mem_cons_self kv rest)
    have hstep : Version.storeMember st kv = st := by
      simp only [Version.storeMember, hkv.1, hkv.2, Bool.false_eq_true, if_false]
    rw [List.foldl_cons, hstep]
    exact ih st (fun x hx => h x (List.mem_cons_of_mem kv hx))

/-- The member `solana-core` with a string value sets the field `SolanaCore`. -/
theorem Version.store_core (v : Version) (err : Option String) (s : String) :
    Version.storeMember (v, err) ("solana-core", JSON.str s) = (⟨s, v.FeatureSet⟩, err) := by
  have hk : keyMatches "solana-core" "solana-core" = true := by decide
  simp only [Version.storeMember, hk, if_true, storeString]
  cases err <;> rfl

/-- The member `feature-set` with an integer value within the `int64` range
sets the field `FeatureSet`. -/
theorem Version.store_feature (v : Version) (err : Option String) (n : Int)
    (h1 : -(2 ^ 63 : Int) ≤ n) (h2 : n < (2 ^ 63 : Int)) :
    Version.storeMember (v, err) ("feature-set", JSON.int n) = (⟨v.SolanaCore, n⟩, err) := by
  have hk1 : keyMatches "feature-set" "solana-core" = false := by decide
  have hk2 : keyMatches "feature-set" "feature-set" = true := by decide
  simp only [Version.storeMember, hk1, hk2, if_true, Bool.false_eq_true, if_false,
    storeInt64_int v.FeatureSet n h1 h2]
  cases err <;> rfl

/-- A result object with the two members of a version, in either order and
among members of other names, decodes into the version record. -/
theorem storeVersion_members (xs ys zs : List (String × JSON)) (s : String) (n : Int)
    (ms : List (String × JSON))
    (h1 : -(2 ^ 63 : Int) ≤ n) (h2 : n < (2 ^ 63 : Int))
    (hx : ∀ kv ∈ xs ++ ys ++ zs, keyMatches kv.1 "solana-core" = false
        ∧ keyMatches kv.1 "feature-set" = false)
    (hms : ms = xs ++ [("solana-core", JSON.str s)] ++ ys ++ [("feature-set", JSON.int n)] ++ zs
      ∨ ms = xs ++ [("feature-set", JSON.int n)] ++ ys ++ [("solana-core", JSON.str s)] ++ zs) :
    storeVersion Version.shape.zero (JSON.obj ms) = (⟨s, n⟩, none) := by
  have hxs : ∀ kv ∈ xs, keyMatches kv.1 "solana-core" = false
      ∧ keyMatches kv.1 "feature-set" = false :=
    fun kv hkv => hx kv (List.mem_append_left _ (List.mem_append_left _ hkv))
  have hys : ∀ kv ∈ ys, keyMatches kv.1 "solana-core" = false
      ∧ keyMatches kv.1 "feature-set" = false :=
    fun kv hkv => hx kv (List.mem_append_left _ (List.mem_append_right _ hkv))
  have hzs : ∀ kv ∈ zs, keyMatches kv.1 "solana-core" = false
      ∧ keyMatches kv.1 "feature-set" = false :=
    fun kv hkv => hx kv (List.mem_append_right _ hkv)
  rcases hms with h | h
  · subst h
    simp only [storeVersion, List.foldl_append, List.foldl_cons, List.foldl_nil,
      Version.foldl_ignored xs _ hxs, Version.store_core, Version.foldl_ignored ys _ hys,
      Version.store_feature _ _ n h1 h2, Version.foldl_ignored zs _ hzs]
  · subst h
    simp only [storeVersion, List.foldl_append, List.foldl_cons, List.foldl_nil,
      Version.foldl_ignored xs _ hxs, Version.store_core, Version.foldl_ignored ys _ hys,
      Version.store_feature _ _ n h1 h2, Version.foldl_ignored zs _ hzs]

/-- C15: `GetVersion` calls the method `getVersion` with an empty parameter list
(the request carries `params: []`), and for every response without error object
whose result is an object with a string member `solana-core` = s and an integer
member `feature-set` = n (an `int64`), in either order and among members of other
names, it returns no error and the record `Version` with `SolanaCore` = s and
`FeatureSet` = n. -/
theorem GetVersion_returns_version_record (rt : Runtime) (c : Client)
    (sent : List HTTPRequest) (ctx : Context) (req : HTTPRequest) (status : Nat)
    (body : Body) (env : rpcResponse) (xs ys zs ms : List (String × JSON)) (s : String)
    (n : Int)
    (hq : Client.request rt c ctx "getVersion" Client.GetVersion.params = Except.ok req)
    (ht : rt.roundTrip sent req = RoundTrip.response status body)
    (hd : decodeEnvelope body = Except.ok env)
    (he : env.Error = none)
    (hr : env.Result = some (JSON.obj ms))
    (h1 : -(2 ^ 63 : Int) ≤ n) (h2 : n < (2 ^ 63 : Int))
    (hx : ∀ kv ∈ xs ++ ys ++ zs, keyMatches kv.1 "solana-core" = false
        ∧ keyMatches kv.1 "feature-set" = false)
    (hms : ms = xs ++ [("solana-core", JSON.str s)] ++ ys ++ [("feature-set", JSON.int n)] ++ zs
      ∨ ms = xs ++ [("feature-set", JSON.int n)] ++ ys ++ [("solana-core", JSON.str s)] ++ zs) :
    Client.GetVersion.params = some []
    ∧ req.Body = JSON.obj [("jsonrpc", JSON.str "2.0"), ("id", JSON.num false c.nextID),
        ("method", JSON.str "getVersion"), ("params", JSON.arr [])]
    ∧ Client.GetVersion rt c sent ctx = ⟨c.advance, sent ++ [req], ⟨s, n⟩, none⟩ := by
  refine ⟨rfl, ?_, ?_⟩
  · obtain ⟨ps, u, hm, _, _, hreq⟩ := request_ok_form rt c ctx "getVersion" _ req hq
    have h3 : marshalParams Client.GetVersion.params = Except.ok (JSON.arr []) := rfl
    rw [h3] at hm
    cases hm
    rw [hreq]
  · unfold Client.GetVersion
    rw [call_of_request_ok rt Version.shape c sent ctx "getVersion" _ _ req hq]
    have hs : Version.shape.store Version.shape.zero (JSON.obj ms) = (⟨s, n⟩, none) :=
      storeVersion_members xs ys zs s n ms h1 h2 hx hms
    simp only [ht, hd, he, hr, jsonUnmarshal, hs]

/-- C15, at a concrete input: a node answering `getVersion` with feature set
3640012085 and core version 2.2.3. -/
theorem GetVersion_returns_version_record_witness :
    Client.GetVersion (nodeAnswering versionBody) (NewClient Devnet) [] (Context.live 0)
      = ⟨(NewClient Devnet).advance, [] ++ [versionRequest], ⟨"2.2.3", 3640012085⟩, none⟩ :=
  (GetVersion_returns_version_record (nodeAnswering versionBody) (NewClient Devnet) []
    (Context.live 0) versionRequest 200 versionBody
    ⟨"2.0", 1, some (JSON.obj [("feature-set", JSON.int 3640012085),
      ("solana-core", JSON.str "2.2.3")]), none⟩
    [] [] [] [("feature-set", JSON.int 3640012085), ("solana-core", JSON.str "2.2.3")]
    "2.2.3" 3640012085 rfl rfl rfl rfl rfl (by decide) (by decide)
    (fun kv hkv => absurd hkv (List.not_mem_nil kv)) (Or.inr rfl)).2.2

/-- A response body with a result member decodes as an envelope whatever
unsigned 64-bit identifier and whatever version string it echoes, and the
envelope has that result and no error object. -/
theorem decodeEnvelope_result_body (v : String) (i : Nat) (j : JSON) (hi : i < 2 ^ 64) :
    decodeEnvelope (Body.json (JSON.obj [("jsonrpc", JSON.str v), ("id", JSON.num false i),
        ("result", j)]))
      = Except.ok ⟨v, i, some j, none⟩ := by
  have k1 : keyMatches "jsonrpc" "jsonrpc" = true := by decide
  have k2 : keyMatches "id" "jsonrpc" = false := by decide
  have k3 : keyMatches "id" "id" = true := by decide
  have k4 : keyMatches "result" "jsonrpc" = false := by decide
  have k5 : keyMatches "result" "id" = false := by decide
  have k6 : keyMatches "result" "result" = true := by decide
  simp only [decodeEnvelope, List.foldl_cons, List.foldl_nil, rpcResponse.storeMember, k1, k2,
    k3, k4, k5, k6, if_true, Bool.false_eq_true, if_false, storeString, storeUint64,
    rpcResponse.zero, saveError, hi, and_self]

/-- C16: clients share no counter: a call through one pointer leaves the client
behind every other pointer as it was, counter and endpoint included, so the
identifiers allocated and the requests built through the other pointer are the
same whether or not the first client was used. -/
theorem clients_do_not_share_counters {α : Type} (rt : Runtime) (S : Shape α) (h : Heap)
    (sent : List HTTPRequest) (a b : Nat) (ctx : Context) (method : String)
    (params : GoSlice Arg) (result : α) (hab : a ≠ b) :
    (Heap.call rt S h sent a ctx method params result).1 b = h b
    ∧ ((Heap.call rt S h sent a ctx method params result).1 b).requestID = (h b).requestID
    ∧ ((Heap.call rt S h sent a ctx method params result).1 b).endpoint = (h b).endpoint
    ∧ (∀ calls : List CallInput,
        allocatedIDs rt ((Heap.call rt S h sent a ctx method params result).1 b)
            (Heap.call rt S h sent a ctx method params result).2.sent calls
          = allocatedIDs rt (h b) sent calls)
    ∧ (∀ (ctx2 : Context) (method2 : String) (params2 : GoSlice Arg),
        Client.request rt ((Heap.call rt S h sent a ctx method params result).1 b)
            ctx2 method2 params2
          = Client.request rt (h b) ctx2 method2 params2) := by
  have hb : (Heap.call rt S h sent a ctx method params result).1 b = h b := by
    simp only [Heap.call]
    exact Function.update_noteq (Ne.symm hab) _ h
  refine ⟨hb, by rw [hb], by rw [hb], ?_, ?_⟩
  · intro calls
    rw [hb, allocatedIDs_eq, allocatedIDs_eq]
  · intro ctx2 method2 params2
    rw [hb]

/-- C16, at a concrete input: a health check through the pointer 0 leaves the
client at the pointer 1 untouched, while the client at the pointer 0 has
advanced. -/
theorem clients_do_not_share_counters_witness :
    (Heap.call (nodeAnswering healthBody) stringShape twoClients [] 0 (Context.live 0)
        "getHealth" (some []) "").1 1 = twoClients 1
    ∧ ((Heap.call (nodeAnswering healthBody) stringShape twoClients [] 0 (Context.live 0)
        "getHealth" (some []) "").1 0).requestID = 1 :=
  ⟨(clients_do_not_share_counters (nodeAnswering healthBody) stringShape twoClients [] 0 1
      (Context.live 0) "getHealth" (some []) "" (by decide)).1,
    by simp [Heap.call, call_client, Client.advance, Client.nextID, twoClients, NewClient]⟩

/-- C18: for an envelope without error object, a result member that is the
literal `null` makes `call` return no error and leave the result of the caller
at its zero value (for every shape that `null` leaves at zero, as the shapes of
`GetBlockTime` and `GetBlocks` do), while an envelope without result member makes
`call` fail with the `unmarshal result` error. -/
theorem null_result_succeeds_absent_result_fails {α : Type} (rt : Runtime) (S : Shape α)
    (c : Client) (sent : List HTTPRequest) (ctx : Context) (method : String)
    (params : GoSlice Arg) (req : HTTPRequest) (status : Nat) (body : Body)
    (env : rpcResponse)
    (hq : Client.request rt c ctx method params = Except.ok req)
    (ht : rt.roundTrip sent req = RoundTrip.response status body)
    (hd : decodeEnvelope body = Except.ok env)
    (he : env.Error = none) :
    (env.Result = some JSON.null → S.store S.zero JSON.null = (S.zero, none) →
      Client.call rt S c sent ctx method params S.zero
        = ⟨c.advance, sent ++ [req], S.zero, none⟩)
    ∧ (env.Result = none →
      Client.call rt S c sent ctx method params S.zero
        = ⟨c.advance, sent ++ [req], S.zero,
            some (CallError.unmarshalResult "unexpected end of JSON input")⟩)
    ∧ int64Shape.store int64Shape.zero JSON.null = (int64Shape.zero, none)
    ∧ slotsShape.store slotsShape.zero JSON.null = (slotsShape.zero, none) := by
  rw [call_of_request_ok rt S c sent ctx method params S.zero req hq]
  simp only [ht, hd, he]
  refine ⟨?_, ?_, rfl, rfl⟩
  · intro hr hn
    simp only [hr, jsonUnmarshal, hn]
  · intro hr
    simp only [hr, jsonUnmarshal]

/-- C18, at concrete inputs: against a node whose result is `null`,
`GetBlockTime` returns 0 and `GetBlocks` returns the nil list, both without
error; against a node whose envelope has no result member `GetBlockTime` fails. -/
theorem null_result_succeeds_absent_result_fails_witness :
    Client.GetBlockTime (nodeAnswering nullResultBody) (NewClient Devnet) [] (Context.live 0) 5
      = ⟨(NewClient Devnet).advance, [] ++ [blockTimeRequest], 0, none⟩
    ∧ Client.GetBlocks (nodeAnswering nullResultBody) (NewClient Devnet) [] (Context.live 0)
        5 none none
      = ⟨(NewClient Devnet).advance, [] ++ [blocksRequest], none, none⟩
    ∧ Client.GetBlockTime (nodeAnswering emptyEnvelopeBody) (NewClient Devnet) []
        (Context.live 0) 5
      = ⟨(NewClient Devnet).advance, [] ++ [blockTimeRequest], 0,
          some (CallError.unmarshalResult "unexpected end of JSON input")⟩ :=
  ⟨(null_result_succeeds_absent_result_fails (nodeAnswering nullResultBody) int64Shape
      (NewClient Devnet) [] (Context.live 0) "getBlockTime" (some [Arg.int64 5])
      blockTimeRequest 200 nullResultBody ⟨"2.0", 1, some JSON.null, none⟩
      rfl rfl rfl rfl).1 rfl rfl,
    (null_result_succeeds_absent_result_fails (nodeAnswering nullResultBody) slotsShape
      (NewClient Devnet) [] (Context.live 0) "getBlocks" (some [Arg.int64 5])
      blocksRequest 200 nullResultBody ⟨"2.0", 1, some JSON.null, none⟩
      rfl rfl rfl rfl).1 rfl rfl,
    (null_result_succeeds_absent_result_fails (nodeAnswering emptyEnvelopeBody) int64Shape
      (NewClient Devnet) [] (Context.live 0) "getBlockTime" (some [Arg.int64 5])
      blockTimeRequest 200 emptyEnvelopeBody ⟨"2.0", 1, none, none⟩
      rfl rfl rfl rfl).2.1 rfl⟩

/-- The identifier allocated by the call at position `k` of a sequence. -/
theorem allocatedIDs_get (rt : Runtime) (c : Client) (sent : List HTTPRequest)
    (calls : List CallInput) (k : Nat) (hk : k < calls.length) :
    (allocatedIDs rt c sent calls)[k]? = some ((c.requestID + k + 1) % 2 ^ 64) := by
  rw [allocatedIDs_eq, List.getElem?_map, List.getElem?_range hk]
  rfl

/-- C21, as stated, fails in its last clause: the identifier 1 consumed by a call
that failed before any network activity (nil context) is allocated again by the
last of the 2^64 calls that follow, because the counter is a Go `uint64`. -/
theorem consumed_identifier_reused_after_wraparound :
    (Client.call (nodeAnswering healthBody) stringShape (NewClient Devnet) [] Context.nil
        "getHealth" (some []) "").err
      = some (CallError.createRequest "net/http: nil Context")
    ∧ (Client.call (nodeAnswering healthBody) stringShape (NewClient Devnet) [] Context.nil
        "getHealth" (some []) "").client.requestID = 1
    ∧ (allocatedIDs (nodeAnswering healthBody)
        (Client.call (nodeAnswering healthBody) stringShape (NewClient Devnet) [] Context.nil
          "getHealth" (some []) "").client
        (Client.call (nodeAnswering healthBody) stringShape (NewClient Devnet) [] Context.nil
          "getHealth" (some []) "").sent
        (List.replicate (2 ^ 64) ping))[2 ^ 64 - 1]? = some 1 :=
  ⟨rfl, rfl,
    (allocatedIDs_get (nodeAnswering healthBody) _ _ (List.replicate (2 ^ 64) ping)
      (2 ^ 64 - 1) (by rw [List.length_replicate]; norm_num)).trans
      (congrArg some (by
        rw [call_client]
        simp [Client.advance, Client.nextID, NewClient]))⟩

/-- C21, amended: every `call` advances the counter of the client by exactly one
modulo 2^64 and changes neither the endpoint nor the HTTP client, whatever its
outcome (success, RPC error, decode failure, transport failure, or a failure of
serialization or of request construction before any network activity: the
statement has no condition on the outcome); and the identifier a call consumed,
failed or not, is allocated by none of the next calls on that client, as long
as they are fewer than 2^64. -/
theorem call_advances_counter_only {α : Type} (rt : Runtime) (S : Shape α) (c : Client)
    (sent : List HTTPRequest) (ctx : Context) (method : String) (params : GoSlice Arg)
    (result : α) :
    (Client.call rt S c sent ctx method params result).client.requestID
      = (c.requestID + 1) % 2 ^ 64
    ∧ (Client.call rt S c sent ctx method params result).client.endpoint = c.endpoint
    ∧ (Client.call rt S c sent ctx method params result).client.httpClient = c.httpClient
    ∧ (∀ calls : List CallInput, calls.length < 2 ^ 64 →
        (Client.call rt S c sent ctx method params result).client.requestID
          ∉ allocatedIDs rt (Client.call rt S c sent ctx method params result).client
              (Client.call rt S c sent ctx method params result).sent calls) := by
  rw [call_client]
  refine ⟨rfl, rfl, rfl, ?_⟩
  intro calls hlen hmem
  rw [allocatedIDs_eq] at hmem
  obtain ⟨k, hk, hkeq⟩ := List.mem_map.mp hmem
  have hk2 : k < calls.length := List.mem_range.mp hk
  simp only [Client.advance, Client.nextID] at hkeq
  omega

/-- C21, amended, at a concrete input: a call that fails before any network
activity (nil context) takes the counter of a new client from 0 to 1, leaves the
endpoint alone, and the three calls that follow allocate 2, 3 and 4. -/
theorem call_advances_counter_only_witness :
    (Client.call (nodeAnswering healthBody) stringShape (NewClient Devnet) [] Context.nil
        "getHealth" (some []) "").client.requestID = (0 + 1) % 2 ^ 64
    ∧ (Client.call (nodeAnswering healthBody) stringShape (NewClient Devnet) [] Context.nil
        "getHealth" (some []) "").client.endpoint = Devnet
    ∧ allocatedIDs (nodeAnswering healthBody)
        (Client.call (nodeAnswering healthBody) stringShape (NewClient Devnet) [] Context.nil
          "getHealth" (some []) "").client
        (Client.call (nodeAnswering healthBody) stringShape (NewClient Devnet) [] Context.nil
          "getHealth" (some []) "").sent threeCalls = [2, 3, 4]
    ∧ (Client.call (nodeAnswering healthBody) stringShape (NewClient Devnet) [] Context.nil
        "getHealth" (some []) "").client.requestID
      ∉ allocatedIDs (nodeAnswering healthBody)
          (Client.call (nodeAnswering healthBody) stringShape (NewClient Devnet) []
            Context.nil "getHealth" (some []) "").client
          (Client.call (nodeAnswering healthBody) stringShape (NewClient Devnet) []
            Context.nil "getHealth" (some []) "").sent threeCalls :=
  ⟨(call_advances_counter_only (nodeAnswering healthBody) stringShape (NewClient Devnet) []
      Context.nil "getHealth" (some []) "").1,
    (call_advances_counter_only (nodeAnswering healthBody) stringShape (NewClient Devnet) []
      Context.nil "getHealth" (some []) "").2.1,
    rfl,
    (call_advances_counter_only (nodeAnswering healthBody) stringShape (NewClient Devnet) []
      Context.nil "getHealth" (some []) "").2.2.2 threeCalls (by decide)⟩

/-- The loop of `Do` puts on the wire the request it is given first, at least
one request and at most as many as the redirect policy still allows. -/
theorem follow_hops (rt : Runtime) (sent : List HTTPRequest) (ireq : HTTPRequest) (left : Nat) :
    ∀ (hops : List WireRequest) (req : WireRequest),
      ∃ more : List WireRequest,
        (HTTPClient.follow rt sent ireq (left + 1) hops req).1 = hops ++ req :: more
        ∧ more.length ≤ left := by
  induction left with
  | zero =>
    intro hops req
    refine ⟨[], ?_, Nat.le_refl _⟩
    simp only [HTTPClient.follow]
    cases rt.transport sent ireq hops req with
    | failed cause => rfl
    | response status location body =>
      simp only
      split
      · rfl
      · split
        · rfl
        · cases rt.resolve req.URL location with
          | error e => rfl
          | ok u => simp [HTTPClient.follow]
  | succ n ih =>
    intro hops req
    rw [HTTPClient.follow]
    cases rt.transport sent ireq hops req with
    | failed cause => exact ⟨[], rfl, Nat.zero_le _⟩
    | response status location body =>
      simp only
      split
      · exact ⟨[], rfl, Nat.zero_le _⟩
      · split
        · exact ⟨[], rfl, Nat.zero_le _⟩
        · cases rt.resolve req.URL location with
          | error e => exact ⟨[], rfl, Nat.zero_le _⟩
          | ok u =>
            simp only
            obtain ⟨more, h1, h2⟩ := ih (hops ++ [req])
              ⟨(redirectBehavior req.Method status).1, u,
                if (redirectBehavior req.Method status).2.2 then some ireq.Body else none⟩
            refine ⟨(⟨(redirectBehavior req.Method status).1, u,
                if (redirectBehavior req.Method status).2.2 then some ireq.Body else none⟩
                  : WireRequest) :: more, ?_, ?_⟩
            · rw [h1]
              simp
            · simp only [List.length_cons]
              omega

/-- The requests `Do` puts on the wire: the request it was given, then at most
nine more. -/
theorem Do_hops (cl : HTTPClient) (rt : Runtime) (sent : List HTTPRequest) (req : HTTPRequest) :
    ∃ more : List WireRequest, (cl.Do rt sent req).1 = req.wire :: more ∧ more.length ≤ 9 := by
  cases cl
  obtain ⟨more, h1, h2⟩ := follow_hops rt sent req 9 [] req.wire
  exact ⟨more, by simpa [HTTPClient.Do] using h1, h2⟩

/-- What `Do` does when the transport fails on the request it was given. -/
theorem Do_of_failed (cl : HTTPClient) (rt : Runtime) (sent : List HTTPRequest)
    (req : HTTPRequest) (cause : String)
    (h : rt.transport sent req [] req.wire = Exchange.failed cause) :
    cl.Do rt sent req = ([req.wire], RoundTrip.failed cause) := by
  cases cl
  simp only [HTTPClient.Do, HTTPClient.follow, h, List.nil_append]

/-- What `Do` does when the first answer is not a redirect it follows. -/
theorem Do_of_not_followed (cl : HTTPClient) (rt : Runtime) (sent : List HTTPRequest)
    (req : HTTPRequest) (status : Nat) (location : String) (body : Body)
    (h : rt.transport sent req [] req.wire = Exchange.response status location body)
    (hf : followed req.Method status location = false) :
    cl.Do rt sent req = ([req.wire], RoundTrip.response status body) := by
  cases cl
  simp only [HTTPClient.Do, HTTPClient.follow, h, List.nil_append]
  have hm : req.wire.Method = req.Method := rfl
  rw [hm]
  by_cases h1 : (redirectBehavior req.Method status).2.1 = false
  · rw [if_pos h1]
  · rw [if_neg h1]
    have h2 : location = "" := by
      simp only [followed, Bool.and_eq_false_iff] at hf
      rcases hf with hf | hf
      · exact absurd hf h1
      · simpa using hf
    rw [if_pos h2]

/-- C10, as stated, fails in both directions. On a client whose endpoint ends in
a line feed `call` returns without handing any request to the HTTP client: no
round trip. Against a gateway that answers the request with status 307 and a
`Location`, the one `Do` of a `call` puts two requests on the wire: two round
trips. -/
theorem round_trips_are_none_or_several :
    (Client.call (nodeAnswering healthBody) stringShape (NewClient untrimmedEndpoint) []
        (Context.live 0) "getHealth" (some []) "").sent = []
    ∧ (Client.call (gatewayAnswering 307) RpcResponseU64.shape (NewClient Devnet) []
        (Context.live 0) "getBalance" (some [Arg.string "abc"])
        RpcResponseU64.shape.zero).sent = [balanceRequest "abc"]
    ∧ (HTTPClient.DefaultClient.Do (gatewayAnswering 307) [] (balanceRequest "abc")).1
        = [⟨"POST", devnetURL, some (balanceRequest "abc").Body⟩,
            ⟨"POST", testnetURL, some (balanceRequest "abc").Body⟩] :=
  ⟨rfl, rfl, rfl⟩

/-- C10, amended: a `call` hands a request to the HTTP client at most once:
exactly once when the request was serialized and constructed, never again
whatever comes back (no retry), and not at all otherwise. For that one request
the HTTP client makes at least one and at most ten round trips through the
transport, the first with the request itself: exactly one when the transport
fails or answers with anything but a redirect the client follows, one more for
each redirect followed. Two identical consecutive calls whose requests are built
each hand their own request to the HTTP client. -/
theorem one_do_and_up_to_ten_round_trips {α : Type} (rt : Runtime) (S : Shape α) (c : Client)
    (sent : List HTTPRequest) (ctx : Context) (method : String) (params : GoSlice Arg)
    (result : α) :
    (∀ e, Client.request rt c ctx method params = Except.error e →
        (Client.call rt S c sent ctx method params result).sent = sent)
    ∧ (∀ req, Client.request rt c ctx method params = Except.ok req →
        (Client.call rt S c sent ctx method params result).sent = sent ++ [req]
        ∧ (∃ more : List WireRequest,
            (c.httpClient.Do rt sent req).1 = req.wire :: more ∧ more.length ≤ 9)
        ∧ (∀ cause, rt.transport sent req [] req.wire = Exchange.failed cause →
            (c.httpClient.Do rt sent req).1 = [req.wire])
        ∧ (∀ status location body,
            rt.transport sent req [] req.wire = Exchange.response status location body →
            followed req.Method status location = false →
            (c.httpClient.Do rt sent req).1 = [req.wire]))
    ∧ (∀ req1 req2, Client.request rt c ctx method params = Except.ok req1 →
        Client.request rt c.advance ctx method params = Except.ok req2 →
        (Client.call rt S (Client.call rt S c sent ctx method params result).client
          (Client.call rt S c sent ctx method params result).sent ctx method params
          (Client.call rt S c sent ctx method params result).result).sent
          = sent ++ [req1, req2]) := by
  refine ⟨?_, ?_, ?_⟩
  · intro e hq
    rw [call_sent, hq]
  · intro req hq
    refine ⟨?_, Do_hops c.httpClient rt sent req, ?_, ?_⟩
    · rw [call_sent, hq]
    · intro cause h
      rw [Do_of_failed c.httpClient rt sent req cause h]
    · intro status location body h hf
      rw [Do_of_not_followed c.httpClient rt sent req status location body h hf]
  · intro req1 req2 hq1 hq2
    rw [call_sent, call_client, hq2, call_sent, hq1]
    simp

/-- C10, amended, at concrete inputs: a health check against a node that cannot
be reached is one request to the HTTP client and one round trip, a second health
check is a request of its own, and a balance request through a gateway that
redirects is one request to the HTTP client. -/
theorem one_do_and_up_to_ten_round_trips_witness :
    (Client.call nodeUnreachable stringShape (NewClient Devnet) [] (Context.live 0)
        "getHealth" (some []) "").sent = [] ++ [healthRequest]
    ∧ (HTTPClient.DefaultClient.Do nodeUnreachable [] healthRequest).1 = [healthRequest.wire]
    ∧ (Client.call nodeUnreachable stringShape
        (Client.call nodeUnreachable stringShape (NewClient Devnet) [] (Context.live 0)
          "getHealth" (some []) "").client
        (Client.call nodeUnreachable stringShape (NewClient Devnet) [] (Context.live 0)
          "getHealth" (some []) "").sent (Context.live 0) "getHealth" (some [])
        (Client.call nodeUnreachable stringShape (NewClient Devnet) [] (Context.live 0)
          "getHealth" (some []) "").result).sent = [] ++ [healthRequest, secondHealthRequest]
    ∧ (Client.call (gatewayAnswering 307) RpcResponseU64.shape (NewClient Devnet) []
        (Context.live 0) "getBalance" (some [Arg.string "abc"])
        RpcResponseU64.shape.zero).sent = [] ++ [balanceRequest "abc"] :=
  ⟨((one_do_and_up_to_ten_round_trips nodeUnreachable stringShape (NewClient Devnet) []
        (Context.live 0) "getHealth" (some []) "").2.1 healthRequest rfl).1,
    ((one_do_and_up_to_ten_round_trips nodeUnreachable stringShape (NewClient Devnet) []
        (Context.live 0) "getHealth" (some []) "").2.1 healthRequest rfl).2.2.1
        "dial tcp: connect: connection refused" rfl,
    (one_do_and_up_to_ten_round_trips nodeUnreachable stringShape (NewClient Devnet) []
        (Context.live 0) "getHealth" (some []) "").2.2 healthRequest secondHealthRequest
        rfl rfl,
    ((one_do_and_up_to_ten_round_trips (gatewayAnswering 307) RpcResponseU64.shape
        (NewClient Devnet) [] (Context.live 0) "getBalance" (some [Arg.string "abc"])
        RpcResponseU64.shape.zero).2.1 (balanceRequest "abc") rfl).1⟩

/-- An accepted URL has the scheme of the string in lower case. -/
theorem urlParse_scheme (rt : Runtime) (s : String) (u : URL) (h : urlParse rt s = Except.ok u) :
    ∃ scheme rest : String,
      getScheme (String.mk (s.toList.takeWhile (fun c => c != '#'))) = Except.ok (scheme, rest)
      ∧ u.Scheme = toLowerASCII scheme := by
  unfold urlParse at h
  simp only at h
  split at h
  · cases h
  · split at h
    · cases h
    · rename_i scheme rest hg
      split at h
      · cases h
      · cases h
        exact ⟨scheme, rest, hg, rfl⟩

/-- C12, as stated, fails in three ways. For an endpoint that ends in a line
feed no HTTP request is built at all. For the endpoint
`HTTPS://API.Devnet.Solana.com` the request is built, but its target is the
parsed URL, whose scheme is `https`, not the `HTTPS` of the endpoint string. For
the endpoint `https://api.devnet.solana.com:` the host of the target has lost the
colon: the request is the very one built for `Devnet`. -/
theorem endpoint_is_parsed_not_copied :
    Client.request (nodeAnswering healthBody) (NewClient untrimmedEndpoint) (Context.live 0)
        "getHealth" (some [])
      = Except.error (CallError.createRequest "net/url: invalid control character in URL")
    ∧ Client.request (nodeAnswering healthBody) (NewClient upperCaseEndpoint) (Context.live 0)
        "getHealth" (some []) = Except.ok upperCaseHealthRequest
    ∧ getScheme upperCaseEndpoint = Except.ok ("HTTPS", "//API.Devnet.Solana.com")
    ∧ upperCaseHealthRequest.URL = ⟨"https", "API.Devnet.Solana.com", ""⟩
    ∧ Client.request (nodeAnswering healthBody) (NewClient emptyPortEndpoint) (Context.live 0)
        "getHealth" (some []) = Except.ok healthRequest
    ∧ Client.request (nodeAnswering healthBody) (NewClient Devnet) (Context.live 0)
        "getHealth" (some []) = Except.ok healthRequest
    ∧ emptyPortEndpoint ≠ Devnet := by
  refine ⟨rfl, rfl, rfl, rfl, rfl, rfl, ?_⟩
  decide

/-- C12, amended: on a client made by `NewClient` for an endpoint, after any
sequence of earlier calls, a call builds an HTTP request exactly when the
parameters serialize, the context is not nil and the endpoint parses as a URL,
and no request otherwise. The request it builds and hands to the HTTP client,
which puts it on the wire first, has the verb POST, as its target the URL parsed
from the endpoint (with the scheme of the endpoint in lower case) less an empty
port of its host, the single header `Content-Type: application/json`, and the
serialized JSON-RPC request as its body. The three endpoint constants have the
values of the clusters. -/
theorem request_is_json_post_to_parsed_endpoint {α : Type} (rt : Runtime) (S : Shape α)
    (endpoint : String) (earlier : List CallInput) (ctx : Context) (method : String)
    (params : GoSlice Arg) (result : α) :
    ((∃ req, Client.request rt (runCalls rt (NewClient endpoint) [] earlier).1 ctx method params
        = Except.ok req)
      ↔ (∃ ps, marshalParams params = Except.ok ps) ∧ ctx ≠ Context.nil
        ∧ ∃ u, urlParse rt endpoint = Except.ok u)
    ∧ (∀ req, Client.request rt (runCalls rt (NewClient endpoint) [] earlier).1 ctx method params
        = Except.ok req →
      (Client.call rt S (runCalls rt (NewClient endpoint) [] earlier).1
          (runCalls rt (NewClient endpoint) [] earlier).2 ctx method params result).sent
        = (runCalls rt (NewClient endpoint) [] earlier).2 ++ [req]
      ∧ (∃ more, ((runCalls rt (NewClient endpoint) [] earlier).1.httpClient.Do rt
          (runCalls rt (NewClient endpoint) [] earlier).2 req).1
          = ⟨"POST", req.URL, some req.Body⟩ :: more)
      ∧ req.Method = "POST"
      ∧ (∃ u, urlParse rt endpoint = Except.ok u
          ∧ req.URL = ⟨u.Scheme, removeEmptyPort u.Host, u.Rest⟩)
      ∧ (∃ scheme rest : String,
          getScheme (String.mk (endpoint.toList.takeWhile (fun c => c != '#')))
            = Except.ok (scheme, rest)
          ∧ req.URL.Scheme = toLowerASCII scheme)
      ∧ req.Header = [("Content-Type", "application/json")]
      ∧ jsonMarshal
          ⟨"2.0", (runCalls rt (NewClient endpoint) [] earlier).1.nextID, method, params⟩
          = Except.ok req.Body)
    ∧ MainnetBeta = "https://api.mainnet-beta.solana.com"
    ∧ Devnet = "https://api.devnet.solana.com"
    ∧ Testnet = "https://api.testnet.solana.com" := by
  have hc := runCalls_client rt earlier (NewClient endpoint) [] (by simp [NewClient])
  have hend : (runCalls rt (NewClient endpoint) [] earlier).1.endpoint = endpoint := by
    rw [hc]
    rfl
  refine ⟨⟨?_, ?_⟩, ?_, rfl, rfl, rfl⟩
  · rintro ⟨req, hq⟩
    obtain ⟨ps, u, hm, hu, hctx, _⟩ := request_ok_form rt _ ctx method params req hq
    rw [hend] at hu
    exact ⟨⟨ps, hm⟩, hctx, u, hu⟩
  · rintro ⟨⟨ps, hm⟩, hctx, u, hu⟩
    rw [request_explicit, hm, hend, hu]
    cases ctx with
    | nil => exact absurd rfl hctx
    | live t => exact ⟨_, rfl⟩
  · intro req hq
    obtain ⟨ps, u, hm, hu, hctx, hreq⟩ := request_ok_form rt _ ctx method params req hq
    rw [hend] at hu
    have hurl : req.URL = ⟨u.Scheme, removeEmptyPort u.Host, u.Rest⟩ := by rw [hreq]
    refine ⟨?_, ?_, ?_, ?_, ?_, ?_, ?_⟩
    · rw [call_sent, hq]
    · obtain ⟨more, h1, _⟩ := Do_hops (runCalls rt (NewClient endpoint) [] earlier).1.httpClient
        rt (runCalls rt (NewClient endpoint) [] earlier).2 req
      refine ⟨more, ?_⟩
      rw [h1, hreq]
      rfl
    · rw [hreq]
    · exact ⟨u, hu, hurl⟩
    · rw [hurl]
      exact urlParse_scheme rt endpoint u hu
    · rw [hreq]
    · rw [hreq]
      simp only [jsonMarshal, hm]

/-- C12, amended, at a concrete input: the second health check on a new client
for `Devnet`. -/
theorem request_is_json_post_to_parsed_endpoint_witness :
    (Client.call (nodeAnswering healthBody) stringShape
        (runCalls (nodeAnswering healthBody) (NewClient Devnet) [] [ping]).1
        (runCalls (nodeAnswering healthBody) (NewClient Devnet) [] [ping]).2
        (Context.live 0) "getHealth" (some []) "").sent
      = (runCalls (nodeAnswering healthBody) (NewClient Devnet) [] [ping]).2
          ++ [secondHealthRequest]
    ∧ secondHealthRequest.Method = "POST"
    ∧ (∃ u, urlParse (nodeAnswering healthBody) Devnet = Except.ok u
        ∧ secondHealthRequest.URL = ⟨u.Scheme, removeEmptyPort u.Host, u.Rest⟩)
    ∧ secondHealthRequest.URL = ⟨"https", "api.devnet.solana.com", ""⟩ :=
  ⟨((request_is_json_post_to_parsed_endpoint (nodeAnswering healthBody) stringShape Devnet
      [ping] (Context.live 0) "getHealth" (some []) "").2.1 secondHealthRequest rfl).1,
    ((request_is_json_post_to_parsed_endpoint (nodeAnswering healthBody) stringShape Devnet
      [ping] (Context.live 0) "getHealth" (some []) "").2.1 secondHealthRequest rfl).2.2.1,
    ((request_is_json_post_to_parsed_endpoint (nodeAnswering healthBody) stringShape Devnet
      [ping] (Context.live 0) "getHealth" (some []) "").2.1 secondHealthRequest rfl).2.2.2.1,
    rfl⟩

/-- C19, as stated, fails: two gateways that answer the request with the same
body and the same `Location` header, one with status 200 and one with status
307, give different outcomes: under 200 `call` decodes that body (42 lamports),
under 307 the HTTP client follows the redirect and `call` decodes the answer to
the second request (7 lamports). -/
theorem redirect_status_changes_outcome :
    (gatewayAnswering 200).transport [] (balanceRequest "abc") [] (balanceRequest "abc").wire
      = Exchange.response 200 Testnet balanceBody
    ∧ (gatewayAnswering 307).transport [] (balanceRequest "abc") [] (balanceRequest "abc").wire
      = Exchange.response 307 Testnet balanceBody
    ∧ (Client.call (gatewayAnswering 200) RpcResponseU64.shape (NewClient Devnet) []
        (Context.live 0) "getBalance" (some [Arg.string "abc"])
        RpcResponseU64.shape.zero).result.Value = 42
    ∧ (Client.call (gatewayAnswering 307) RpcResponseU64.shape (NewClient Devnet) []
        (Context.live 0) "getBalance" (some [Arg.string "abc"])
        RpcResponseU64.shape.zero).result.Value = 7 :=
  ⟨rfl, rfl, rfl, rfl⟩

/-- C19, amended: the outcome of `call` does not depend on the status code of
the response the HTTP client returns: two returned responses with the same body
give the same returned error, result and client, so a returned response of any
status whose body is an envelope with a decodable result succeeds, and one whose
body is not JSON fails with the `decode response` error, not with a transport
failure. On the wire, two answers of the transport with the same body give the
same outcome whenever neither is a redirect the HTTP client follows (status 301,
302, 303, 307 or 308 with a `Location`). -/
theorem status_code_is_ignored_unless_redirect {α : Type} (rt1 rt2 : Runtime) (S : Shape α)
    (c : Client) (sent : List HTTPRequest) (ctx : Context) (method : String)
    (params : GoSlice Arg) (result : α) (req : HTTPRequest)
    (hq1 : Client.request rt1 c ctx method params = Except.ok req)
    (hq2 : Client.request rt2 c ctx method params = Except.ok req) :
    (∀ status1 status2 body, rt1.roundTrip sent req = RoundTrip.response status1 body →
      rt2.roundTrip sent req = RoundTrip.response status2 body →
      Client.call rt1 S c sent ctx method params result
        = Client.call rt2 S c sent ctx method params result
      ∧ (∀ env j, decodeEnvelope body = Except.ok env → env.Error = none →
          env.Result = some j → (S.store result j).2 = none →
          (Client.call rt1 S c sent ctx method params result).err = none
          ∧ (Client.call rt1 S c sent ctx method params result).result
              = (S.store result j).1)
      ∧ (∀ cause, body = Body.malformed cause →
          (Client.call rt1 S c sent ctx method params result).err
            = some (CallError.decodeResponse cause)))
    ∧ (∀ status1 location1 status2 location2 body,
      rt1.transport sent req [] req.wire = Exchange.response status1 location1 body →
      rt2.transport sent req [] req.wire = Exchange.response status2 location2 body →
      followed req.Method status1 location1 = false →
      followed req.Method status2 location2 = false →
      Client.call rt1 S c sent ctx method params result
        = Client.call rt2 S c sent ctx method params result) := by
  have key : ∀ status1 status2 body, rt1.roundTrip sent req = RoundTrip.response status1 body →
      rt2.roundTrip sent req = RoundTrip.response status2 body →
      Client.call rt1 S c sent ctx method params result
        = Client.call rt2 S c sent ctx method params result := by
    intro status1 status2 body h1 h2
    rw [call_of_request_ok rt1 S c sent ctx method params result req hq1,
      call_of_request_ok rt2 S c sent ctx method params result req hq2]
    simp only [h1, h2]
  refine ⟨?_, ?_⟩
  · intro status1 status2 body h1 h2
    refine ⟨key status1 status2 body h1 h2, ?_, ?_⟩
    · intro env j hd he hr hs
      rw [call_of_request_ok rt1 S c sent ctx method params result req hq1]
      simp only [h1, hd, he, hr, jsonUnmarshal]
      cases hx : S.store result j with
      | mk r err =>
        rw [hx] at hs
        simp only at hs
        subst hs
        exact ⟨rfl, rfl⟩
    · intro cause hb
      subst hb
      rw [call_of_request_ok rt1 S c sent ctx method params result req hq1]
      simp only [h1]
      rfl
  · intro status1 location1 status2 location2 body h1 h2 hf1 hf2
    have d1 := Do_of_not_followed HTTPClient.DefaultClient rt1 sent req status1 location1 body
      h1 hf1
    have d2 := Do_of_not_followed HTTPClient.DefaultClient rt2 sent req status2 location2 body
      h2 hf2
    exact key status1 status2 body (by simp only [Runtime.roundTrip, d1])
      (by simp only [Runtime.roundTrip, d2])

/-- C19, amended, at concrete inputs: the same balance response succeeds under
status 200 and under status 503 alike, and a gateway page under status 502 is a
decode failure. -/
theorem status_code_is_ignored_unless_redirect_witness :
    Client.call (nodeAnsweringWith 200 balanceBody) RpcResponseU64.shape (NewClient Devnet) []
        (Context.live 0) "getBalance" (some [Arg.string "abc"]) RpcResponseU64.shape.zero
      = Client.call (nodeAnsweringWith 503 balanceBody) RpcResponseU64.shape (NewClient Devnet)
        [] (Context.live 0) "getBalance" (some [Arg.string "abc"]) RpcResponseU64.shape.zero
    ∧ (Client.call (nodeAnsweringWith 503 balanceBody) RpcResponseU64.shape (NewClient Devnet)
        [] (Context.live 0) "getBalance" (some [Arg.string "abc"])
        RpcResponseU64.shape.zero).err = none
    ∧ (Client.call (nodeAnsweringWith 502 gatewayPage) RpcResponseU64.shape (NewClient Devnet)
        [] (Context.live 0) "getBalance" (some [Arg.string "abc"])
        RpcResponseU64.shape.zero).err
      = some (CallError.decodeResponse "invalid character looking for beginning of value") :=
  ⟨(status_code_is_ignored_unless_redirect (nodeAnsweringWith 200 balanceBody)
      (nodeAnsweringWith 503 balanceBody) RpcResponseU64.shape (NewClient Devnet)
      [] (Context.live 0) "getBalance" (some [Arg.string "abc"]) RpcResponseU64.shape.zero
      (balanceRequest "abc") rfl rfl).2 200 "" 503 "" balanceBody rfl rfl rfl rfl,
    rfl,
    ((status_code_is_ignored_unless_redirect (nodeAnsweringWith 502 gatewayPage)
      (nodeAnsweringWith 200 gatewayPage) RpcResponseU64.shape (NewClient Devnet)
      [] (Context.live 0) "getBalance" (some [Arg.string "abc"]) RpcResponseU64.shape.zero
      (balanceRequest "abc") rfl rfl).1 502 200 gatewayPage rfl rfl).2.2 _ rfl⟩

/-- The wrappers written out are the shared wrapper body at their result
shape. -/
theorem wrappers_are_run (rt : Runtime) (c : Client) (sent : List HTTPRequest) (ctx : Context) :
    (∀ pubkey config, Client.GetBalance rt c sent ctx pubkey config
        = (Invocation.GetBalance pubkey config).run rt RpcResponseU64.shape c sent ctx)
    ∧ (∀ startSlot endSlot config, Client.GetBlocks rt c sent ctx startSlot endSlot config
        = (Invocation.GetBlocks startSlot endSlot config).run rt slotsShape c sent ctx)
    ∧ Client.GetVersion rt c sent ctx = Invocation.GetVersion.run rt Version.shape c sent ctx
    ∧ (∀ slot, Client.GetBlockTime rt c sent ctx slot
        = (Invocation.GetBlockTime slot).run rt int64Shape c sent ctx)
    ∧ (∀ dataLength config,
        Client.GetMinimumBalanceForRentExemption rt c sent ctx dataLength config
          = (Invocation.GetMinimumBalanceForRentExemption dataLength config).run rt int64Shape
              c sent ctx)
    ∧ (∀ config, Client.GetSlot rt c sent ctx config
        = (Invocation.GetSlot config).run rt int64Shape c sent ctx) :=
  ⟨fun _ _ => rfl, fun _ _ _ => rfl, rfl, fun _ => rfl, fun _ _ => rfl, fun _ => rfl⟩

/-- C7: for every wrapper and every argument assignment whose absent optional
arguments form a suffix of the declared parameters, the wrapper builds the
non-nil list of exactly the present arguments in declaration order (optional
ones dereferenced, no placeholder for an absent one, the empty list and not nil
when none is present), passes that list to `call` under its method name, and the
request `call` then hands to the HTTP client carries as `params` the encodings of
those arguments, one for one in the same order. -/
theorem wrappers_send_present_arguments {α : Type} (inv : Invocation) (present : List Arg)
    (n : Nat) (rt : Runtime) (S : Shape α) (c : Client) (sent : List HTTPRequest)
    (ctx : Context)
    (h : inv.args = present.map some ++ List.replicate n none) :
    inv.params = some present
    ∧ inv.run rt S c sent ctx = Client.call rt S c sent ctx inv.method (some present) S.zero
    ∧ (∀ req, Client.request rt c ctx inv.method (some present) = Except.ok req →
        (inv.run rt S c sent ctx).sent = sent ++ [req]
        ∧ ∃ js : List JSON,
            req.Body = JSON.obj [("jsonrpc", JSON.str "2.0"), ("id", JSON.num false c.nextID),
              ("method", JSON.str inv.method), ("params", JSON.arr js)]
            ∧ List.Forall₂ (fun a j => marshalArg a = Except.ok j) present js) := by
  have hp : inv.params = some present := by
    rw [params_eq_present, h, List.filterMap_append, filterMap_replicate_none,
      List.append_nil, List.filterMap_map]
    congr 1
    exact List.filterMap_some present
  have hrun : inv.run rt S c sent ctx
      = Client.call rt S c sent ctx inv.method (some present) S.zero := by
    simp only [Invocation.run, hp]
  refine ⟨hp, hrun, ?_⟩
  intro req hq
  refine ⟨?_, ?_⟩
  · rw [hrun, call_sent, hq]
  · obtain ⟨ps, u, hm, _, _, hreq⟩ := request_ok_form rt c ctx inv.method _ req hq
    simp only [marshalParams] at hm
    cases hj : marshalArgs present with
    | error e => simp only [hj] at hm; cases hm
    | ok js =>
      simp only [hj] at hm
      cases hm
      exact ⟨js, by rw [hreq], marshalArgs_forall₂ present js hj⟩

/-- C7, at concrete inputs: `GetMinimumBalanceForRentExemption(100, nil)` sends
`[100]` and `GetSlot(nil)` sends `[]`. -/
theorem wrappers_send_present_arguments_witness :
    (Client.GetMinimumBalanceForRentExemption (nodeAnswering healthBody) (NewClient Devnet) []
        (Context.live 0) 100 none).sent = [] ++ [rentRequest]
    ∧ rentRequest.Body.member "params" = some (JSON.arr [JSON.num false 100])
    ∧ (Client.GetSlot (nodeAnswering healthBody) (NewClient Devnet) [] (Context.live 0)
        none).sent = [] ++ [slotRequest]
    ∧ slotRequest.Body.member "params" = some (JSON.arr []) :=
  ⟨((wrappers_send_present_arguments (Invocation.GetMinimumBalanceForRentExemption 100 none)
      [Arg.int64 100] 1 (nodeAnswering healthBody) int64Shape (NewClient Devnet) []
      (Context.live 0) rfl).2.2 rentRequest rfl).1,
    rfl,
    ((wrappers_send_present_arguments (Invocation.GetSlot none) [] 1
      (nodeAnswering healthBody) int64Shape (NewClient Devnet) [] (Context.live 0)
      rfl).2.2 slotRequest rfl).1,
    rfl⟩

/-- C8, amended: `GetBlocks` and `GetLeaderSchedule` reject no combination of
arguments: whatever is present or absent, the wrapper passes to `call` the list
of exactly the present arguments in declaration order (start slot, end slot,
config for `GetBlocks`; slot, config for `GetLeaderSchedule`), an absent one
skipped without a placeholder. Whenever it is not the case that the earlier optional
argument is absent while the later one is present, every value of that list sits
at the index of its declared parameter. -/
theorem optionals_sent_in_order {α : Type} (rt : Runtime) (S : Shape α) (c : Client)
    (sent : List HTTPRequest) (ctx : Context) :
    (∀ (startSlot : Slot) (endSlot : Option Slot) (config : Option CommitmentConfig),
      (Invocation.GetBlocks startSlot endSlot config).args
        = [some (Arg.int64 startSlot), endSlot.map Arg.int64, config.map Arg.commitmentConfig]
      ∧ Client.GetBlocks rt c sent ctx startSlot endSlot config
        = Client.call rt slotsShape c sent ctx "getBlocks"
            (some ((Invocation.GetBlocks startSlot endSlot config).args.filterMap id)) none
      ∧ (Invocation.GetBlocks startSlot endSlot config).run rt S c sent ctx
        = Client.call rt S c sent ctx "getBlocks"
            (some ((Invocation.GetBlocks startSlot endSlot config).args.filterMap id)) S.zero
      ∧ (¬ (endSlot = none ∧ config ≠ none) →
          positional (Invocation.GetBlocks startSlot endSlot config).args
            ((Invocation.GetBlocks startSlot endSlot config).args.filterMap id)))
    ∧ (∀ (slot : Option Slot) (config : Option GetLeaderScheduleConfig),
      (Invocation.GetLeaderSchedule slot config).args
        = [slot.map Arg.int64, config.map Arg.getLeaderScheduleConfig]
      ∧ (Invocation.GetLeaderSchedule slot config).run rt S c sent ctx
        = Client.call rt S c sent ctx "getLeaderSchedule"
            (some ((Invocation.GetLeaderSchedule slot config).args.filterMap id)) S.zero
      ∧ (¬ (slot = none ∧ config ≠ none) →
          positional (Invocation.GetLeaderSchedule slot config).args
            ((Invocation.GetLeaderSchedule slot config).args.filterMap id))) := by
  constructor
  · intro startSlot endSlot config
    refine ⟨rfl, ?_, ?_, ?_⟩
    · cases endSlot <;> cases config <;> rfl
    · cases endSlot <;> cases config <;> rfl
    · intro hn
      cases endSlot with
      | none =>
        cases config with
        | none => exact positional_of_map_some [Arg.int64 startSlot] [none, none]
        | some cfg => exact absurd ⟨rfl, Option.some_ne_none cfg⟩ hn
      | some e =>
        cases config with
        | none => exact positional_of_map_some [Arg.int64 startSlot, Arg.int64 e] [none]
        | some cfg =>
          exact positional_of_map_some
            [Arg.int64 startSlot, Arg.int64 e, Arg.commitmentConfig cfg] []
  · intro slot config
    refine ⟨rfl, ?_, ?_⟩
    · cases slot <;> cases config <;> rfl
    · intro hn
      cases slot with
      | none =>
        cases config with
        | none => exact positional_of_map_some [] [none, none]
        | some cfg => exact absurd ⟨rfl, Option.some_ne_none cfg⟩ hn
      | some s =>
        cases config with
        | none => exact positional_of_map_some [Arg.int64 s] [none]
        | some cfg =>
          exact positional_of_map_some [Arg.int64 s, Arg.getLeaderScheduleConfig cfg] []

/-- C8, amended, at concrete inputs: `GetBlocks(5, 9, finalized)` passes the three
values at their indices, and `GetBlocks(5, nil, finalized)` passes the start slot
and the config. -/
theorem optionals_sent_in_order_witness :
    positional (Invocation.GetBlocks 5 (some 9) (some ⟨"finalized", 0⟩)).args
        ((Invocation.GetBlocks 5 (some 9) (some ⟨"finalized", 0⟩)).args.filterMap id)
    ∧ (Invocation.GetBlocks 5 (some 9) (some ⟨"finalized", 0⟩)).args.filterMap id
        = [Arg.int64 5, Arg.int64 9, Arg.commitmentConfig ⟨"finalized", 0⟩]
    ∧ Client.GetBlocks (nodeAnswering healthBody) (NewClient Devnet) [] (Context.live 0)
        5 none (some ⟨"finalized", 0⟩)
      = Client.call (nodeAnswering healthBody) slotsShape (NewClient Devnet) [] (Context.live 0)
          "getBlocks" (some [Arg.int64 5, Arg.commitmentConfig ⟨"finalized", 0⟩]) none :=
  ⟨((optionals_sent_in_order (nodeAnswering healthBody) slotsShape (NewClient Devnet) []
      (Context.live 0)).1 5 (some 9) (some ⟨"finalized", 0⟩)).2.2.2
      (fun hn => Option.some_ne_none _ hn.1),
    rfl,
    ((optionals_sent_in_order (nodeAnswering healthBody) slotsShape (NewClient Devnet) []
      (Context.live 0)).1 5 none (some ⟨"finalized", 0⟩)).2.1⟩

/-- Whether a string is stored does not depend on what was there before. -/
theorem storeString_error (a b : String) (j : JSON) :
    (storeString a j).2 = (storeString b j).2 := by
  cases j <;> rfl

/-- Whether an unsigned integer is stored does not depend on what was there
before. -/
theorem storeUint64_error (a b : Nat) (j : JSON) :
    (storeUint64 a j).2 = (storeUint64 b j).2 := by
  cases j with
  | num neg m =>
    simp only [storeUint64]
    split <;> rfl
  | _ => rfl

/-- Decoding one member keeps two decoder states in agreement on what `call`
reads. -/
theorem sameOutcome_step (a b : rpcResponse × Option String) (kv : String × JSON)
    (h : sameOutcome a b) :
    sameOutcome (rpcResponse.storeMember a kv) (rpcResponse.storeMember b kv) := by
  obtain ⟨hr, he, hs⟩ := h
  unfold rpcResponse.storeMember
  by_cases h1 : keyMatches kv.1 "jsonrpc" = true
  · simp only [h1, if_true]
    exact ⟨hr, he, by rw [hs, storeString_error a.1.JsonRPC b.1.JsonRPC]⟩
  · simp only [h1, Bool.false_eq_true, if_false]
    by_cases h2 : keyMatches kv.1 "id" = true
    · simp only [h2, if_true]
      exact ⟨hr, he, by rw [hs, storeUint64_error a.1.ID b.1.ID]⟩
    · simp only [h2, Bool.false_eq_true, if_false]
      by_cases h3 : keyMatches kv.1 "result" = true
      · simp only [h3, if_true]
        exact ⟨rfl, he, hs⟩
      · simp only [h3, Bool.false_eq_true, if_false]
        by_cases h4 : keyMatches kv.1 "error" = true
        · simp only [h4, if_true]
          exact ⟨hr, by rw [he], by rw [hs, he]⟩
        · simp only [h4, Bool.false_eq_true, if_false]
          exact ⟨hr, he, hs⟩

/-- Decoding an echo member whose value its field accepts changes nothing of
what `call` reads. -/
theorem sameOutcome_echo (a : rpcResponse × Option String) (kv : String × JSON)
    (h1 : isEcho kv = true) (h2 : echoOK kv = true) :
    sameOutcome a (rpcResponse.storeMember a kv) := by
  unfold rpcResponse.storeMember
  unfold echoOK at h2
  by_cases hj : keyMatches kv.1 "jsonrpc" = true
  · simp only [hj, if_true] at h2 ⊢
    have hn : (storeString a.1.JsonRPC kv.2).2 = none := by
      rw [storeString_error a.1.JsonRPC ""]
      exact Option.isNone_iff_eq_none.mp h2
    refine ⟨rfl, rfl, ?_⟩
    simp only [hn, saveError]
    cases a.2 <;> rfl
  · simp only [hj, Bool.false_eq_true, if_false] at h2 ⊢
    have hi : keyMatches kv.1 "id" = true := by
      simp only [isEcho, Bool.or_eq_true] at h1
      rcases h1 with h1 | h1
      · exact absurd h1 hj
      · exact h1
    simp only [hi, if_true]
    have hn : (storeUint64 a.1.ID kv.2).2 = none := by
      rw [storeUint64_error a.1.ID 0]
      exact Option.isNone_iff_eq_none.mp h2
    refine ⟨rfl, rfl, ?_⟩
    simp only [hn, saveError]
    cases a.2 <;> rfl

/-- Decoding the members of an object, and decoding them without the echo
members, agree on what `call` reads, when every echo member has a value its
field accepts. -/
theorem sameOutcome_filter (ms : List (String × JSON)) :
    ∀ a b : rpcResponse × Option String, sameOutcome a b →
      (∀ kv ∈ ms, isEcho kv = true → echoOK kv = true) →
      sameOutcome (ms.foldl rpcResponse.storeMember a)
        ((ms.filter (fun kv => !isEcho kv)).foldl rpcResponse.storeMember b) := by
  induction ms with
  | nil => intro a b h _; exact h
  | cons kv rest ih =>
    intro a b h hok
    have hrest : ∀ x ∈ rest, isEcho x = true → echoOK x = true :=
      fun x hx => hok x (List.mem_cons_of_mem kv hx)
    by_cases he : isEcho kv = true
    · have hstep := sameOutcome_echo a kv he (hok kv (List.mem_cons_self kv rest) he)
      have hab : sameOutcome (rpcResponse.storeMember a kv) b :=
        ⟨hstep.1.symm.trans h.1, hstep.2.1.symm.trans h.2.1, hstep.2.2.symm.trans h.2.2⟩
      simp only [List.foldl_cons, List.filter_cons, he, Bool.not_true, Bool.false_eq_true,
        if_false]
      exact ih _ _ hab hrest
    · have he2 : isEcho kv = false := by simpa using he
      simp only [List.foldl_cons, List.filter_cons, he2, Bool.not_false, if_true]
      exact ih _ _ (sameOutcome_step a b kv h) hrest

/-- An error recorded by the decoder stays recorded. -/
theorem storeMember_keeps_error (ms : List (String × JSON)) :
    ∀ a : rpcResponse × Option String, a.2.isSome = true →
      (ms.foldl rpcResponse.storeMember a).2.isSome = true := by
  induction ms with
  | nil => intro a h; exact h
  | cons kv rest ih =>
    intro a h
    rw [List.foldl_cons]
    apply ih
    obtain ⟨e, he⟩ := Option.isSome_iff_exists.mp h
    unfold rpcResponse.storeMember
    split
    · simp only [he, saveError, Option.isSome_some]
    · split
      · simp only [he, saveError, Option.isSome_some]
      · split
        · simp only [he, Option.isSome_some]
        · split
          · simp only [he, saveError, Option.isSome_some]
          · exact h

/-- An echo member whose value its field does not accept makes the decoder
record an error. -/
theorem storeMember_bad_echo (a : rpcResponse × Option String) (kv : String × JSON)
    (h1 : isEcho kv = true) (h2 : echoOK kv = false) :
    (rpcResponse.storeMember a kv).2.isSome = true := by
  unfold rpcResponse.storeMember
  unfold echoOK at h2
  by_cases hj : keyMatches kv.1 "jsonrpc" = true
  · simp only [hj, if_true] at h2 ⊢
    have hn : (storeString a.1.JsonRPC kv.2).2.isSome = true := by
      rw [storeString_error a.1.JsonRPC ""]
      cases hx : (storeString "" kv.2).2 with
      | none => rw [hx] at h2; simp at h2
      | some e => rfl
    obtain ⟨e, he⟩ := Option.isSome_iff_exists.mp hn
    simp only [he, saveError]
    cases a.2 <;> rfl
  · simp only [hj, Bool.false_eq_true, if_false] at h2 ⊢
    have hi : keyMatches kv.1 "id" = true := by
      simp only [isEcho, Bool.or_eq_true] at h1
      rcases h1 with h1 | h1
      · exact absurd h1 hj
      · exact h1
    simp only [hi, if_true]
    have hn : (storeUint64 a.1.ID kv.2).2.isSome = true := by
      rw [storeUint64_error a.1.ID 0]
      cases hx : (storeUint64 0 kv.2).2 with
      | none => rw [hx] at h2; simp at h2
      | some e => rfl
    obtain ⟨e, he⟩ := Option.isSome_iff_exists.mp hn
    simp only [he, saveError]
    cases a.2 <;> rfl

/-- An object with an echo member whose value its field does not accept does not
decode as an envelope. -/
theorem decodeEnvelope_bad_echo (ms : List (String × JSON)) (kv : String × JSON)
    (hmem : kv ∈ ms) (h1 : isEcho kv = true) (h2 : echoOK kv = false) :
    ∃ cause, decodeEnvelope (Body.json (JSON.obj ms)) = Except.error cause := by
  obtain ⟨pre, post, hms⟩ := List.append_of_mem hmem
  have hsome : (ms.foldl rpcResponse.storeMember (rpcResponse.zero, none)).2.isSome = true := by
    rw [hms, List.foldl_append, List.foldl_cons]
    exact storeMember_keeps_error post _ (storeMember_bad_echo _ kv h1 h2)
  simp only [decodeEnvelope]
  cases hx : ms.foldl rpcResponse.storeMember (rpcResponse.zero, none) with
  | mk r err =>
    rw [hx] at hsome
    cases err with
    | none => simp at hsome
    | some e => exact ⟨e, rfl⟩

/-- C20, as stated, fails: two response envelopes that differ only in their `id`
member, the number 1 in one and the string `abc` in the other, give different
outcomes: the first succeeds, the second fails with `decode response`. -/
theorem string_id_changes_outcome :
    (Client.call (nodeAnswering balanceBody) RpcResponseU64.shape (NewClient Devnet) []
        (Context.live 0) "getBalance" (some [Arg.string "abc"])
        RpcResponseU64.shape.zero).err = none
    ∧ (Client.call (nodeAnswering balanceBodyStringID) RpcResponseU64.shape (NewClient Devnet)
        [] (Context.live 0) "getBalance" (some [Arg.string "abc"])
        RpcResponseU64.shape.zero).err
      = some (CallError.decodeResponse
          "json: cannot unmarshal value into Go value of type uint64") :=
  ⟨rfl, rfl⟩

/-- C20, amended: two response objects that differ only in their `id` and
`jsonrpc` members (in their values, their places, or their being there at all),
in each of which every `id` member is `null` or an unsigned 64-bit integer and
every `jsonrpc` member is `null` or a string, give the same returned error,
result and client: an identifier other than the one sent or a version other than
"2.0" changes nothing. A response object with an `id` member of another kind (a
string, a negative or fractional number, 2^64 or more) or a `jsonrpc` member that
is not a string makes `call` fail with `decode response`. -/
theorem echoed_id_and_version_are_ignored {α : Type} (rt1 rt2 : Runtime) (S : Shape α)
    (c : Client) (sent : List HTTPRequest) (ctx : Context) (method : String)
    (params : GoSlice Arg) (result : α) (req : HTTPRequest) (status1 status2 : Nat)
    (ms1 ms2 : List (String × JSON))
    (hq1 : Client.request rt1 c ctx method params = Except.ok req)
    (hq2 : Client.request rt2 c ctx method params = Except.ok req)
    (h1 : rt1.roundTrip sent req = RoundTrip.response status1 (Body.json (JSON.obj ms1)))
    (h2 : rt2.roundTrip sent req = RoundTrip.response status2 (Body.json (JSON.obj ms2))) :
    (ms1.filter (fun kv => !isEcho kv) = ms2.filter (fun kv => !isEcho kv) →
      (∀ kv ∈ ms1, isEcho kv = true → echoOK kv = true) →
      (∀ kv ∈ ms2, isEcho kv = true → echoOK kv = true) →
      Client.call rt1 S c sent ctx method params result
        = Client.call rt2 S c sent ctx method params result)
    ∧ (∀ kv ∈ ms1, isEcho kv = true → echoOK kv = false →
      ∃ cause, (Client.call rt1 S c sent ctx method params result).err
        = some (CallError.decodeResponse cause)) := by
  constructor
  · intro hf hok1 hok2
    have hrefl : sameOutcome (rpcResponse.zero, none) (rpcResponse.zero, none) :=
      ⟨rfl, rfl, rfl⟩
    have s1 := sameOutcome_filter ms1 _ _ hrefl hok1
    have s2 := sameOutcome_filter ms2 _ _ hrefl hok2
    rw [hf] at s1
    have s : sameOutcome (ms1.foldl rpcResponse.storeMember (rpcResponse.zero, none))
        (ms2.foldl rpcResponse.storeMember (rpcResponse.zero, none)) :=
      ⟨s1.1.trans s2.1.symm, s1.2.1.trans s2.2.1.symm, s1.2.2.trans s2.2.2.symm⟩
    rw [call_of_request_ok rt1 S c sent ctx method params result req hq1,
      call_of_request_ok rt2 S c sent ctx method params result req hq2]
    simp only [h1, h2, decodeEnvelope]
    cases hx : ms1.foldl rpcResponse.storeMember (rpcResponse.zero, none) with
    | mk r1 e1 =>
      cases hy : ms2.foldl rpcResponse.storeMember (rpcResponse.zero, none) with
      | mk r2 e2 =>
        rw [hx, hy] at s
        obtain ⟨hr, he, hs⟩ := s
        simp only at hr he hs
        subst hs
        cases e1 with
        | some e => rfl
        | none =>
          simp only
          rw [hr, he]
  · intro kv hmem hecho hbad
    obtain ⟨cause, hd⟩ := decodeEnvelope_bad_echo ms1 kv hmem hecho hbad
    refine ⟨cause, ?_⟩
    rw [call_of_request_ok rt1 S c sent ctx method params result req hq1]
    simp only [h1, hd]

/-- C20, amended, at a concrete input: a balance response without `jsonrpc`
member that echoes the identifier 99, in front of the result, to a request that
carried the identifier 1 gives the same outcome as one echoing version "2.0" and
identifier 1. -/
theorem echoed_id_and_version_are_ignored_witness :
    Client.call (nodeAnswering (Body.json (JSON.obj balanceMembers))) RpcResponseU64.shape
        (NewClient Devnet) [] (Context.live 0) "getBalance" (some [Arg.string "abc"])
        RpcResponseU64.shape.zero
      = Client.call (nodeAnswering (Body.json (JSON.obj balanceMembersOtherEcho)))
        RpcResponseU64.shape (NewClient Devnet) [] (Context.live 0) "getBalance"
        (some [Arg.string "abc"]) RpcResponseU64.shape.zero
    ∧ (Client.call (nodeAnswering (Body.json (JSON.obj balanceMembersOtherEcho)))
        RpcResponseU64.shape (NewClient Devnet) [] (Context.live 0) "getBalance"
        (some [Arg.string "abc"]) RpcResponseU64.shape.zero).result.Value = 42 :=
  ⟨(echoed_id_and_version_are_ignored (nodeAnswering (Body.json (JSON.obj balanceMembers)))
      (nodeAnswering (Body.json (JSON.obj balanceMembersOtherEcho))) RpcResponseU64.shape
      (NewClient Devnet) [] (Context.live 0) "getBalance" (some [Arg.string "abc"])
      RpcResponseU64.shape.zero (balanceRequest "abc") 200 200 balanceMembers
      balanceMembersOtherEcho rfl rfl rfl rfl).1 rfl (by decide) (by decide),
    rfl⟩

end Solana
